import Mathlib

/-!
# GenAI Microservices Connector: reconciliation engine

A shallow embedding of `internal/controller/gmconnector_controller.go`.

* Go strings are Lean strings; `strings.Split`, `strings.SplitN`, `strings.Contains`,
  `strconv.Atoi` and the `%d` verb are written out over the characters of the string.
* Go maps are association lists, visited front to back; a `nil` map that the code may write
  to is an `Option`.
* A call that can return an `error` or panic at run time returns `Go α`.
* The cluster API server is a store of objects (`Cluster`); the YAML decoder, the file system,
  `text/template`, `json.Marshal`, `controllerutil.SetControllerReference` and the answers of
  the API server about the graph resource itself are fields of `World`.
-/

namespace GMC

/-! ## Run-time outcomes -/

/-- How a Go call fails: with a returned `error` value, or with a run-time panic. -/
inductive Fault where
  | error (msg : String)
  | panic (msg : String)
deriving DecidableEq, Repr

/-- Result of a Go call that may fail. -/
abbrev Go (α : Type) := Except Fault α

deriving instance DecidableEq for Except

/-- Whether a result is a returned `error` (not a panic, not a value). -/
def Go.isError {α : Type} : Go α → Bool
  | .error (.error _) => true
  | _ => false

/-! ## Strings -/

/-- Fields of `strings.Split(s, sep)` on character lists, for a non-empty separator `sep`.
The counter is the number of characters of an already matched separator still to skip. -/
def splitSep (sep : List Char) : List Char → Nat → List (List Char)
  | [], _ => [[]]
  | _ :: cs, skip + 1 => splitSep sep cs skip
  | c :: cs, 0 =>
    if sep.isPrefixOf (c :: cs) then [] :: splitSep sep cs (sep.length - 1)
    else
      match splitSep sep cs 0 with
      | [] => [[c]]
      | f :: fs => (c :: f) :: fs

/-- Go `strings.Split(s, sep)` for a non-empty separator. -/
def stringsSplit (s sep : String) : List String :=
  (splitSep sep.data s.data 0).map String.mk

/-- Go `strings.SplitN(s, sep, 2)` on character lists: cut at the first separator. -/
def splitFirst (sep : List Char) : List Char → Nat → Option (List Char × List Char)
  | [], _ => none
  | c :: cs, 0 =>
    if sep.isPrefixOf (c :: cs) then some ([], (c :: cs).drop sep.length)
    else (splitFirst sep cs 0).map (fun p => (c :: p.1, p.2))
  | _ :: _, _ + 1 => none

/-- Go `strings.SplitN(s, sep, 2)`: one field when `sep` does not occur, else two. -/
def stringsSplitN2 (s sep : String) : List String :=
  match splitFirst sep.data s.data 0 with
  | none => [s]
  | some (a, b) => [String.mk a, String.mk b]

/-- Go `strings.Contains` on character lists. -/
def containsChars (pat : List Char) : List Char → Bool
  | [] => pat.isEmpty
  | c :: cs => pat.isPrefixOf (c :: cs) || containsChars pat cs

/-- Go `strings.Contains(s, substr)`. -/
def stringsContains (s substr : String) : Bool := containsChars substr.data s.data

/-- Go `strings.TrimPrefix(s, p)`. -/
def stringsTrimPrefix (s p : String) : String :=
  if p.data.isPrefixOf s.data then String.mk (s.data.drop p.data.length) else s

/-- Go `strings.ReplaceAll(s, "'", "\\'")` on character lists. -/
def escapeQuotes : List Char → List Char
  | [] => []
  | c :: cs => if c = '\'' then '\\' :: '\'' :: escapeQuotes cs else c :: escapeQuotes cs

/-- The decimal digit character of a number below ten. -/
def digitChar (d : Nat) : Char := Char.ofNat (48 + d)

/-- Decimal digits of `n`, most significant first; `fuel` bounds the number of digits. -/
def natDigits : Nat → Nat → List Char
  | 0, _ => []
  | fuel + 1, n =>
    if n < 10 then [digitChar n] else natDigits fuel (n / 10) ++ [digitChar (n % 10)]

/-- The `%d` verb of `fmt.Sprintf` on a natural number. -/
def fmtNat (n : Nat) : String := String.mk (natDigits (n + 1) n)

/-- The `%d` verb of `fmt.Sprintf` on an integer. -/
def fmtInt : Int → String
  | Int.ofNat n => fmtNat n
  | Int.negSucc n => "-" ++ fmtNat (n + 1)

/-- Value of a decimal digit character. -/
def digitVal (c : Char) : Option Nat :=
  if 48 ≤ c.toNat ∧ c.toNat ≤ 57 then some (c.toNat - 48) else none

/-- Value of a non-empty run of decimal digits, accumulated from the left. -/
def parseDigits : List Char → Nat → Option Nat
  | [], acc => some acc
  | c :: cs, acc =>
    match digitVal c with
    | none => none
    | some d => parseDigits cs (acc * 10 + d)

/-- Largest value of the Go `int` of a 64-bit platform. -/
def maxInt : Nat := 2 ^ 63 - 1

/-- Go `strconv.Atoi` on a 64-bit platform: an optional sign, then decimal digits; `none` is the
returned error (syntax error, or value out of the range of `int`). -/
def strconvAtoi (s : String) : Option Int :=
  match s.data with
  | [] => none
  | '+' :: cs =>
    if cs = [] then none
    else (parseDigits cs 0).bind (fun n => if n ≤ maxInt then some (Int.ofNat n) else none)
  | '-' :: cs =>
    if cs = [] then none
    else (parseDigits cs 0).bind (fun n => if n ≤ maxInt + 1 then some (-(Int.ofNat n)) else none)
  | cs => (parseDigits cs 0).bind (fun n => if n ≤ maxInt then some (Int.ofNat n) else none)

/-! ## Maps -/

/-- Go `map[string]string`, as an association list visited front to back. -/
abbrev StrMap := List (String × String)

/-- Go `v, ok := m[k]`. -/
def mapLookup : StrMap → String → Option String
  | [], _ => none
  | (k', v) :: m, k => if k' = k then some v else mapLookup m k

/-- Go `m[k]` in an expression: the zero value when the key is absent. -/
def mapGet (m : StrMap) (k : String) : String := (mapLookup m k).getD ""

/-- Go `_, ok := m[k]`. -/
def mapHas (m : StrMap) (k : String) : Bool := (mapLookup m k).isSome

/-- Go `m[k] = v` on a non-nil map. -/
def mapSet : StrMap → String → String → StrMap
  | [], k, v => [(k, v)]
  | (k', v') :: m, k, v => if k' = k then (k, v) :: m else (k', v') :: mapSet m k v

/-- The keys of a map, in visiting order. -/
def mapKeys (m : StrMap) : List String := m.map Prod.fst

/-- Go `m[k] = v` on a map that may be nil: writing to a nil map panics. -/
def nilMapSet (m : Option StrMap) (k v : String) : Go (Option StrMap) :=
  match m with
  | none => .error (.panic "assignment to entry in nil map")
  | some m => .ok (some (mapSet m k v))

/-! ## Kubernetes objects -/

/-- `corev1.EnvVar`: name and literal value. -/
structure EnvVar where
  name : String
  value : String
deriving DecidableEq, Repr

/-- `corev1.Container`: its env list; `rest` stands for every other field. -/
structure Container where
  name : String
  env : List EnvVar
  rest : String
deriving DecidableEq, Repr

/-- `corev1.PodTemplateSpec` of a workload. -/
structure PodTemplate where
  labels : Option StrMap
  annotations : Option StrMap
  containers : List Container
  initContainers : List Container
deriving DecidableEq, Repr

/-- `corev1.ServicePort`. -/
structure ServicePort where
  port : Int
  nodePort : Int
deriving DecidableEq, Repr

/-- `metav1.OwnerReference`. -/
structure OwnerReference where
  kind : String
  name : String
deriving DecidableEq, Repr

/-- `appsv1.DeploymentCondition`. -/
structure Condition where
  condType : String
  status : String
  reason : String
  message : String
deriving DecidableEq, Repr

/-- Status block of a live Deployment or StatefulSet. -/
structure WorkloadStatus where
  replicas : Int
  updatedReplicas : Int
  availableReplicas : Int
  unavailableReplicas : Int
  readyReplicas : Int
  currentReplicas : Int
  conditions : List Condition
deriving DecidableEq, Repr

/-- A cluster object (`unstructured.Unstructured` and its typed views), with the fields the
controller reads or writes; `rest` stands for everything else in the document.

* `selector` is `Spec.Selector` of a Service;
* `matchLabels` is `Spec.Selector.MatchLabels` of a workload: the outer `none` is a nil
  selector pointer, the inner one a nil map;
* `strategy` is `Spec.Strategy.Type` of a Deployment or `Spec.UpdateStrategy.Type` of a
  StatefulSet, and `rollingUpdate` the `RollingUpdate` parameters next to it (a nil pointer
  is `none`);
* `replicas` is `*Spec.Replicas`, which the API server defaults on every live workload;
* `data` is the data of a ConfigMap. -/
structure K8sObj where
  kind : String
  apiVersion : String
  name : String
  ns : String
  resourceVersion : Nat
  ownerReferences : List OwnerReference
  annotations : Option StrMap
  selector : Option StrMap
  serviceType : String
  ports : List ServicePort
  externalName : String
  ingressIPs : List String
  matchLabels : Option (Option StrMap)
  template : PodTemplate
  strategy : String
  rollingUpdate : Option String
  replicas : Int
  status : WorkloadStatus
  data : StrMap
  rest : String
deriving DecidableEq, Repr

/-- The object store of the API server. -/
abbrev Cluster := List K8sObj

/-- Whether `o` is the object of this group-version-kind, namespace and name. -/
def K8sObj.isAt (o : K8sObj) (apiVersion kind ns name : String) : Bool :=
  o.apiVersion = apiVersion && o.kind = kind && o.ns = ns && o.name = name

/-- Answer of `client.Get`: the stored object, or `none` for NotFound. -/
def Cluster.get : Cluster → String → String → String → String → Option K8sObj
  | [], _, _, _, _ => none
  | o :: os, apiVersion, kind, ns, name =>
    if o.isAt apiVersion kind ns name then some o else Cluster.get os apiVersion kind ns name

/-- Effect of `client.Create` of an object that is absent: it is stored as submitted. -/
def Cluster.create (c : Cluster) (o : K8sObj) : Cluster := c ++ [o]

/-- What the API server stores on `client.Update`: the submitted document with the status block
it already holds; the resource version moves only when the document differs from the
stored one. -/
def storedAfterUpdate (stored submitted : K8sObj) : K8sObj :=
  let merged := { submitted with status := stored.status, resourceVersion := stored.resourceVersion }
  if merged = stored then stored else { merged with resourceVersion := stored.resourceVersion + 1 }

/-- Effect of `client.Update` on the store. -/
def Cluster.update : Cluster → K8sObj → Cluster
  | [], _ => []
  | o :: os, n =>
    if o.isAt n.apiVersion n.kind n.ns n.name then storedAfterUpdate o n :: os
    else o :: Cluster.update os n

/-- Effect of `client.Delete` on the store; `none` when nothing is stored under the key. -/
def Cluster.delete : Cluster → String → String → String → String → Option Cluster
  | [], _, _, _, _ => none
  | o :: os, apiVersion, kind, ns, name =>
    if o.isAt apiVersion kind ns name then some os
    else (Cluster.delete os apiVersion kind ns name).map (fun r => o :: r)

/-! ## The graph resource

Modelled from the spec: the Go types of package `v1alpha3` (`gmconnector_types.go` is not among
the sources), with the fields the controller reads and writes. -/

/-- `GMCTarget`: an internally managed service. -/
structure GMCTarget where
  NameSpace : String
  ServiceName : String
  Config : StrMap
  IsDownstreamService : Bool
deriving DecidableEq, Repr

/-- `Step` with its embedded `Executor`. -/
structure Step where
  StepName : String
  NodeName : String
  InternalService : GMCTarget
  ExternalService : String
  ServiceURL : String
deriving DecidableEq, Repr

/-- `Router`: a node, that is a list of steps. -/
structure Router where
  Steps : List Step
deriving DecidableEq, Repr

/-- `RouterConfig`. -/
structure RouterConfig where
  Name : String
  NameSpace : String
  ServiceName : String
deriving DecidableEq, Repr

/-- `GMConnectorSpec`; `Nodes` is a Go map from node name to node. -/
structure GMConnectorSpec where
  Nodes : List (String × Router)
  RouterConfig : RouterConfig
deriving DecidableEq, Repr

/-- `GMConnectorStatus`. -/
structure GMConnectorStatus where
  Status : String
  AccessURL : String
  Annotations : StrMap
deriving DecidableEq, Repr

/-- `GMConnector`. -/
structure GMConnector where
  Name : String
  Namespace : String
  ResourceVersion : String
  Spec : GMConnectorSpec
  Status : GMConnectorStatus
deriving DecidableEq, Repr

/-- `RouterCfg`, the values substituted into the router template. -/
structure RouterCfg where
  Namespace : String
  SvcName : String
  DplymntName : String
  NoProxy : String
  HttpProxy : String
  HttpsProxy : String
  GRAPH_JSON : String
deriving DecidableEq, Repr

/-- Answer of the API server to the read of the graph resource in `collectResourceStatus`. -/
inductive GraphRead where
  | found (resourceVersion : String)
  | notFound
  | failed
deriving DecidableEq, Repr

/-- The collaborators of the controller that are not part of it. -/
structure World where
  /-- Package variable `gmcNs`. -/
  gmcNs : String
  /-- Package variable `GMCConfigMapName`. -/
  GMCConfigMapName : String
  /-- Namespace of the ambient kubeconfig (`kubeConfig.Namespace()`). -/
  kubeconfigNamespace : Except String String
  /-- Go `os.ReadFile`. -/
  readFile : String → Except String String
  /-- The YAML decoder, applied to one document of a manifest. -/
  decode : String → Except String K8sObj
  /-- Parsing the router manifest with `text/template` and executing it. -/
  executeTemplate : String → RouterCfg → Except String String
  /-- Go `json.Marshal` of a graph that carries the given spec. -/
  marshal : GMConnectorSpec → Except String String
  /-- `controllerutil.SetControllerReference(graph, obj, scheme)`, which reads the name and
  the namespace of the graph. -/
  setControllerReference : String → String → K8sObj → Except String K8sObj
  /-- Go `time.Now().Format(time.RFC3339)`. -/
  now : String
  /-- Read of the latest graph resource before the status write. -/
  latestGraph : GMConnector → GraphRead
  /-- Answer to `Status().Update`: `none` on success, else the error. -/
  statusUpdate : GMConnector → Option String

/-! ## Constants and the manifest table -/

def VectorDB : String := "VectorDB"
def Llm : String := "Llm"
def Router_ : String := "router"
def yaml_dir : String := "/tmp/microservices/yamls/"
def Service : String := "Service"
def Deployment : String := "Deployment"
def StatefulSet : String := "StatefulSet"
def ServiceAccount : String := "ServiceAccount"
def dplymtSubfix : String := "-deployment"
def DefaultRouterServiceName : String := "router-service"

/-- The table `yamlDict` from step kind to manifest path. -/
def yamlDict : StrMap :=
  [("Fingerprint", yaml_dir ++ "fingerprint-usvc.yaml"),
   ("TeiEmbedding", yaml_dir ++ "tei.yaml"),
   ("TeiEmbeddingGaudi", yaml_dir ++ "tei_gaudi.yaml"),
   ("TorchserveEmbedding", yaml_dir ++ "torchserve_embedding.yaml"),
   ("TorchserveReranking", yaml_dir ++ "torchserve_reranking.yaml"),
   ("Embedding", yaml_dir ++ "embedding-usvc.yaml"),
   (VectorDB, yaml_dir ++ "redis-vector-db.yaml"),
   ("Retriever", yaml_dir ++ "retriever-usvc.yaml"),
   ("Reranking", yaml_dir ++ "reranking-usvc.yaml"),
   ("PromptTemplate", yaml_dir ++ "prompt-template-usvc.yaml"),
   ("TeiReranking", yaml_dir ++ "teirerank.yaml"),
   ("TeiRerankingGaudi", yaml_dir ++ "teirerank_gaudi.yaml"),
   (Llm, yaml_dir ++ "llm-usvc.yaml"),
   ("DocSum", yaml_dir ++ "docsum-llm-uservice.yaml"),
   (Router_, yaml_dir ++ "gmc-router.yaml"),
   ("WebRetriever", yaml_dir ++ "web-retriever.yaml"),
   ("Asr", yaml_dir ++ "asr.yaml"),
   ("Tts", yaml_dir ++ "tts.yaml"),
   ("SpeechT5", yaml_dir ++ "speecht5.yaml"),
   ("SpeechT5Gaudi", yaml_dir ++ "speecht5_gaudi.yaml"),
   ("Whisper", yaml_dir ++ "whisper.yaml"),
   ("WhisperGaudi", yaml_dir ++ "whisper_gaudi.yaml"),
   ("DataPrep", yaml_dir ++ "dataprep-usvc.yaml"),
   ("LLMGuardInput", yaml_dir ++ "in-guard-usvc.yaml"),
   ("LLMGuardOutput", yaml_dir ++ "out-guard-usvc.yaml"),
   ("Ingestion", yaml_dir ++ "ingestion-usvc.yaml"),
   ("VLLMGaudi", yaml_dir ++ "vllm_gaudi.yaml"),
   ("VLLM", yaml_dir ++ "vllm.yaml"),
   ("LanguageDetection", yaml_dir ++ "langdtct-usvc.yaml")]

/-- `lookupManifestDir`: the manifest path of a step kind, `""` when the kind is not registered. -/
def lookupManifestDir (step : String) : String :=
  match mapLookup yamlDict step with
  | some value => value
  | none => ""

/-- `setEnvVars`: append the variables to the env list of every container. -/
def setEnvVars (containers : List Container) (envVars : List EnvVar) : List Container :=
  containers.map (fun c => { c with env := c.env ++ envVars })

/-- Loop of `getLLMModelNameFromVLLMConfigMap` over the two ConfigMap names. -/
def getLLMModelNameLoop (c : Cluster) (graphNs : String) : List String → String
  | [] => ""
  | configMapName :: rest =>
    match c.get "v1" "ConfigMap" graphNs configMapName with
    | none => getLLMModelNameLoop c graphNs rest
    | some configMap =>
      match mapLookup configMap.data "LLM_VLLM_MODEL_NAME" with
      | some modelName => modelName
      | none => getLLMModelNameLoop c graphNs rest

/-- `getLLMModelNameFromVLLMConfigMap`. -/
def getLLMModelNameFromVLLMConfigMap (c : Cluster) (graphNs : String) : String :=
  getLLMModelNameLoop c graphNs ["vllm-gaudi-config", "vllm-config"]

/-! ## Endpoint resolution -/

/-- `isDownStreamEndpointKey`: the allow-list of downstream endpoint variables. -/
def isDownStreamEndpointKey (keyname : String) : Bool :=
  keyname = "TEI_EMBEDDING_ENDPOINT" ||
  keyname = "RERANKING_SERVICE_ENDPOINT" ||
  keyname = "VLLM_ENDPOINT" ||
  keyname = "LLM_MODEL_SERVER_ENDPOINT" ||
  keyname = "EMBEDDING_MODEL_SERVER_ENDPOINT" ||
  keyname = "ASR_ENDPOINT" ||
  keyname = "TTS_ENDPOINT" ||
  keyname = "TEI_ENDPOINT"

/-- Loop of `findDownStreamService` over the steps of the node. -/
def findDownStreamLoop (dsName : String) : List Step → Option Step
  | [] => none
  | otherStep :: rest =>
    if otherStep.InternalService.ServiceName = dsName && otherStep.InternalService.IsDownstreamService
    then some otherStep
    else findDownStreamLoop dsName rest

/-- `findDownStreamService`; a nil pointer is `none`. -/
def findDownStreamService (dsName : String) (stepCfg : Option Step) (nodeCfg : Option Router) :
    Option Step :=
  match stepCfg, nodeCfg with
  | some _, some node => findDownStreamLoop dsName node.Steps
  | _, _ => none

/-- `getDownstreamSvcEndpointInNs`: address of a live Service of another namespace. -/
def getDownstreamSvcEndpointInNs (c : Cluster) (ns dsName : String) : Go String :=
  match c.get "v1" Service ns dsName with
  | none =>
    .error (.error ("failed to get service " ++ dsName ++ " in namespace " ++ ns ++ ": not found"))
  | some svc =>
    match svc.ports with
    | [] => .error (.panic "index out of range [0] with length 0")
    | p :: _ => .ok ("http://" ++ svc.name ++ "." ++ svc.ns ++ ".svc:" ++ fmtInt p.port)

/-- Inner loop of the env scan: the first variable of that name in one env list. -/
def findEnvVar (envVarName : String) : List EnvVar → Option String
  | [] => none
  | env :: rest => if env.name = envVarName then some env.value else findEnvVar envVarName rest

/-- Outer loop of the env scan: containers in order, each env list in order. -/
def scanContainers (envVarName : String) : List Container → Option String
  | [] => none
  | container :: rest =>
    match findEnvVar envVarName container.env with
    | some v => some v
    | none => scanContainers envVarName rest

/-- `fetchEnvVarFromService`: the variable as set on the live Deployment. -/
def fetchEnvVarFromService (c : Cluster) (ns serviceName envVarName : String) : Go String :=
  match c.get "apps/v1" Deployment ns serviceName with
  | none =>
    .error (.error ("failed to get deployment " ++ serviceName ++ " in namespace " ++ ns ++
      ": not found"))
  | some deployment =>
    match scanContainers envVarName deployment.template.containers with
    | some v => .ok v
    | none =>
      .error (.error ("environment variable " ++ envVarName ++ " not found in deployment " ++
        serviceName ++ " in namespace " ++ ns))

/-- `fetchEnvVarFromServiceStatefulSet`: the variable as set on the live StatefulSet. -/
def fetchEnvVarFromServiceStatefulSet (c : Cluster) (ns serviceName envVarName : String) :
    Go String :=
  match c.get "apps/v1" StatefulSet ns serviceName with
  | none =>
    .error (.error ("failed to get deployment " ++ serviceName ++ " in namespace " ++ ns ++
      ": not found"))
  | some deployment =>
    match scanContainers envVarName deployment.template.containers with
    | some v => .ok v
    | none =>
      .error (.error ("environment variable " ++ envVarName ++ " not found in deployment " ++
        serviceName ++ " in namespace " ++ ns))

/-- `getNsNameFromStep`: the namespace and name overrides of a step without external service. -/
def getNsNameFromStep (step : Step) : String × String :=
  if step.ExternalService = "" then
    (step.InternalService.NameSpace, step.InternalService.ServiceName)
  else ("", "")

/-- Loop of `getServiceDetailsFromManifests` over the documents of the manifest. -/
def serviceDetailsLoop (w : World) : List String → Except String (String × Int)
  | [] => .error "service name or port not found"
  | res :: rest =>
    if res = "" || !stringsContains res "kind: Service" then serviceDetailsLoop w rest
    else
      match w.decode res with
      | .error e => .error e
      | .ok svc =>
        if svc.kind = "Service" then
          match svc.ports with
          | p :: _ => .ok (svc.name, p.port)
          | [] => serviceDetailsLoop w rest
        else serviceDetailsLoop w rest

/-- `getServiceDetailsFromManifests`: name and first port of the first Service document with
a port in the static manifest file. -/
def getServiceDetailsFromManifests (w : World) (filePath : String) : Except String (String × Int) :=
  match w.readFile filePath with
  | .error e => .error e
  | .ok data => serviceDetailsLoop w (stringsSplit data "---")

/-- `getDownstreamSvcEndpoint`; a nil step is `none`. -/
def getDownstreamSvcEndpoint (w : World) (graphNs dsName : String) (stepCfg : Option Step) :
    Go String :=
  match stepCfg with
  | none => .error (.error ("empty stepCfg for " ++ dsName))
  | some stepCfg =>
    let tmplt := lookupManifestDir stepCfg.StepName
    if tmplt = "" then .error (.error ("failed to find yaml file for " ++ dsName))
    else
      match getServiceDetailsFromManifests w tmplt with
      | .ok (svcName, port) =>
        let altNs := if (getNsNameFromStep stepCfg).1 = "" then graphNs
          else (getNsNameFromStep stepCfg).1
        let altSvcName := if (getNsNameFromStep stepCfg).2 = "" then svcName
          else (getNsNameFromStep stepCfg).2
        if stepCfg.StepName = VectorDB then
          .ok ("redis://" ++ altSvcName ++ "." ++ altNs ++ ".svc:" ++ fmtInt port)
        else
          .ok ("http://" ++ altSvcName ++ "." ++ altNs ++ ".svc:" ++ fmtInt port)
      | .error e =>
        .error (.error ("failed to get service details for " ++ dsName ++ ": " ++ e ++ "\n"))

/-- Which of the two workload branches of `reconcileResource` is shaping the document. -/
inductive WorkloadKind where
  | deployment
  | statefulSet
deriving DecidableEq, Repr

/-- Lines 287-295 (and 395-403): the `fetch_from:` directive of a Config value. The result is
the fetch flag and the working value. -/
def parseFetchFrom (value : String) : Go (Bool × String) :=
  match stringsSplitN2 value ":" with
  | [p0, p1] =>
    if p0 = "fetch_from" then .ok (true, p1)
    else .error (.error ("Invalid syntax: expected 'fetch_from:service/namespace', got '" ++
      value ++ "'"))
  | _ => .ok (false, value)

/-- Lines 297-308 (and 405-416): the working value as `service` or `service/namespace`. The
result is the endpoint and its namespace. -/
def splitServiceNamespace (graphNs value : String) : Go (String × String) :=
  match stringsSplit value "/" with
  | [_] => .ok (value, graphNs)
  | [endpoint, ns] => .ok (endpoint, ns)
  | _ => .error (.error ("Invalid syntax: expected 'service/namespace', got '" ++ value ++ "'"))

/-- Lines 310-327 (and 418-435): the value of the variable once the target is known. -/
def resolveTarget (w : World) (c : Cluster) (k : WorkloadKind) (graphNs : String)
    (stepCfg : Step) (nodeCfg : Router) (name value : String) (fetch : Bool)
    (endpoint ns : String) : Go String :=
  if fetch then
    match (match k with
      | .deployment => fetchEnvVarFromService c ns endpoint name
      | .statefulSet => fetchEnvVarFromServiceStatefulSet c ns endpoint name) with
    | .ok v => .ok v
    | .error (.error e) =>
      .error (.error ("failed to fetch environment variable " ++ name ++ " from service " ++
        endpoint ++ " in namespace " ++ ns ++ ": " ++ e))
    | .error f => .error f
  else if isDownStreamEndpointKey name then
    match (if ns = graphNs then
        getDownstreamSvcEndpoint w ns endpoint
          (findDownStreamService endpoint (some stepCfg) (some nodeCfg))
      else getDownstreamSvcEndpointInNs c ns endpoint) with
    | .ok v => .ok v
    | .error (.error e) =>
      .error (.error ("failed to find downstream service endpoint " ++ name ++ "-" ++ endpoint ++
        ": " ++ e))
    | .error f => .error f
  else .ok value

/-- Body of the loop over `Step.Config` for one entry that is not `endpoint` or `nodes`
(lines 284-327 and 392-435): the value of the environment variable `name`. -/
def resolveConfigValue (w : World) (c : Cluster) (k : WorkloadKind) (graphNs : String)
    (stepCfg : Step) (nodeCfg : Router) (name value : String) : Go String :=
  match parseFetchFrom value with
  | .error f => .error f
  | .ok (fetch, value) =>
    match splitServiceNamespace graphNs value with
    | .error f => .error f
    | .ok (endpoint, ns) => resolveTarget w c k graphNs stepCfg nodeCfg name value fetch endpoint ns

/-- The loop over `Step.Config` (lines 279-333 and 387-441): the environment variables
appended so far, or the failure that ends `reconcileResource`. -/
def resolveConfig (w : World) (c : Cluster) (k : WorkloadKind) (graphNs : String)
    (stepCfg : Step) (nodeCfg : Router) : StrMap → List EnvVar → Go (List EnvVar)
  | [], newEnvVars => .ok newEnvVars
  | (name, value) :: rest, newEnvVars =>
    if name = "endpoint" || name = "nodes" then
      resolveConfig w c k graphNs stepCfg nodeCfg rest newEnvVars
    else
      match resolveConfigValue w c k graphNs stepCfg nodeCfg name value with
      | .error f => .error f
      | .ok v =>
        resolveConfig w c k graphNs stepCfg nodeCfg rest (newEnvVars ++ [{ name := name, value := v }])

/-- The provenance key written by `recordResource`: `"%s:%s:%s:%s"` of kind, apiVersion, name
and namespace. -/
def resourceKey (obj : K8sObj) : String :=
  obj.kind ++ ":" ++ obj.apiVersion ++ ":" ++ obj.name ++ ":" ++ obj.ns

/-- Go `strings.Split(s, sep)[i]`: an index out of range panics. -/
def splitField (s sep : String) (i : Nat) : Go String :=
  match (stringsSplit s sep)[i]? with
  | some f => .ok f
  | none => .error (.panic "index out of range")

/-! ## Provenance and status -/

/-- `getServiceURL`: the address a Service is reached at, by Service type. -/
def getServiceURL (service : K8sObj) : String :=
  if service.serviceType = "ClusterIP" then
    match service.ports with
    | p :: _ => "http://" ++ service.name ++ "." ++ service.ns ++ ".svc:" ++ fmtInt p.port
    | [] => ""
  else if service.serviceType = "NodePort" then
    match service.ports with
    | p :: _ => "<node-ip>:" ++ fmtInt p.nodePort
    | [] => ""
  else if service.serviceType = "LoadBalancer" then
    match service.ports, service.ingressIPs with
    | p :: _, ip :: _ => ip ++ ":" ++ fmtInt p.port
    | _, _ => ""
  else if service.serviceType = "ExternalName" then service.externalName
  else ""

/-- Go `graph.Spec.Nodes[nodeName]`: the zero node when the name is absent. -/
def nodeLookup : List (String × Router) → String → Router
  | [], _ => { Steps := [] }
  | (n, node) :: rest, nodeName => if n = nodeName then node else nodeLookup rest nodeName

/-- Go `steps[i].ServiceURL = url`. -/
def setStepURL : List Step → Nat → String → List Step
  | [], _, _ => []
  | s :: rest, 0, url => { s with ServiceURL := url } :: rest
  | s :: rest, i + 1, url => s :: setStepURL rest i url

/-- Go `graph.Spec.Nodes[nodeName].Steps[stepIdx].ServiceURL = url`. -/
def setNodeStepURL : List (String × Router) → String → Nat → String → List (String × Router)
  | [], _, _, _ => []
  | (n, node) :: rest, nodeName, i, url =>
    if n = nodeName then (n, { Steps := setStepURL node.Steps i url }) :: rest
    else (n, node) :: setNodeStepURL rest nodeName i url

/-- `recordResource`: record the object under its provenance key; a Service also publishes
its address. -/
def recordResource (graph : GMConnector) (nodeName : String) (stepIdx : Nat) (obj : K8sObj) :
    Go GMConnector :=
  let ann := mapSet graph.Status.Annotations (resourceKey obj) "provisioned"
  if obj.kind = Service then
    if graph.Spec.Nodes.length ≠ 0 ∧ (nodeLookup graph.Spec.Nodes nodeName).Steps.length ≠ 0 then
      match (nodeLookup graph.Spec.Nodes nodeName).Steps[stepIdx]? with
      | none => .error (.panic "index out of range")
      | some step =>
        let url := getServiceURL obj ++ mapGet step.InternalService.Config "endpoint"
        .ok { graph with
          Spec := { graph.Spec with Nodes := setNodeStepURL graph.Spec.Nodes nodeName stepIdx url }
          Status := { graph.Status with Annotations := mapSet ann (resourceKey obj) url } }
    else
      let url := getServiceURL obj
      .ok { graph with
        Status := { graph.Status with Annotations := mapSet ann (resourceKey obj) url, AccessURL := url } }
  else .ok { graph with Status := { graph.Status with Annotations := ann } }

/-- `deleteRecordedResource`: delete the object a provenance key names; a failed delete is
logged and ignored. -/
def deleteRecordedResource (c : Cluster) (key : String) : Go Cluster :=
  match splitField key ":" 0, splitField key ":" 1, splitField key ":" 2, splitField key ":" 3 with
  | .ok kind, .ok apiVersion, .ok name, .ok ns =>
    match c.delete apiVersion kind ns name with
    | some c' => .ok c'
    | none => .ok c
  | _, _, _, _ => .error (.panic "index out of range")

/-- The conditions block of the status text of a Deployment. -/
def conditionsText : List Condition → String
  | [] => ""
  | condition :: rest =>
    "  Type: " ++ condition.condType ++ "\n" ++ "  Status: " ++ condition.status ++ "\n" ++
    "  Reason: " ++ condition.reason ++ "\n" ++ "  Message: " ++ condition.message ++ "\n" ++
    conditionsText rest

/-- The status text written for a live Deployment. -/
def deploymentText (d : K8sObj) : String :=
  (if d.status.availableReplicas = d.replicas then "Ready" else "Not ready") ++
  "; Replicas: " ++ fmtInt d.replicas ++ " desired | " ++ fmtInt d.status.updatedReplicas ++
  " updated | " ++ fmtInt d.status.replicas ++ " total | " ++
  fmtInt d.status.availableReplicas ++ " available | " ++
  fmtInt d.status.unavailableReplicas ++ " unavailable\n" ++ "Conditions:\n" ++
  conditionsText d.status.conditions

/-- The status text written for a live StatefulSet. -/
def statefulSetText (s : K8sObj) : String :=
  (if s.status.readyReplicas = s.replicas then "Ready" else "Not ready") ++
  "; Replicas: " ++ fmtInt s.replicas ++ " desired | " ++ fmtInt s.status.readyReplicas ++
  " ready | " ++ fmtInt s.status.currentReplicas ++ " current | " ++
  fmtInt s.status.updatedReplicas ++ " updated\n"

/-- Loop state of `collectResourceStatus`. The counters are Go `uint`; a map never holds enough
keys to wrap them. -/
structure Counters where
  annotations : StrMap
  totalCnt : Nat
  readyCnt : Nat
deriving DecidableEq, Repr

/-- Body of the loop of `collectResourceStatus` for one tracked key. -/
def collectOne (c : Cluster) (st : Counters) (resName : String) : Go Counters :=
  match splitField resName ":" 0, splitField resName ":" 2, splitField resName ":" 3 with
  | .ok kind, .ok name, .ok ns =>
    if kind = Deployment || kind = StatefulSet then
      match c.get "apps/v1" kind ns name with
      | none => .ok { st with totalCnt := st.totalCnt + 1 }
      | some d =>
        if kind = Deployment then
          .ok { annotations := mapSet st.annotations resName (deploymentText d)
                totalCnt := st.totalCnt + 1
                readyCnt := if d.status.availableReplicas = d.replicas then st.readyCnt + 1
                  else st.readyCnt }
        else
          .ok { annotations := mapSet st.annotations resName (statefulSetText d)
                totalCnt := st.totalCnt + 1
                readyCnt := if d.status.readyReplicas = d.replicas then st.readyCnt + 1
                  else st.readyCnt }
    else .ok st
  | _, _, _ => .error (.panic "index out of range")

/-- The loop of `collectResourceStatus` over the tracked keys. -/
def collectLoop (c : Cluster) : List String → Counters → Go Counters
  | [], st => .ok st
  | resName :: rest, st =>
    match collectOne c st resName with
    | .error f => .error f
    | .ok st' => collectLoop c rest st'

/-- Lines 923-936 of `collectResourceStatus`: take the resource version of the latest graph,
then write the status to the cluster. -/
def updateStatus (w : World) (graph : GMConnector) : GMConnector × Option Fault :=
  match w.statusUpdate
      (match w.latestGraph graph with
        | .notFound => graph
        | .found rv => { graph with ResourceVersion := rv }
        | .failed => { graph with ResourceVersion := "" }) with
  | some e =>
    ((match w.latestGraph graph with
        | .notFound => graph
        | .found rv => { graph with ResourceVersion := rv }
        | .failed => { graph with ResourceVersion := "" }),
      some (.error ("Failed to Update CR status to " ++ graph.Status.Status ++ ": " ++ e)))
  | none =>
    ((match w.latestGraph graph with
        | .notFound => graph
        | .found rv => { graph with ResourceVersion := rv }
        | .failed => { graph with ResourceVersion := "" }), none)

/-- `collectResourceStatus`. The graph is changed in place, so the result is the graph as the
call leaves it together with the failure, if any. -/
def collectResourceStatus (w : World) (c : Cluster) (graph : GMConnector) :
    GMConnector × Option Fault :=
  if graph.Status.Annotations.length = 0 then
    (graph, some (.error "graph is empty or no annotations"))
  else
    match collectLoop c (mapKeys graph.Status.Annotations)
        { annotations := graph.Status.Annotations, totalCnt := 0, readyCnt := 0 } with
    | .error f => (graph, some f)
    | .ok st =>
      let graph := { graph with Status := { graph.Status with Annotations := st.annotations } }
      match splitField graph.Status.Status "/" 1 with
      | .error f => (graph, some f)
      | .ok externalResourceCntStr =>
        match strconvAtoi externalResourceCntStr with
        | none => (graph, some (.error "Error converting externalResourceCnt to int"))
        | some externalResourceCnt =>
          updateStatus w { graph with Status := { graph.Status with
            Status := fmtNat st.readyCnt ++ "/" ++ fmtInt externalResourceCnt ++ "/" ++
              fmtNat st.totalCnt } }

/-! ## Template resolution -/

/-- `getTemplateBytes`: the manifest of a step kind, from the override store or else from the
static file. -/
def getTemplateBytes (w : World) (c : Cluster) (resourceType : String) : Except String String :=
  match (if w.gmcNs = "" then w.kubeconfigNamespace else .ok w.gmcNs) with
  | .error e => .error e
  | .ok ns =>
    match c.get "v1" "ConfigMap" ns w.GMCConfigMapName with
    | none => .error "not found"
    | some configMap =>
      let tmpltFile := lookupManifestDir resourceType
      if tmpltFile = "" then .error "unexpected target"
      else
        match mapLookup configMap.data (stringsTrimPrefix tmpltFile yaml_dir) with
        | some yamlContent => .ok yamlContent
        | none => w.readFile tmpltFile

/-- `applyRouterConfigToTemplates`: the router manifest with the router settings substituted. -/
def applyRouterConfigToTemplates (w : World) (step : String) (svcCfg : StrMap)
    (yamlFile : String) : Except String String :=
  if step = "router" then
    match w.executeTemplate yamlFile
        { Namespace := mapGet svcCfg "namespace"
          SvcName := mapGet svcCfg "svcName"
          DplymntName := mapGet svcCfg "dplymntName"
          NoProxy := mapGet svcCfg "no_proxy"
          HttpProxy := mapGet svcCfg "http_proxy"
          HttpsProxy := mapGet svcCfg "https_proxy"
          GRAPH_JSON := mapGet svcCfg "nodes" } with
    | .error e => .error e
    | .ok appliedCfg => .ok appliedCfg
  else .ok yamlFile

/-! ## Resource synthesis -/

/-- Lines 265-270 (and 373-378): name and label a workload after the configured service name. -/
def renameWorkload (svc : String) (obj : K8sObj) : Go K8sObj :=
  if svc ≠ "" then
    match obj.matchLabels with
    | none => .error (.panic "invalid memory address or nil pointer dereference")
    | some matchLabels =>
      match nilMapSet matchLabels "app" svc with
      | .error f => .error f
      | .ok matchLabels' =>
        match nilMapSet obj.template.labels "app" svc with
        | .error f => .error f
        | .ok labels' =>
          .ok { obj with
            name := svc ++ dplymtSubfix
            matchLabels := some matchLabels'
            template := { obj.template with labels := labels' } }
  else .ok obj

/-- Lines 336-345: the model name appended for a Deployment of the LLM kind. -/
def appendLLMModelName (c : Cluster) (k : WorkloadKind) (graphNs : String) (stepCfg : Step)
    (newEnvVars : List EnvVar) : List EnvVar :=
  match k with
  | .statefulSet => newEnvVars
  | .deployment =>
    if stepCfg.StepName = Llm then
      if getLLMModelNameFromVLLMConfigMap c graphNs ≠ "" then
        newEnvVars ++ [{ name := "LLM_MODEL_NAME", value := getLLMModelNameFromVLLMConfigMap c graphNs }]
      else newEnvVars
    else newEnvVars

/-- Lines 347-350 (and 444-447): the variables go to containers and init containers. -/
def appendEnvVars (obj : K8sObj) (newEnvVars : List EnvVar) : K8sObj :=
  if newEnvVars.length > 0 then
    { obj with template := { obj.template with
        containers := setEnvVars obj.template.containers newEnvVars
        initContainers := setEnvVars obj.template.initContainers newEnvVars } }
  else obj

/-- Lines 352-359 (and 449-456): the restart annotation on the pod template. -/
def stampRestart (w : World) (configMapOrServiceChanged : Bool) (obj : K8sObj) : Go K8sObj :=
  if configMapOrServiceChanged then
    match nilMapSet (if obj.annotations = none then some [] else obj.template.annotations)
        "kubectl.kubernetes.io/restartedAt" w.now with
    | .error f => .error f
    | .ok a => .ok { obj with template := { obj.template with annotations := a } }
  else .ok obj

/-- The Deployment branch (lines 258-365) and the StatefulSet branch (lines 366-463) of
`reconcileResource`, on the decoded document. -/
def shapeWorkload (w : World) (c : Cluster) (k : WorkloadKind) (graphNs : String)
    (stepCfg : Step) (nodeCfg : Router) (configMapOrServiceChanged : Bool) (obj : K8sObj) :
    Go K8sObj :=
  match renameWorkload stepCfg.InternalService.ServiceName obj with
  | .error f => .error f
  | .ok obj =>
    match resolveConfig w c k graphNs stepCfg nodeCfg stepCfg.InternalService.Config [] with
    | .error f => .error f
    | .ok newEnvVars =>
      stampRestart w configMapOrServiceChanged
        (appendEnvVars
          { obj with
              strategy := match k with
                | .deployment => "Recreate"
                | .statefulSet => "RollingUpdate"
              rollingUpdate := none }
          (appendLLMModelName c k graphNs stepCfg newEnvVars))

/-- Lines 226-463 of `reconcileResource`: one decoded document shaped by kind. Converting
between the untyped and the typed view of a document keeps it as it is. -/
def shapeDocument (w : World) (c : Cluster) (graphNs : String) (stepCfg : Step)
    (nodeCfg : Router) (configMapOrServiceChanged : Bool) (obj : K8sObj) : Go K8sObj :=
  let ns := if stepCfg.InternalService.NameSpace ≠ "" then stepCfg.InternalService.NameSpace
    else graphNs
  let obj := if ns ≠ "" then { obj with ns := ns } else obj
  if obj.kind = Service ∧ stepCfg.InternalService.ServiceName ≠ "" then
    match nilMapSet obj.selector "app" stepCfg.InternalService.ServiceName with
    | .error f => .error f
    | .ok selector => .ok { obj with name := stepCfg.InternalService.ServiceName, selector := selector }
  else if obj.kind = ServiceAccount then .ok obj
  else if obj.kind = Deployment then
    shapeWorkload w c .deployment graphNs stepCfg nodeCfg configMapOrServiceChanged obj
  else if obj.kind = StatefulSet then
    shapeWorkload w c .statefulSet graphNs stepCfg nodeCfg configMapOrServiceChanged obj
  else .ok obj

/-! ## Apply -/

/-- What the `select` of one round of `applyResourceToK8s` sees: the context is cancelled, or
the ticker fires and the read and the write of the attempt succeed or fail transiently.
The deadline fires when the rounds are used up. -/
inductive Tick where
  | cancelled
  | attempt (getFails writeFails : Bool)
deriving DecidableEq, Repr

/-- A write request sent to the API server, with the object submitted. -/
inductive ApiWrite where
  | create (obj : K8sObj)
  | update (obj : K8sObj)
deriving DecidableEq, Repr

/-- Outcome of `applyResourceToK8s`: the store, the object as the call leaves it, the
`changed` flag, the error, whether the object was created, and the write requests the call
sent, in order, failed ones included. -/
structure ApplyResult where
  cluster : Cluster
  obj : K8sObj
  objectChanged : Bool
  err : Option String
  created : Bool
  writes : List ApiWrite
deriving DecidableEq, Repr

/-- `applyResourceToK8s`: create the object, or update it under the stored resource version,
once per tick until one attempt comes through. -/
def applyResourceToK8s (w : World) (graph : GMConnector) :
    List Tick → Cluster → K8sObj → ApplyResult
  | [], c, obj =>
    { cluster := c, obj := obj, objectChanged := false, created := false, writes := []
      err := some "timed out while trying to update or create resource" }
  | .cancelled :: _, c, obj =>
    { cluster := c, obj := obj, objectChanged := false, created := false, writes := []
      err := some "context cancelled" }
  | .attempt getFails writeFails :: rest, c, obj =>
    match w.setControllerReference graph.Name graph.Namespace obj with
    | .error e =>
      { cluster := c, obj := obj, objectChanged := false, created := false, writes := []
        err := some ("failed to set controller reference: " ++ e) }
    | .ok obj =>
      if getFails then applyResourceToK8s w graph rest c obj
      else
        match c.get obj.apiVersion obj.kind obj.ns obj.name with
        | none =>
          if writeFails then
            { cluster := c, obj := obj, objectChanged := false, created := false
              writes := [.create obj]
              err := some "failed to create resource" }
          else
            { cluster := c.create obj, obj := obj, objectChanged := false, created := true
              writes := [.create obj]
              err := none }
        | some latest =>
          if obj.kind = "PersistentVolumeClaim" then
            { cluster := c, obj := obj, objectChanged := false, created := false, writes := []
              err := none }
          else if writeFails then
            { applyResourceToK8s w graph rest c
                { obj with resourceVersion := latest.resourceVersion } with
              writes := .update { obj with resourceVersion := latest.resourceVersion } ::
                (applyResourceToK8s w graph rest c
                  { obj with resourceVersion := latest.resourceVersion }).writes }
          else
            { cluster := c.update { obj with resourceVersion := latest.resourceVersion }
              writes := [.update { obj with resourceVersion := latest.resourceVersion }]
              obj := storedAfterUpdate latest { obj with resourceVersion := latest.resourceVersion }
              objectChanged := decide (latest ≠
                storedAfterUpdate latest { obj with resourceVersion := latest.resourceVersion })
              created := false
              err := none }

/-! ## The reconcile pass -/

/-- Record of one call of `applyResourceToK8s`. -/
structure ApplyEvent where
  key : String
  created : Bool
  changed : Bool
  failed : Bool
deriving DecidableEq, Repr

/-- The cluster during a pass, with the record of what the pass did to it: the calls of
`applyResourceToK8s` and the keys passed to `deleteRecordedResource`, in order. -/
structure Sys where
  cluster : Cluster
  calls : Nat
  applied : List ApplyEvent
  deleted : List String
deriving DecidableEq, Repr

/-- One call of `applyResourceToK8s` from a pass; `sched` gives the rounds of each call. -/
def applyStep (w : World) (sched : Nat → List Tick) (graph : GMConnector) (sys : Sys)
    (obj : K8sObj) : Sys × ApplyResult :=
  let r := applyResourceToK8s w graph (sched sys.calls) sys.cluster obj
  ({ sys with
      cluster := r.cluster
      calls := sys.calls + 1
      applied := sys.applied ++
        [{ key := resourceKey r.obj, created := r.created, changed := r.objectChanged
           failed := r.err.isSome }] }, r)

/-- The loop of `reconcileResource` over the documents of the manifest (lines 213-476). -/
def reconcileDocs (w : World) (sched : Nat → List Tick) (graphNs : String) (stepCfg : Step)
    (nodeCfg : Router) (graph : GMConnector) :
    List String → Bool → List K8sObj → Sys → Sys × Go (List K8sObj)
  | [], _, retObjs, sys => (sys, .ok retObjs)
  | res :: rest, configMapOrServiceChanged, retObjs, sys =>
    if res = "" || !stringsContains res "kind:" then
      reconcileDocs w sched graphNs stepCfg nodeCfg graph rest configMapOrServiceChanged retObjs sys
    else
      match w.decode res with
      | .error e => (sys, .error (.error e))
      | .ok obj =>
        match shapeDocument w sys.cluster graphNs stepCfg nodeCfg configMapOrServiceChanged obj with
        | .error f => (sys, .error f)
        | .ok obj =>
          match (applyStep w sched graph sys obj).2.err with
          | some e => ((applyStep w sched graph sys obj).1, .error (.error e))
          | none =>
            reconcileDocs w sched graphNs stepCfg nodeCfg graph rest
              (configMapOrServiceChanged ||
                ((applyStep w sched graph sys obj).2.objectChanged &&
                  ((applyStep w sched graph sys obj).2.obj.kind = "ConfigMap" ||
                    (applyStep w sched graph sys obj).2.obj.kind = Service)))
              (retObjs ++ [(applyStep w sched graph sys obj).2.obj])
              (applyStep w sched graph sys obj).1

/-- `reconcileResource`: synthesize and apply the resources of one step. Both pointers are
non-nil at the one call site. -/
def reconcileResource (w : World) (sched : Nat → List Tick) (graphNs : String) (stepCfg : Step)
    (nodeCfg : Router) (graph : GMConnector) (sys : Sys) : Sys × Go (List K8sObj) :=
  match getTemplateBytes w sys.cluster stepCfg.StepName with
  | .error e => (sys, .error (.error e))
  | .ok yamlFile =>
    reconcileDocs w sched graphNs stepCfg nodeCfg graph (stringsSplit yamlFile "---") false [] sys

/-- Lines 721-726 of `Reconcile`: record every object of the step. -/
def recordAll (nodeName : String) (i : Nat) : List K8sObj → GMConnector → Go GMConnector
  | [], graph => .ok graph
  | obj :: rest, graph =>
    match recordResource graph nodeName i obj with
    | .error f => .error f
    | .ok graph' => recordAll nodeName i rest graph'

/-- State of the loops of a pass: the graph as changed in place, the counter of external
steps, and the cluster. -/
structure Pass where
  graph : GMConnector
  externalService : Nat
  sys : Sys
deriving DecidableEq, Repr

/-- Go `graph.Spec.Nodes[nodeName].Steps[i].ServiceURL = step.ExternalService`. -/
def setExternalURL (graph : GMConnector) (nodeName : String) (i : Nat) (url : String) :
    GMConnector :=
  { graph with Spec := { graph.Spec with Nodes := setNodeStepURL graph.Spec.Nodes nodeName i url } }

/-- Body of the loop over the steps of a node (lines 707-732). -/
def reconcileStep (w : World) (sched : Nat → List Tick) (nodeName : String) (node : Router)
    (i : Nat) (step : Step) (st : Pass) : Pass × Option Fault :=
  if step.NodeName ≠ "" then (st, none)
  else if step.ExternalService = "" then
    match reconcileResource w sched st.graph.Namespace step node st.graph st.sys with
    | (sys, .error (.error e)) =>
      ({ st with sys := sys },
        some (.error ("Failed to reconcile service for " ++ step.StepName ++ ": " ++ e)))
    | (sys, .error f) => ({ st with sys := sys }, some f)
    | (sys, .ok objs) =>
      match recordAll nodeName i objs st.graph with
      | .error (.error e) =>
        ({ st with sys := sys },
          some (.error ("Resource created with failure " ++ step.StepName ++ ": " ++ e)))
      | .error f => ({ st with sys := sys }, some f)
      | .ok graph => ({ st with graph := graph, sys := sys }, none)
  else
    ({ st with
        graph := setExternalURL st.graph nodeName i step.ExternalService
        externalService := st.externalService + 1 }, none)

/-- The loop over the steps of one node, from index `i` on. -/
def reconcileSteps (w : World) (sched : Nat → List Tick) (nodeName : String) (node : Router) :
    List Step → Nat → Pass → Pass × Option Fault
  | [], _, st => (st, none)
  | step :: rest, i, st =>
    match reconcileStep w sched nodeName node i step st with
    | (st', some f) => (st', some f)
    | (st', none) => reconcileSteps w sched nodeName node rest (i + 1) st'

/-- The loop over the nodes of the graph (lines 705-734). -/
def reconcileNodes (w : World) (sched : Nat → List Tick) :
    List (String × Router) → Pass → Pass × Option Fault
  | [], st => (st, none)
  | (nodeName, node) :: rest, st =>
    match reconcileSteps w sched nodeName node node.Steps 0 st with
    | (st', some f) => (st', some f)
    | (st', none) => reconcileNodes w sched rest st'

/-- The loop of `reconcileRouterService` over the documents of the router manifest. -/
def routerDocs (w : World) (sched : Nat → List Tick) : List String → Pass → Pass × Option Fault
  | [], st => (st, none)
  | res :: rest, st =>
    if res = "" || !stringsContains res "kind:" then routerDocs w sched rest st
    else
      match w.decode res with
      | .error e => (st, some (.error e))
      | .ok obj =>
        match (applyStep w sched st.graph st.sys obj).2.err with
        | some e => ({ st with sys := (applyStep w sched st.graph st.sys obj).1 }, some (.error e))
        | none =>
          match recordResource st.graph "" 0 (applyStep w sched st.graph st.sys obj).2.obj with
          | .error f => ({ st with sys := (applyStep w sched st.graph st.sys obj).1 }, some f)
          | .ok graph =>
            routerDocs w sched rest
              { st with graph := graph, sys := (applyStep w sched st.graph st.sys obj).1 }

/-- The settings `reconcileRouterService` substitutes into the router template. -/
def routerSettings (graph : GMConnector) (jsonString : String) : StrMap :=
  mapSet (mapSet (mapSet (mapSet []
    "nodes" ("'" ++ String.mk (escapeQuotes jsonString.data) ++ "'"))
    "namespace" (if graph.Spec.RouterConfig.NameSpace ≠ "" then graph.Spec.RouterConfig.NameSpace
      else graph.Namespace))
    "svcName" (if graph.Spec.RouterConfig.ServiceName ≠ "" then graph.Spec.RouterConfig.ServiceName
      else DefaultRouterServiceName))
    "dplymntName" (if graph.Spec.RouterConfig.ServiceName ≠ ""
      then graph.Spec.RouterConfig.ServiceName ++ dplymtSubfix
      else DefaultRouterServiceName ++ dplymtSubfix)

/-- `reconcileRouterService`: apply and record the router of the graph. -/
def reconcileRouterService (w : World) (sched : Nat → List Tick) (st : Pass) :
    Pass × Option Fault :=
  match w.marshal st.graph.Spec with
  | .error e =>
    (st, some (.error ("Failed to Marshal routes for " ++ st.graph.Spec.RouterConfig.Name ++
      ": " ++ e)))
  | .ok jsonString =>
    match getTemplateBytes w st.sys.cluster Router_ with
    | .error e => (st, some (.error ("Failed to get template bytes for router: " ++ e)))
    | .ok templateBytes =>
      match applyRouterConfigToTemplates w Router_ (routerSettings st.graph jsonString)
          templateBytes with
      | .error e => (st, some (.error e))
      | .ok appliedCfg => routerDocs w sched (stringsSplit appliedCfg "---") st

/-- The garbage-collection loop (lines 746-751) over the keys of the snapshot: a key absent
from the rebuilt map is passed to `deleteRecordedResource`. -/
def gcLoop (annotations : StrMap) : List String → Sys → Sys × Option Fault
  | [], sys => (sys, none)
  | k :: rest, sys =>
    if mapHas annotations k then gcLoop annotations rest sys
    else
      match deleteRecordedResource sys.cluster k with
      | .error f => ({ sys with deleted := sys.deleted ++ [k] }, some f)
      | .ok c => gcLoop annotations rest { sys with cluster := c, deleted := sys.deleted ++ [k] }

/-- How far a pass got. -/
inductive Stage where
  | steps
  | router
  | gc
  | status
  | done
deriving DecidableEq, Repr

/-- What a pass over one graph leaves: the graph as changed in place, the cluster with the
record of calls, the failure returned (with a requeue) if any, and the stage that ended
the pass. -/
structure PassResult where
  graph : GMConnector
  sys : Sys
  failure : Option Fault
  stage : Stage
deriving DecidableEq, Repr

/-- The graph with a fresh annotation map (lines 696-703). -/
def clearAnnotations (graph : GMConnector) : GMConnector :=
  { graph with Status := { graph.Status with Annotations := [] } }

/-- Line 754: the status string before aggregation. -/
def setInitialStatus (graph : GMConnector) (externalService : Nat) : GMConnector :=
  { graph with Status := { graph.Status with
      Status := fmtNat 0 ++ "/" ++ fmtNat externalService ++ "/" ++ fmtNat 0 } }

/-- Go `errors.Wrapf(err, msg)` on a failure: a panic is not an error value. -/
def wrapFault (msg : String) : Fault → Fault
  | .error e => .error (msg ++ ": " ++ e)
  | .panic p => .panic p

/-- Body of the loop of `Reconcile` over the graphs to reconcile (lines 681-759): one pass
over one graph, from the cluster `c`. -/
def reconcileGraph (w : World) (sched : Nat → List Tick) (c : Cluster) (graph : GMConnector) :
    PassResult :=
  let oldAnnotations := graph.Status.Annotations
  match reconcileNodes w sched graph.Spec.Nodes
      { graph := clearAnnotations graph, externalService := 0
        sys := { cluster := c, calls := 0, applied := [], deleted := [] } } with
  | (st, some f) => { graph := st.graph, sys := st.sys, failure := some f, stage := .steps }
  | (st, none) =>
    match reconcileRouterService w sched st with
    | (st, some f) =>
      { graph := st.graph, sys := st.sys, stage := .router
        failure := some (wrapFault "Failed to reconcile router service" f) }
    | (st, none) =>
      match gcLoop st.graph.Status.Annotations (mapKeys oldAnnotations) st.sys with
      | (sys, some f) => { graph := st.graph, sys := sys, failure := some f, stage := .gc }
      | (sys, none) =>
        match collectResourceStatus w sys.cluster (setInitialStatus st.graph st.externalService) with
        | (graph, some f) =>
          { graph := graph, sys := sys, stage := .status
            failure := some (wrapFault "Failed to collect service status" f) }
        | (graph, none) => { graph := graph, sys := sys, failure := none, stage := .done }

/-! ## Counting tracked workloads

The counts of the status string, as the specification words them. -/

/-- Field `i` of a provenance key, `""` when the key has fewer fields. -/
def keyField (k : String) (i : Nat) : String := ((stringsSplit k ":")[i]?).getD ""

/-- Whether a tracked key is of kind Deployment or StatefulSet. -/
def isWorkloadKey (k : String) : Bool :=
  keyField k 0 = Deployment || keyField k 0 = StatefulSet

/-- Whether a tracked key is a workload whose live object is fetched and has as many
available (Deployment) or ready (StatefulSet) replicas as desired. -/
def isReadyKey (c : Cluster) (k : String) : Bool :=
  isWorkloadKey k &&
    match c.get "apps/v1" (keyField k 0) (keyField k 3) (keyField k 2) with
    | none => false
    | some d =>
      if keyField k 0 = Deployment then decide (d.status.availableReplicas = d.replicas)
      else decide (d.status.readyReplicas = d.replicas)

/-- Number of tracked keys of kind Deployment or StatefulSet. -/
def trackedTotal (keys : List String) : Nat := keys.countP isWorkloadKey

/-- Number of tracked workloads that are fetched and ready. -/
def trackedReady (c : Cluster) (keys : List String) : Nat := keys.countP (isReadyKey c)

/-- A provenance key has at least the four fields kind, apiVersion, name and namespace. -/
def isProvenanceKey (k : String) : Prop := 4 ≤ (stringsSplit k ":").length

instance (k : String) : Decidable (isProvenanceKey k) := by
  unfold isProvenanceKey
  infer_instance

/-- The value of the first environment variable of that name, over the containers in
order and the env list of each in order. -/
def firstEnvValue (varName : String) (containers : List Container) : Option String :=
  ((containers.map (fun ct => ct.env)).flatten.find? (fun e => e.name = varName)).map
    (fun e => e.value)

/-! ## Comparing passes -/

/-- No call of `applyResourceToK8s` on record created or changed an object. -/
def quiet (events : List ApplyEvent) : Prop :=
  ∀ e ∈ events, e.created = false ∧ e.changed = false

instance (events : List ApplyEvent) : Decidable (quiet events) := by
  unfold quiet
  infer_instance

/-- What a run of calls does to the cluster: the record of calls only grows, and the
cluster is as before when no call on record created or changed an object. -/
def Sys.frames (sys sys' : Sys) : Prop :=
  sys.applied <+: sys'.applied ∧ (quiet sys'.applied → sys'.cluster = sys.cluster)

/-- Two graphs agree on what the loops of a pass read: name, namespace, spec and
annotation map. -/
def sameForPass (g g' : GMConnector) : Prop :=
  g.Name = g'.Name ∧ g.Namespace = g'.Namespace ∧ g.Spec = g'.Spec ∧
    g.Status.Annotations = g'.Status.Annotations

/-- Two loop states agree on what the loops of a pass read. -/
def Pass.agrees (st st' : Pass) : Prop :=
  sameForPass st.graph st'.graph ∧ st.externalService = st'.externalService ∧ st.sys = st'.sys

/-- Two results of `recordResource` agree. -/
def agreeGo : Go GMConnector → Go GMConnector → Prop
  | .ok g, .ok g' => sameForPass g g'
  | .error f, .error f' => f = f'
  | _, _ => False

/-- The graph as read back for the next pass: the spec as submitted, the status as the pass
wrote it. -/
def nextGraph (graph : GMConnector) (r : PassResult) : GMConnector :=
  { graph with Status := r.graph.Status }

/-! ## Zero values -/

/-- The zero value of a pod template. -/
def emptyTemplate : PodTemplate :=
  { labels := none, annotations := none, containers := [], initContainers := [] }

/-- The zero value of a workload status. -/
def emptyStatus : WorkloadStatus :=
  { replicas := 0, updatedReplicas := 0, availableReplicas := 0, unavailableReplicas := 0
    readyReplicas := 0, currentReplicas := 0, conditions := [] }

/-- The zero value of a document. -/
def emptyObj : K8sObj :=
  { kind := "", apiVersion := "", name := "", ns := "", resourceVersion := 0
    ownerReferences := [], annotations := none, selector := none, serviceType := ""
    ports := [], externalName := "", ingressIPs := [], matchLabels := none
    template := emptyTemplate, strategy := "", rollingUpdate := none, replicas := 0
    status := emptyStatus
    data := [], rest := "" }

/-- The zero value of a step. -/
def emptyStep : Step :=
  { StepName := "", NodeName := ""
    InternalService := { NameSpace := "", ServiceName := "", Config := [], IsDownstreamService := false }
    ExternalService := "", ServiceURL := "" }

/-- The zero value of a graph. -/
def emptyGraph : GMConnector :=
  { Name := "", Namespace := "", ResourceVersion := ""
    Spec := { Nodes := [], RouterConfig := { Name := "", NameSpace := "", ServiceName := "" } }
    Status := { Status := "", AccessURL := "", Annotations := [] } }

/-- A world with no file and no decodable document, in which every other collaborator
answers without error. -/
def bareWorld : World :=
  { gmcNs := "system", GMCConfigMapName := "gmc-config"
    kubeconfigNamespace := .ok "default"
    readFile := fun _ => .error "no such file or directory"
    decode := fun _ => .error "cannot decode"
    executeTemplate := fun t _ => .ok t
    marshal := fun _ => .ok "{}"
    setControllerReference := fun name _ obj =>
      .ok { obj with ownerReferences := [{ kind := "GMConnector", name := name }] }
    now := "2024-01-01T00:00:00Z"
    latestGraph := fun _ => .notFound
    statusUpdate := fun _ => none }

/-- The schedule in which every call of `applyResourceToK8s` comes through at its first tick. -/
def promptly : Nat → List Tick := fun _ => [Tick.attempt false false]

/-! ## A sample graph on a sample cluster

One node with one step of kind `Embedding`, whose manifest in the override store holds a
Service and a Deployment; the router manifest holds a Deployment. -/

/-- The Service document of the sample manifest. -/
def sampleServiceDoc : K8sObj :=
  { emptyObj with
    kind := Service, apiVersion := "v1", name := "embedding-usvc"
    selector := some [("app", "embedding-usvc")], serviceType := "ClusterIP"
    ports := [{ port := 6000, nodePort := 0 }] }

/-- The Deployment document of the sample manifest. -/
def sampleDeploymentDoc : K8sObj :=
  { emptyObj with
    kind := Deployment, apiVersion := "apps/v1", name := "embedding-usvc-deployment"
    matchLabels := some (some [("app", "embedding-usvc")])
    template := { emptyTemplate with
      labels := some [("app", "embedding-usvc")]
      containers := [{ name := "embedding", env := [], rest := "" }] }
    replicas := 1 }

/-- The Deployment document of the sample router manifest. -/
def sampleRouterDoc : K8sObj :=
  { emptyObj with
    kind := Deployment, apiVersion := "apps/v1", name := "router-service-deployment", ns := "rag"
    replicas := 1 }

/-- The Deployment document of the manifest of the `Llm` kind. -/
def sampleLlmDoc : K8sObj :=
  { emptyObj with
    kind := Deployment, apiVersion := "apps/v1", name := "llm-usvc-deployment"
    matchLabels := some (some [("app", "llm-usvc")])
    template := { emptyTemplate with
      labels := some [("app", "llm-usvc")]
      containers := [{ name := "llm", env := [], rest := "" }] }
    replicas := 1 }

/-- The ConfigMap document of the manifest of the `VLLM` kind, which names the model. -/
def sampleVllmConfigDoc : K8sObj :=
  { emptyObj with
    kind := "ConfigMap", apiVersion := "v1", name := "vllm-config"
    data := [("LLM_VLLM_MODEL_NAME", "mistral-7b")] }

/-- A world whose decoder knows the sample documents, and whose file system holds the
static manifest of the `Embedding` kind. -/
def sampleWorld : World :=
  { bareWorld with
    readFile := fun path =>
      if path = "/tmp/microservices/yamls/embedding-usvc.yaml" then
        .ok "kind: Service---kind: Deployment"
      else .error "no such file or directory"
    decode := fun res =>
      if res = "kind: Service" then .ok sampleServiceDoc
      else if res = "kind: Deployment" then .ok sampleDeploymentDoc
      else if res = "kind: Deployment # router" then .ok sampleRouterDoc
      else if res = "kind: Deployment # llm" then .ok sampleLlmDoc
      else if res = "kind: ConfigMap # vllm" then .ok sampleVllmConfigDoc
      else .error "cannot decode" }

/-- The override store with the two sample manifests. -/
def sampleOverrideStore : K8sObj :=
  { emptyObj with
    kind := "ConfigMap", apiVersion := "v1", name := "gmc-config", ns := "system"
    data := [("embedding-usvc.yaml", "kind: Service---kind: Deployment"),
             ("gmc-router.yaml", "kind: Deployment # router"),
             ("llm-usvc.yaml", "kind: Deployment # llm"),
             ("vllm.yaml", "kind: ConfigMap # vllm")] }

/-- A Service `emb` left in the cluster with another selector than the one the graph implies. -/
def staleService : K8sObj :=
  { emptyObj with
    kind := Service, apiVersion := "v1", name := "emb", ns := "rag"
    selector := some [("app", "old")], serviceType := "ClusterIP"
    ports := [{ port := 6000, nodePort := 0 }] }

/-- The sample cluster: the override store and the stale Service. -/
def sampleCluster : Cluster := [sampleOverrideStore, staleService]

/-- The sample graph, with the given status. -/
def sampleGraph (status : GMConnectorStatus) : GMConnector :=
  { Name := "chatqa", Namespace := "rag", ResourceVersion := "1"
    Spec := {
      Nodes := [("root", { Steps := [{ emptyStep with
        StepName := "Embedding"
        InternalService := { NameSpace := "", ServiceName := "emb", Config := []
                             IsDownstreamService := false } }] })]
      RouterConfig := { Name := "router", NameSpace := "", ServiceName := "" } }
    Status := status }

/-- A graph of one node with a step of kind `Llm` followed by a step of kind `VLLM`. -/
def llmGraph (status : GMConnectorStatus) : GMConnector :=
  { Name := "chatqa", Namespace := "rag", ResourceVersion := "1"
    Spec := {
      Nodes := [("root", { Steps := [
        { emptyStep with
          StepName := "Llm"
          InternalService := { NameSpace := "", ServiceName := "llm", Config := []
                               IsDownstreamService := false } },
        { emptyStep with
          StepName := "VLLM"
          InternalService := { NameSpace := "", ServiceName := "vllm", Config := []
                               IsDownstreamService := true } }] })]
      RouterConfig := { Name := "router", NameSpace := "", ServiceName := "" } }
    Status := status }

/-- The status of a graph that no pass has reconciled yet. -/
def freshStatus : GMConnectorStatus := { Status := "", AccessURL := "", Annotations := [] }

/-- The first pass over the sample graph on the sample cluster. -/
def samplePass1 : PassResult := reconcileGraph sampleWorld promptly sampleCluster (sampleGraph freshStatus)

/-- The second pass over the sample graph, on the cluster the first pass left. -/
def samplePass2 : PassResult :=
  reconcileGraph sampleWorld promptly samplePass1.sys.cluster (nextGraph (sampleGraph freshStatus) samplePass1)

/-- The third pass over the sample graph, on the cluster the second pass left. -/
def samplePass3 : PassResult :=
  reconcileGraph sampleWorld promptly samplePass2.sys.cluster
    (nextGraph (sampleGraph freshStatus) samplePass2)

/-- The first pass over the graph of the `Llm` and `VLLM` steps, on a cluster that holds the
override store only. -/
def llmPass1 : PassResult := reconcileGraph sampleWorld promptly [sampleOverrideStore] (llmGraph freshStatus)

/-- The second pass over that graph, on the cluster the first pass left. -/
def llmPass2 : PassResult :=
  reconcileGraph sampleWorld promptly llmPass1.sys.cluster (nextGraph (llmGraph freshStatus) llmPass1)

/-- The sample graph with the given Config on its step, its entries in the order in which
a pass visits them. -/
def configGraph (config : StrMap) (status : GMConnectorStatus) : GMConnector :=
  { sampleGraph status with
    Spec := {
      Nodes := [("root", { Steps := [{ emptyStep with
        StepName := "Embedding"
        InternalService := { NameSpace := "", ServiceName := "emb", Config := config
                             IsDownstreamService := false } }] })]
      RouterConfig := { Name := "router", NameSpace := "", ServiceName := "" } } }

/-- The first pass over the graph with two Config entries, on a cluster that holds the
override store only. -/
def configPass1 : PassResult :=
  reconcileGraph sampleWorld promptly [sampleOverrideStore]
    (configGraph [("MODEL", "bge"), ("PORT", "6000")] freshStatus)

/-- The second pass over that graph, visiting the Config entries in the same order. -/
def configPass2 : PassResult :=
  reconcileGraph sampleWorld promptly configPass1.sys.cluster
    (nextGraph (configGraph [("MODEL", "bge"), ("PORT", "6000")] freshStatus) configPass1)

/-- The second pass over that graph, visiting the Config entries in the other order. -/
def configPass2Swapped : PassResult :=
  reconcileGraph sampleWorld promptly configPass1.sys.cluster
    (nextGraph (configGraph [("PORT", "6000"), ("MODEL", "bge")] freshStatus) configPass1)

/-! ## A graph that tracks three Deployments -/

/-- A live Deployment of namespace `rag` with the given desired and available replicas. -/
def liveDeployment (name : String) (desired available : Int) : K8sObj :=
  { emptyObj with
    kind := Deployment, apiVersion := "apps/v1", name := name, ns := "rag", replicas := desired
    status := { emptyStatus with replicas := desired, availableReplicas := available } }

/-- Two Deployments with their replica available and one without. -/
def threeDeployments : Cluster :=
  [liveDeployment "tei-deployment" 1 1, liveDeployment "llm-deployment" 1 1,
   liveDeployment "retriever-deployment" 1 0]

/-- A graph that tracks the three Deployments and a Service, after a pass that counted one
external step. -/
def threeDeploymentsGraph : GMConnector :=
  setInitialStatus
    { emptyGraph with
      Name := "chatqa", Namespace := "rag"
      Status := { Status := "", AccessURL := ""
                  Annotations := [("Deployment:apps/v1:tei-deployment:rag", "provisioned"),
                                  ("Service:v1:tei:rag", "http://tei.rag.svc:80"),
                                  ("Deployment:apps/v1:llm-deployment:rag", "provisioned"),
                                  ("Deployment:apps/v1:retriever-deployment:rag", "provisioned")] } }
    1

/-- A step of kind `Embedding` marked as downstream service `tei` of namespace `models`, which
also names an external service. -/
def externalDownstreamStep : Step :=
  { emptyStep with
    StepName := "Embedding"
    InternalService := { NameSpace := "models", ServiceName := "tei", Config := []
                         IsDownstreamService := true }
    ExternalService := "http://tei.example.com" }

/-- A live Deployment `mysvc` of namespace `myns` whose one container sets `FOO=bar`. -/
def fooDeployment : K8sObj :=
  { emptyObj with
    kind := Deployment, apiVersion := "apps/v1", name := "mysvc", ns := "myns"
    template := { emptyTemplate with
      containers := [{ name := "main", env := [{ name := "FOO", value := "bar" }], rest := "" }] } }

/-! ## Steps by position, external steps, and the escape read back -/

/-- The step at index `i` of the node stored under `nodeName`, if there is one. -/
def stepAt (nodes : List (String × Router)) (nodeName : String) (i : Nat) : Option Step :=
  (nodeLookup nodes nodeName).Steps[i]?

/-- A step of the node itself (no `NodeName`) that names an external service. -/
def isExternalStep (step : Step) : Bool :=
  decide (step.NodeName = "") && decide (step.ExternalService ≠ "")

/-- Number of external steps over all nodes of a graph spec. -/
def countExternal (nodes : List (String × Router)) : Nat :=
  (nodes.map (fun p => p.2.Steps.countP isExternalStep)).sum

/-- Replacing each backslash-quote pair by a single quote, left to right. -/
def unescapeQuotes : List Char → List Char
  | [] => []
  | [c] => [c]
  | c :: d :: ds =>
    if c = '\\' ∧ d = '\'' then '\'' :: unescapeQuotes ds else c :: unescapeQuotes (d :: ds)

/-- The kind of live workload a fetch reads while a document of kind `k` is shaped. -/
def WorkloadKind.kindName : WorkloadKind → String
  | .deployment => Deployment
  | .statefulSet => StatefulSet

/-- The strategy type the branch of kind `k` sets. -/
def WorkloadKind.strategyName : WorkloadKind → String
  | .deployment => "Recreate"
  | .statefulSet => "RollingUpdate"

/-! ## More samples -/

/-- A live Deployment `mysvc` of namespace `myns` whose init container sets `FOO=bar` and
whose one regular container sets nothing. -/
def initOnlyDeployment : K8sObj :=
  { emptyObj with
    kind := Deployment, apiVersion := "apps/v1", name := "mysvc", ns := "myns"
    template := { emptyTemplate with
      containers := [{ name := "main", env := [], rest := "" }]
      initContainers := [{ name := "init", env := [{ name := "FOO", value := "bar" }], rest := "" }] } }

/-- The step of the sample graph: kind `Embedding`, service name `emb`. -/
def embStep : Step :=
  { emptyStep with
    StepName := "Embedding"
    InternalService := { NameSpace := "", ServiceName := "emb", Config := []
                         IsDownstreamService := false } }

/-- The sample Deployment document, declared with a rolling update. -/
def rollingDeploymentDoc : K8sObj :=
  { sampleDeploymentDoc with strategy := "RollingUpdate", rollingUpdate := some "25%" }

/-- What shaping makes of `rollingDeploymentDoc` for `embStep` in namespace `rag`. -/
def shapedEmbDeployment : K8sObj :=
  { sampleDeploymentDoc with
    name := "emb-deployment", ns := "rag"
    matchLabels := some (some [("app", "emb")])
    template := { sampleDeploymentDoc.template with labels := some [("app", "emb")] }
    strategy := "Recreate", rollingUpdate := none }

/-- A step of kind `Llm` with service name `llm`. -/
def llmStep : Step :=
  { emptyStep with
    StepName := "Llm"
    InternalService := { NameSpace := "", ServiceName := "llm", Config := []
                         IsDownstreamService := false } }

/-- The model-name ConfigMap of the `VLLM` kind, live in namespace `rag`. -/
def liveVllmConfig : K8sObj := { sampleVllmConfigDoc with ns := "rag" }

/-- A step of kind `Embedding` that copies `FOO` from the live workload `mysvc` of `myns`. -/
def fetchStep : Step :=
  { emptyStep with
    StepName := "Embedding"
    InternalService := { NameSpace := "", ServiceName := "emb"
                         Config := [("FOO", "fetch_from:mysvc/myns")]
                         IsDownstreamService := false } }

/-- A step of kind `Embedding` that sets `FOO=bar` and keeps the names of its manifest. -/
def plainStep : Step :=
  { emptyStep with
    StepName := "Embedding"
    InternalService := { NameSpace := "", ServiceName := "", Config := [("FOO", "bar")]
                         IsDownstreamService := false } }

/-- A Deployment document with a regular container that sets `A=1` and an init container. -/
def initDoc : K8sObj :=
  { emptyObj with
    kind := Deployment, apiVersion := "apps/v1", name := "worker"
    template := { emptyTemplate with
      containers := [{ name := "main", env := [{ name := "A", value := "1" }], rest := "image" }]
      initContainers := [{ name := "init", env := [], rest := "setup" }] } }

/-- What shaping makes of `initDoc` for `plainStep`. -/
def shapedInitDoc : K8sObj :=
  { initDoc with
    strategy := "Recreate", rollingUpdate := none
    template := { emptyTemplate with
      containers := [{ name := "main", rest := "image"
                       env := [{ name := "A", value := "1" }, { name := "FOO", value := "bar" }] }]
      initContainers := [{ name := "init", env := [{ name := "FOO", value := "bar" }]
                           rest := "setup" }] } }

/-- A cluster in which `mysvc` of `myns` is live both as a Deployment and as a StatefulSet,
each with `FOO=bar`. -/
def bothKinds : Cluster := [fooDeployment, { fooDeployment with kind := StatefulSet }]

/-- The Service `emb` of namespace `rag` as the sample graph implies it. -/
def embService : K8sObj := { staleService with selector := some [("app", "emb")] }

/-- The Service `emb` once the controller reference of graph `chatqa` is set on it. -/
def ownedEmbService : K8sObj :=
  { embService with ownerReferences := [{ kind := "GMConnector", name := "chatqa" }] }

/-- The sample graph with the annotations cleared, as a pass holds it when it records. -/
def recordingGraph : GMConnector := sampleGraph freshStatus

/-- The endpoint step: the sample step with an `endpoint` setting. -/
def endpointGraph : GMConnector :=
  { sampleGraph freshStatus with
    Spec := {
      Nodes := [("root", { Steps := [{ embStep with
        InternalService := { NameSpace := "", ServiceName := "emb"
                             Config := [("endpoint", "/v1/embeddings")]
                             IsDownstreamService := false } }] })]
      RouterConfig := { Name := "router", NameSpace := "", ServiceName := "" } } }

/-- The state of a pass over the sample graph on the sample cluster when it comes to the
router. -/
def routerPass : Pass :=
  { graph := sampleGraph freshStatus, externalService := 0
    sys := { cluster := sampleCluster, calls := 0, applied := [], deleted := [] } }

/-- The sample graph with a router configuration that names namespace and service. -/
def namedRouterGraph : GMConnector :=
  { sampleGraph freshStatus with
    Spec := { (sampleGraph freshStatus).Spec with
      RouterConfig := { Name := "router", NameSpace := "edge", ServiceName := "gateway" } } }

/-- A graph of two nodes: `root` holds the step of the sample graph, a step that names the
external service `http://llm.example.com` and a step that names node `sub`; `sub` holds a
step that names the external service `http://rerank.example.com`. -/
def externalGraph : GMConnector :=
  { Name := "chatqa", Namespace := "rag", ResourceVersion := "1"
    Spec := {
      Nodes := [
        ("root", { Steps := [
          embStep,
          { emptyStep with StepName := "Llm", ExternalService := "http://llm.example.com" },
          { emptyStep with StepName := "Rerank", NodeName := "sub" }] }),
        ("sub", { Steps := [
          { emptyStep with
            StepName := "Reranking", ExternalService := "http://rerank.example.com" }] })]
      RouterConfig := { Name := "router", NameSpace := "", ServiceName := "" } }
    Status := freshStatus }

/-- The state of a pass over `externalGraph` on the sample cluster before the first node. -/
def externalPass0 : Pass :=
  { graph := clearAnnotations externalGraph, externalService := 0
    sys := { cluster := sampleCluster, calls := 0, applied := [], deleted := [] } }

/-- A graph that stores a node under the empty name, whose one step sets the endpoint
`/v1/embeddings`. -/
def emptyNameGraph : GMConnector :=
  { sampleGraph freshStatus with
    Spec := {
      Nodes := [("", { Steps := [{ embStep with
        InternalService := { NameSpace := "", ServiceName := "emb"
                             Config := [("endpoint", "/v1/embeddings")]
                             IsDownstreamService := false } }] })]
      RouterConfig := { Name := "router", NameSpace := "", ServiceName := "" } } }

/-! ## Event filters -/

/-- `metav1.ObjectMeta`: the four fields `isMetadataChanged` compares, and three it does not. -/
structure ObjectMeta where
  Name : String
  Namespace : String
  Labels : Option StrMap
  DeletionTimestamp : Option String
  Annotations : Option StrMap
  ResourceVersion : String
  Generation : Int
deriving DecidableEq, Repr

/-- `*mcv1alpha3.GMConnector` as an update event carries it: metadata, Spec and Status. -/
structure WatchedGraph where
  ObjectMeta : ObjectMeta
  Spec : GMConnectorSpec
  Status : GMConnectorStatus
deriving DecidableEq, Repr

/-- `client.Object` of an event: a graph, a Deployment, or an object of another type. -/
inductive EventObject where
  | gmConnector (graph : WatchedGraph)
  | deployment (deployment : K8sObj)
  | other (kind : String)
deriving DecidableEq, Repr

/-- `event.UpdateEvent`. -/
structure UpdateEvent where
  ObjectOld : EventObject
  ObjectNew : EventObject
deriving DecidableEq, Repr

/-- Go `reflect.DeepEqual` on two non-nil `map[string]string`: as many entries, and the same
value under every key of the first. The order of the entries plays no part. -/
def mapDeepEqual (a b : StrMap) : Bool :=
  decide (a.length = b.length) && a.all (fun p => mapLookup a p.1 == mapLookup b p.1)

/-- Go `reflect.DeepEqual` on two `map[string]string`, each of which may be nil: a nil map
and an empty map differ. -/
def optMapDeepEqual : Option StrMap → Option StrMap → Bool
  | none, none => true
  | some a, some b => mapDeepEqual a b
  | _, _ => false

/-- Go `reflect.DeepEqual` on two `GMCTarget`. -/
def targetDeepEqual (a b : GMCTarget) : Bool :=
  decide (a.NameSpace = b.NameSpace) && decide (a.ServiceName = b.ServiceName) &&
    mapDeepEqual a.Config b.Config && decide (a.IsDownstreamService = b.IsDownstreamService)

/-- Go `reflect.DeepEqual` on two `Step`. -/
def stepDeepEqual (a b : Step) : Bool :=
  decide (a.StepName = b.StepName) && decide (a.NodeName = b.NodeName) &&
    targetDeepEqual a.InternalService b.InternalService &&
    decide (a.ExternalService = b.ExternalService) && decide (a.ServiceURL = b.ServiceURL)

/-- Go `reflect.DeepEqual` on two `[]Step`: element by element. -/
def stepsDeepEqual : List Step → List Step → Bool
  | [], [] => true
  | a :: as, b :: bs => stepDeepEqual a b && stepsDeepEqual as bs
  | _, _ => false

/-- Go `node, ok := nodes[name]`. -/
def nodeFind : List (String × Router) → String → Option Router
  | [], _ => none
  | (n, node) :: rest, name => if n = name then some node else nodeFind rest name

/-- Go `reflect.DeepEqual` on two `map[string]Router`: as many entries, and deeply equal nodes
under every key of the first. -/
def nodesDeepEqual (a b : List (String × Router)) : Bool :=
  decide (a.length = b.length) && a.all (fun p =>
    match nodeFind a p.1, nodeFind b p.1 with
    | some x, some y => stepsDeepEqual x.Steps y.Steps
    | _, _ => false)

/-- Go `reflect.DeepEqual(oldObject.Spec, newObject.Spec)`. -/
def specDeepEqual (a b : GMConnectorSpec) : Bool :=
  nodesDeepEqual a.Nodes b.Nodes && decide (a.RouterConfig = b.RouterConfig)

/-- `isMetadataChanged`; a nil pointer is `none`. -/
def isMetadataChanged (oldObject newObject : Option ObjectMeta) : Bool :=
  match oldObject, newObject with
  | none, none => false
  | none, some _ => true
  | some _, none => true
  | some oldObject, some newObject =>
    if oldObject.Name ≠ newObject.Name then true
    else if oldObject.Namespace ≠ newObject.Namespace then true
    else if !optMapDeepEqual oldObject.Labels newObject.Labels then true
    else if oldObject.DeletionTimestamp ≠ newObject.DeletionTimestamp then true
    else false

/-- `isGMCSpecOrMetadataChanged`: the update filter of graphs. -/
def isGMCSpecOrMetadataChanged (e : UpdateEvent) : Bool :=
  match e.ObjectOld, e.ObjectNew with
  | .gmConnector oldObject, .gmConnector newObject =>
    (!specDeepEqual oldObject.Spec newObject.Spec) ||
      isMetadataChanged (some oldObject.ObjectMeta) (some newObject.ObjectMeta)
  | _, _ => true

/-- The loop of lines 1287-1292 over the owner references: it stops at the first owner of kind
GMConnector and writes a log line; the result here is whether that line is written. -/
def ownerLoop : List OwnerReference → Bool
  | [] => false
  | owner :: rest => if owner.kind = "GMConnector" then true else ownerLoop rest

/-- The loops of lines 1299-1303 and 1306-1310: the status of the condition of type Available,
from the value held so far. -/
def availableLoop (status : String) : List Condition → String
  | [] => status
  | condition :: rest =>
    availableLoop (if condition.condType = "Available" then condition.status else status) rest

/-- `isDeploymentStatusChanged`: the update filter of Deployments. The result of the loop over
the owner references is not used. -/
def isDeploymentStatusChanged (e : UpdateEvent) : Bool :=
  match e.ObjectOld, e.ObjectNew with
  | .deployment oldDeployment, .deployment newDeployment =>
    if newDeployment.ownerReferences.length = 0 then false
    else
      if oldDeployment.status ≠ newDeployment.status then
        if (availableLoop "Unknown" oldDeployment.status.conditions = "True" ∧
              availableLoop "Unknown" oldDeployment.status.conditions ≠
                availableLoop "Unknown" newDeployment.status.conditions) ∨
            (availableLoop "Unknown" newDeployment.status.conditions = "True" ∧
              availableLoop "Unknown" oldDeployment.status.conditions ≠
                availableLoop "Unknown" newDeployment.status.conditions) then true
        else false
      else false
  | _, _ => true

/-! ## The Deployment-triggered path -/

/-- The loop of `handleStatusUpdate` over the owner references. `getGraph` is the read of a
graph by namespace and name. The result is the error the function returns: where the status
aggregation fails with `ue`, line 774 returns the variable `err` of the read, which is nil
in that branch. -/
def handleStatusLoop (w : World) (c : Cluster) (getGraph : String → String → Except String GMConnector)
    (ns : String) : List OwnerReference → Go (Option String)
  | [] => .ok none
  | owner :: rest =>
    if owner.kind = "GMConnector" then
      match getGraph ns owner.name with
      | .error _ => handleStatusLoop w c getGraph ns rest
      | .ok graph =>
        match (collectResourceStatus w c graph).2 with
        | none => handleStatusLoop w c getGraph ns rest
        | some (.panic p) => .error (.panic p)
        | some (.error _) => .ok none
    else handleStatusLoop w c getGraph ns rest

/-- `handleStatusUpdate`. -/
def handleStatusUpdate (w : World) (c : Cluster) (getGraph : String → String → Except String GMConnector)
    (deployment : K8sObj) : Go (Option String) :=
  handleStatusLoop w c getGraph deployment.ns deployment.ownerReferences

/-- Lines 656-665 of `Reconcile`, for a request under which no graph is found: the request
may name a Deployment. -/
def reconcileDeploymentRequest (w : World) (c : Cluster)
    (getGraph : String → String → Except String GMConnector) (ns name : String) :
    Go (Option String) :=
  match c.get "apps/v1" Deployment ns name with
  | none => .ok none
  | some deployment => handleStatusUpdate w c getGraph deployment

/-! ## Claims' words -/

/-- The status of the last condition of type Available, `Unknown` when there is none. -/
def lastAvailable (conditions : List Condition) : String :=
  match (conditions.filter (fun cond => cond.condType = "Available")).getLast? with
  | some cond => cond.status
  | none => "Unknown"

/-- Whether a Deployment is available: its Available status is `True`. -/
def isAvailable (d : K8sObj) : Bool := lastAvailable d.status.conditions = "True"

/-! ## Sample events -/

/-- The metadata of the sample graph as the API server holds it. -/
def sampleMeta : ObjectMeta :=
  { Name := "chatqa", Namespace := "rag", Labels := some [("team", "search")]
    DeletionTimestamp := none, Annotations := none, ResourceVersion := "7", Generation := 1 }

/-- The sample graph as an update event carries it. -/
def watchedSample : WatchedGraph :=
  { ObjectMeta := sampleMeta, Spec := (sampleGraph freshStatus).Spec, Status := freshStatus }

/-- The same graph after a status write: the status, an annotation, the resource version and
the generation have changed. -/
def watchedSampleAfterStatus : WatchedGraph :=
  { watchedSample with
    ObjectMeta := { sampleMeta with
      Annotations := some [("note", "x")], ResourceVersion := "8", Generation := 2 }
    Status := { Status := "1/0/1", AccessURL := "", Annotations := [("k", "v")] } }

/-- A live Deployment `emb-deployment` of namespace `rag` with the given owners and the given
status of its Available condition. -/
def ownedDeployment (owners : List OwnerReference) (available : String) : K8sObj :=
  { emptyObj with
    kind := Deployment, apiVersion := "apps/v1", name := "emb-deployment", ns := "rag"
    ownerReferences := owners
    status := { emptyStatus with
      conditions := [{ condType := "Progressing", status := "True", reason := "", message := "" },
                     { condType := "Available", status := available, reason := "", message := "" }] } }

/-! ## Samples for the restart annotation and the status update -/

/-- The sample Deployment document with an annotation on the Deployment itself and none on its
pod template. -/
def annotatedDeploymentDoc : K8sObj :=
  { sampleDeploymentDoc with annotations := some [("owner", "search-team")] }

/-- The sample Deployment document with an annotation on its pod template and none on the
Deployment itself. -/
def templateAnnotatedDoc : K8sObj :=
  { sampleDeploymentDoc with
    template := { sampleDeploymentDoc.template with
      annotations := some [("sidecar.istio.io/inject", "true")] } }

/-- The sample world with `annotatedDeploymentDoc` as the Deployment of its manifest. -/
def annotatedWorld : World :=
  { sampleWorld with
    decode := fun res =>
      if res = "kind: Deployment" then .ok annotatedDeploymentDoc else sampleWorld.decode res }

/-- A read of graphs that finds the sample graph, tracked resources not yet recorded, under
`chatqa` in `rag`. -/
def getSampleGraph : String → String → Except String GMConnector :=
  fun ns name =>
    if ns = "rag" ∧ name = "chatqa" then .ok (sampleGraph freshStatus) else .error "not found"

end GMC

/-! # The pod webhook of the NRI balloons controller

`PodMutator.Handle` of `pod_webhook.go`: the admission webhook that puts an init container in
front of the pods that hold the target container. The environment of the process, the decoder,
the JSON library and the API server are parameters. -/

namespace Balloons

/-! ## Constants and the environment -/

def defaultInitContainerImage : String := "busybox:latest"
def defaultInitContainerName : String := "wait-for-balloons"
def defaultBalloonsNamespace : String := "default"
def defaultBalloonsDaemonSet : String := "nri-balloons"
def defaultWaitTimeout : Nat := 300

/-- Go `os.Getenv`: the value of a variable, `""` when it is not set. -/
abbrev Env := String → String

/-- `getEnv`: the value of the variable, or the default when it is unset or empty. -/
def getEnv (env : Env) (key defaultValue : String) : String :=
  if env key = "" then defaultValue else env key

/-! ## Pods -/

/-- `corev1.SecurityContext`, with the fields the webhook sets. -/
structure SecurityContext where
  RunAsUser : Option Int
  AllowPrivilegeEscalation : Option Bool
  CapabilitiesDrop : List String
deriving DecidableEq, Repr

/-- `corev1.Container`; `rest` stands for every field the webhook neither reads nor sets. -/
structure Container where
  Name : String
  Image : String
  Command : List String
  SecurityContext : Option SecurityContext
  Limits : List (String × String)
  Requests : List (String × String)
  rest : String
deriving DecidableEq, Repr

/-- `corev1.Pod`; `rest` stands for every field the webhook neither reads nor sets. -/
structure Pod where
  Name : String
  GenerateName : String
  Namespace : String
  ServiceAccountName : String
  Containers : List Container
  InitContainers : List Container
  rest : String
deriving DecidableEq, Repr

/-- `admission.Request`, as far as the webhook reads it: the raw object. -/
structure Request where
  Raw : String
deriving DecidableEq, Repr

/-- `admission.Response`: the verdict, the code and message of its result, and the patches. -/
structure Response where
  Allowed : Bool
  Code : Nat
  Message : String
  Patches : List String
deriving DecidableEq, Repr

/-- Library `admission.Errored`. -/
def Errored (code : Nat) (err : String) : Response :=
  { Allowed := false, Code := code, Message := err, Patches := [] }

/-- Library `admission.Allowed`. -/
def Allowed (message : String) : Response :=
  { Allowed := true, Code := 200, Message := message, Patches := [] }

/-- The JSON library: `json.Marshal` on a pod and `jsonpatch.CreatePatch` on two documents. -/
structure Json where
  marshal : Pod → Except String String
  createPatch : String → String → Except String (List String)

/-- Library `admission.PatchResponseFromRaw`. -/
def PatchResponseFromRaw (json : Json) (original current : String) : Response :=
  match json.createPatch original current with
  | .error e => Errored 500 e
  | .ok patches => { Allowed := true, Code := 0, Message := "", Patches := patches }

/-! ## The API server -/

/-- `corev1.ServiceAccount`. -/
structure ServiceAccountObj where
  Name : String
  Namespace : String
  Labels : List (String × String)
  AutomountServiceAccountToken : Option Bool
deriving DecidableEq, Repr

/-- `rbacv1.Subject`. -/
structure Subject where
  Kind : String
  Name : String
  Namespace : String
deriving DecidableEq, Repr

/-- `rbacv1.RoleRef`. -/
structure RoleRef where
  APIGroup : String
  Kind : String
  Name : String
deriving DecidableEq, Repr

/-- `rbacv1.ClusterRoleBinding`. -/
structure ClusterRoleBinding where
  Name : String
  Labels : List (String × String)
  Subjects : List Subject
  RoleRef : RoleRef
deriving DecidableEq, Repr

/-- The objects of the API server the webhook reads and writes. -/
structure Store where
  serviceAccounts : List ServiceAccountObj
  bindings : List ClusterRoleBinding
deriving DecidableEq, Repr

/-- How the API server takes one call: it serves it from the store, or the call fails with an
error that is neither NotFound nor AlreadyExists. -/
inductive Outcome where
  | served
  | failed (msg : String)
deriving DecidableEq, Repr

/-- `client.Client`: the store, and how the server takes the calls to come, in order; calls
beyond the list are served. -/
structure Client where
  store : Store
  outcomes : List Outcome
deriving DecidableEq, Repr

/-- Answer of a `Get`. -/
inductive GetResult (α : Type) where
  | found (obj : α)
  | notFound
  | failed (msg : String)
deriving DecidableEq, Repr

/-- Answer of a `Create`. -/
inductive CreateResult where
  | created
  | alreadyExists
  | failed (msg : String)
deriving DecidableEq, Repr

/-- The outcome of the next call, and the client after it. -/
def Client.next (client : Client) : Outcome × Client :=
  match client.outcomes with
  | [] => (.served, client)
  | o :: rest => (o, { client with outcomes := rest })

def findServiceAccount (name ns : String) : List ServiceAccountObj → Option ServiceAccountObj
  | [] => none
  | sa :: rest => if sa.Name = name ∧ sa.Namespace = ns then some sa else findServiceAccount name ns rest

def findBinding (name : String) : List ClusterRoleBinding → Option ClusterRoleBinding
  | [] => none
  | b :: rest => if b.Name = name then some b else findBinding name rest

/-- `Client.Get` of a ServiceAccount. -/
def Client.getServiceAccount (client : Client) (name ns : String) :
    GetResult ServiceAccountObj × Client :=
  match client.next with
  | (.failed msg, client) => (.failed msg, client)
  | (.served, client) =>
    match findServiceAccount name ns client.store.serviceAccounts with
    | some sa => (.found sa, client)
    | none => (.notFound, client)

/-- `Client.Create` of a ServiceAccount. -/
def Client.createServiceAccount (client : Client) (sa : ServiceAccountObj) :
    CreateResult × Client :=
  match client.next with
  | (.failed msg, client) => (.failed msg, client)
  | (.served, client) =>
    match findServiceAccount sa.Name sa.Namespace client.store.serviceAccounts with
    | some _ => (.alreadyExists, client)
    | none =>
      (.created, { client with store := { client.store with
        serviceAccounts := client.store.serviceAccounts ++ [sa] } })

/-- `Client.Get` of a ClusterRoleBinding. -/
def Client.getBinding (client : Client) (name : String) :
    GetResult ClusterRoleBinding × Client :=
  match client.next with
  | (.failed msg, client) => (.failed msg, client)
  | (.served, client) =>
    match findBinding name client.store.bindings with
    | some b => (.found b, client)
    | none => (.notFound, client)

/-- `Client.Create` of a ClusterRoleBinding. -/
def Client.createBinding (client : Client) (b : ClusterRoleBinding) : CreateResult × Client :=
  match client.next with
  | (.failed msg, client) => (.failed msg, client)
  | (.served, client) =>
    match findBinding b.Name client.store.bindings with
    | some _ => (.alreadyExists, client)
    | none =>
      (.created, { client with store := { client.store with
        bindings := client.store.bindings ++ [b] } })

/-! ## The webhook -/

/-- The shell script of the init container (lines 149-166), `fmt.Sprintf` spelled out. -/
def waitScript (balloonsDaemonSet waitTimeout balloonsNamespace : String) : String :=
  "set -e\necho \"Waiting for all " ++ balloonsDaemonSet ++ " DaemonSet pods to be ready...\"\n" ++
  "SECONDS=0\nTIMEOUT=" ++ waitTimeout ++ "\nwhile true; do\n" ++
  "  DESIRED=$(kubectl get daemonset " ++ balloonsDaemonSet ++ " -n " ++ balloonsNamespace ++
  " -o jsonpath=\"\x7b.status.desiredNumberScheduled\x7d\")\n" ++
  "  READY=$(kubectl get daemonset " ++ balloonsDaemonSet ++ " -n " ++ balloonsNamespace ++
  " -o jsonpath=\"\x7b.status.numberReady\x7d\")\n" ++
  "  if [ \"$DESIRED\" = \"$READY\" ] && [ \"$DESIRED\" != \"\" ]; then\n" ++
  "    echo \"All pods ready: $READY/$DESIRED\"\n    break\n  fi\n" ++
  "  if [ \"$SECONDS\" -ge \"$TIMEOUT\" ]; then\n" ++
  "    echo \"Timeout waiting for all pods to be ready ($READY/$DESIRED)\"\n    exit 1\n  fi\n" ++
  "  echo \"Waiting... ($READY/$DESIRED ready)\"\n  sleep 5\ndone"

/-- `createInitContainer`: the init container to be injected. -/
def createInitContainer (env : Env) : Container :=
  { Name := getEnv env "INIT_CONTAINER_NAME" defaultInitContainerName
    Image := getEnv env "INIT_CONTAINER_IMAGE" defaultInitContainerImage
    Command := ["/bin/sh", "-c",
      waitScript (getEnv env "BALLOONS_DAEMONSET" defaultBalloonsDaemonSet)
        (getEnv env "WAIT_TIMEOUT" (GMC.fmtNat defaultWaitTimeout))
        (getEnv env "BALLOONS_NAMESPACE" defaultBalloonsNamespace)]
    SecurityContext := some
      { RunAsUser := some 1000, AllowPrivilegeEscalation := some false
        CapabilitiesDrop := ["ALL"] }
    Limits := [("cpu", "100m"), ("memory", "128Mi")]
    Requests := [("cpu", "10m"), ("memory", "32Mi")]
    rest := "" }

/-- `containsTargetContainer`: whether a regular container of the pod has the target name. -/
def containsTargetContainer (pod : Pod) (targetName : String) : Bool :=
  pod.Containers.any (fun container => container.Name = targetName)

/-- `hasInitContainer`: whether the pod already has the init container of the webhook. -/
def hasInitContainer (env : Env) (pod : Pod) : Bool :=
  pod.InitContainers.any (fun initContainer =>
    initContainer.Name = getEnv env "INIT_CONTAINER_NAME" defaultInitContainerName)

/-- `ensureServiceAccountExists`: the error returned, and the client after the calls. -/
def ensureServiceAccountExists (client : Client) (name ns : String) : Option String × Client :=
  match client.getServiceAccount name ns with
  | (.found _, client) => (none, client)
  | (.failed msg, client) => (some ("failed to check existing service account: " ++ msg), client)
  | (.notFound, client) =>
    match client.createServiceAccount
        { Name := name, Namespace := ns
          Labels := [("app.kubernetes.io/managed-by", "nri-balloons-controller")]
          AutomountServiceAccountToken := some true } with
    | (.created, client) => (none, client)
    | (.alreadyExists, client) => (none, client)
    | (.failed msg, client) => (some ("failed to create service account: " ++ msg), client)

/-- The name `ensureServiceAccountPermissions` gives the binding (line 258). -/
def bindingName (ns serviceAccountName : String) : String :=
  "nri-balloons-init-" ++ ns ++ "-" ++ serviceAccountName

/-- `ensureServiceAccountPermissions`: the error returned, and the client after the calls. -/
def ensureServiceAccountPermissions (env : Env) (client : Client)
    (serviceAccountName ns : String) : Option String × Client :=
  if getEnv env "INIT_CONTAINER_CLUSTER_ROLE" "" = "" then
    (some "INIT_CONTAINER_CLUSTER_ROLE environment variable not set", client)
  else
    match client.getBinding (bindingName ns serviceAccountName) with
    | (.found _, client) => (none, client)
    | (.failed msg, client) => (some ("failed to check existing binding: " ++ msg), client)
    | (.notFound, client) =>
      match client.createBinding
          { Name := bindingName ns serviceAccountName
            Labels := [("app.kubernetes.io/managed-by", "nri-balloons-controller")]
            Subjects := [{ Kind := "ServiceAccount", Name := serviceAccountName, Namespace := ns }]
            RoleRef := { APIGroup := "rbac.authorization.k8s.io", Kind := "ClusterRole"
                         Name := getEnv env "INIT_CONTAINER_CLUSTER_ROLE" "" } } with
      | (.created, client) => (none, client)
      | (.alreadyExists, client) => (none, client)
      | (.failed msg, client) => (some ("failed to create cluster role binding: " ++ msg), client)

/-- What a call of `Handle` leaves: the response, the pod handed to `json.Marshal` if the call
got that far, the client after the calls, and the errors logged. -/
structure Handled where
  response : Response
  pod : Option Pod
  client : Client
  logged : List String
deriving DecidableEq, Repr

/-- Lines 81-113 of `Handle`: the service account of the pod and its permissions. The result
is the service account name the pod is left with, the client and the errors logged. -/
def configureServiceAccount (env : Env) (client : Client) (pod : Pod) :
    String × Client × List String :=
  let serviceAccountName := if pod.ServiceAccountName = "" then "default"
    else pod.ServiceAccountName
  if serviceAccountName = "default" then
    let initContainerServiceAccount := getEnv env "INIT_CONTAINER_SERVICE_ACCOUNT" ""
    if initContainerServiceAccount ≠ "" then
      match ensureServiceAccountExists client initContainerServiceAccount pod.Namespace with
      | (some err, client) => (pod.ServiceAccountName, client, [err])
      | (none, client) =>
        match ensureServiceAccountPermissions env client initContainerServiceAccount
            pod.Namespace with
        | (some err, client) => (initContainerServiceAccount, client, [err])
        | (none, client) => (initContainerServiceAccount, client, [])
    else (pod.ServiceAccountName, client, [])
  else
    match ensureServiceAccountPermissions env client serviceAccountName pod.Namespace with
    | (some err, client) => (pod.ServiceAccountName, client, [err])
    | (none, client) => (pod.ServiceAccountName, client, [])

/-- `PodMutator.Handle`. A nil decoder is `none`. -/
def Handle (env : Env) (json : Json) (decoder : Option (Request → Except String Pod))
    (client : Client) (req : Request) : Handled :=
  match decoder with
  | none =>
    { response := Errored 500 "decoder not initialized", pod := none, client := client
      logged := [] }
  | some decode =>
    match decode req with
    | .error err => { response := Errored 400 err, pod := none, client := client, logged := [] }
    | .ok pod =>
      let targetContainerName := getEnv env "TARGET_CONTAINER_NAME" ""
      if targetContainerName = "" then
        { response := Errored 500 "TARGET_CONTAINER_NAME environment variable not set"
          pod := none, client := client
          logged := ["TARGET_CONTAINER_NAME environment variable not set"] }
      else if !containsTargetContainer pod targetContainerName then
        { response := Allowed "target container not found", pod := none, client := client
          logged := [] }
      else if hasInitContainer env pod then
        { response := Allowed "init container exists", pod := none, client := client
          logged := [] }
      else
        let initContainer := createInitContainer env
        let (serviceAccountName, client, logged) := configureServiceAccount env client pod
        let pod := { pod with
          ServiceAccountName := serviceAccountName
          InitContainers := initContainer :: pod.InitContainers }
        match json.marshal pod with
        | .error err =>
          { response := Errored 500 err, pod := some pod, client := client, logged := logged }
        | .ok marshaledPod =>
          { response := PatchResponseFromRaw json req.Raw marshaledPod, pod := some pod
            client := client, logged := logged }

/-! ## Samples -/

/-- The environment of the tests: target container, dedicated service account, cluster role. -/
def testEnv : Env := fun key =>
  if key = "TARGET_CONTAINER_NAME" then "target-container"
  else if key = "INIT_CONTAINER_SERVICE_ACCOUNT" then "custom-sa"
  else if key = "INIT_CONTAINER_CLUSTER_ROLE" then "test-role"
  else ""

/-- The environment of the tests without the cluster role. -/
def envWithoutRole : Env := fun key =>
  if key = "INIT_CONTAINER_CLUSTER_ROLE" then "" else testEnv key

/-- A container with a name and nothing else. -/
def namedContainer (name : String) : Container :=
  { Name := name, Image := "", Command := [], SecurityContext := none, Limits := []
    Requests := [], rest := "" }

/-- The pod of the tests: `test-pod` of namespace `default` with the target container, under
the given service account. -/
def testPod (serviceAccountName : String) : Pod :=
  { Name := "test-pod", GenerateName := "", Namespace := "default"
    ServiceAccountName := serviceAccountName
    Containers := [namedContainer "target-container"], InitContainers := [], rest := "" }

/-- A pod like `testPod` in another namespace. -/
def podIn (ns serviceAccountName : String) : Pod :=
  { testPod serviceAccountName with Namespace := ns }

/-- A JSON library that renders a pod by its name, service account and init containers, and
answers one patch when two documents differ. -/
def sampleJson : Json :=
  { marshal := fun pod =>
      .ok (pod.Name ++ "|" ++ pod.ServiceAccountName ++ "|" ++
        String.join (pod.InitContainers.map (fun ct => ct.Name ++ ";")))
    createPatch := fun original current =>
      .ok (if original = current then [] else ["add /spec/initContainers"]) }

/-- A decoder that reads every request as the given pod. -/
def decodeAs (pod : Pod) : Request → Except String Pod := fun _ => .ok pod

/-- A client on an empty store whose calls are all served. -/
def emptyClient : Client := { store := { serviceAccounts := [], bindings := [] }, outcomes := [] }

/-- The binding that grants `test-role` to service account `a-b` of namespace `team`. -/
def teamBinding : ClusterRoleBinding :=
  { Name := bindingName "team" "a-b"
    Labels := [("app.kubernetes.io/managed-by", "nri-balloons-controller")]
    Subjects := [{ Kind := "ServiceAccount", Name := "a-b", Namespace := "team" }]
    RoleRef := { APIGroup := "rbac.authorization.k8s.io", Kind := "ClusterRole"
                 Name := "test-role" } }

/-- The pod of the tests once the init container of the webhook is in it. -/
def mutatedTestPod : Pod :=
  { testPod "existing-sa" with InitContainers := [createInitContainer testEnv] }

/-- An environment whose dedicated service account is itself named `default`. -/
def envDedicatedDefault : Env := fun key =>
  if key = "INIT_CONTAINER_SERVICE_ACCOUNT" then "default" else testEnv key

/-- A client on an empty store whose first call fails. -/
def failingClient : Client :=
  { store := { serviceAccounts := [], bindings := [] }, outcomes := [.failed "connection refused"] }

end Balloons

namespace GMC

/-! ## Facts about the string functions -/

theorem isPrefixOf_single (x c : Char) (cs : List Char) :
    [x].isPrefixOf (c :: cs) = (x == c) := by
  simp [List.isPrefixOf]

theorem splitSep_ne_nil (sep : List Char) (l : List Char) (n : Nat) : splitSep sep l n ≠ [] := by
  induction l generalizing n with
  | nil => simp [splitSep]
  | cons c cs ih =>
    cases n with
    | zero =>
      unfold splitSep
      split
      · simp
      · split <;> simp
    | succ k => unfold splitSep; exact ih k

theorem splitSep_single_noSep (x : Char) (a : List Char) (h : x ∉ a) :
    splitSep [x] a 0 = [a] := by
  induction a with
  | nil => simp [splitSep]
  | cons c cs ih =>
    have hc : x ≠ c := fun e => h (by simp [e])
    have hcs : x ∉ cs := fun e => h (by simp [e])
    unfold splitSep
    rw [isPrefixOf_single]
    simp [hc, ih hcs]

theorem splitSep_single_append (x : Char) (a b : List Char) (h : x ∉ a) :
    splitSep [x] (a ++ x :: b) 0 = a :: splitSep [x] b 0 := by
  induction a with
  | nil =>
    simp only [List.nil_append]
    rw [splitSep, isPrefixOf_single]
    simp
  | cons c cs ih =>
    have hc : x ≠ c := fun e => h (by simp [e])
    have hcs : x ∉ cs := fun e => h (by simp [e])
    simp only [List.cons_append]
    rw [splitSep, isPrefixOf_single]
    simp [hc, ih hcs]

theorem splitFirst_single_noSep (x : Char) (a : List Char) (h : x ∉ a) :
    splitFirst [x] a 0 = none := by
  induction a with
  | nil => simp [splitFirst]
  | cons c cs ih =>
    have hc : x ≠ c := fun e => h (by simp [e])
    have hcs : x ∉ cs := fun e => h (by simp [e])
    rw [splitFirst, isPrefixOf_single]
    simp [hc, ih hcs]

theorem splitFirst_single_append (x : Char) (a b : List Char) (h : x ∉ a) :
    splitFirst [x] (a ++ x :: b) 0 = some (a, b) := by
  induction a with
  | nil =>
    simp only [List.nil_append]
    rw [splitFirst, isPrefixOf_single]
    simp
  | cons c cs ih =>
    have hc : x ≠ c := fun e => h (by simp [e])
    have hcs : x ∉ cs := fun e => h (by simp [e])
    simp only [List.cons_append]
    rw [splitFirst, isPrefixOf_single]
    simp [hc, ih hcs]

/-- Splitting `a ++ sep ++ b` at a one-character separator absent from `a`. -/
theorem stringsSplit_append (a b : String) (x : Char) (h : x ∉ a.data) :
    stringsSplit (a ++ String.singleton x ++ b) (String.singleton x) =
      a :: stringsSplit b (String.singleton x) := by
  simp only [stringsSplit, String.data_append, String.singleton, List.append_assoc]
  have : ("".push x).data = [x] := rfl
  rw [this]
  simp only [List.singleton_append]
  rw [splitSep_single_append x a.data b.data h]
  simp

theorem stringsSplit_noSep (a : String) (x : Char) (h : x ∉ a.data) :
    stringsSplit a (String.singleton x) = [a] := by
  simp only [stringsSplit, String.singleton]
  have : ("".push x).data = [x] := rfl
  rw [this, splitSep_single_noSep x a.data h]
  simp

theorem colon_eq : (":" : String) = String.singleton ':' := by decide

theorem slash_eq : ("/" : String) = String.singleton '/' := by decide

/-! ## Provenance keys -/

theorem mapKeys_mapSet_twice (m : StrMap) (k v v' : String) :
    mapKeys (mapSet (mapSet m k v) k v') = mapKeys (mapSet m k v) := by
  induction m with
  | nil => simp [mapSet, mapKeys]
  | cons e m ih =>
    obtain ⟨k', w⟩ := e
    by_cases h : k' = k
    · simp [mapSet, mapKeys, h]
    · simp only [mapSet, h, if_false, mapKeys, List.map_cons] at ih ⊢
      rw [ih]

theorem recordResource_keys (graph graph' : GMConnector) (nodeName : String) (stepIdx : Nat)
    (obj : K8sObj) (h : recordResource graph nodeName stepIdx obj = .ok graph') :
    mapKeys graph'.Status.Annotations =
      mapKeys (mapSet graph.Status.Annotations (resourceKey obj) "provisioned") := by
  unfold recordResource at h
  simp only at h
  split at h
  · split at h
    · split at h
      · cases h
      · injection h with h
        subst h
        simp [mapKeys_mapSet_twice]
    · injection h with h
      subst h
      simp [mapKeys_mapSet_twice]
  · injection h with h
    subst h
    rfl

theorem resourceKey_fields (obj : K8sObj) (hk : ':' ∉ obj.kind.data)
    (ha : ':' ∉ obj.apiVersion.data) (hn : ':' ∉ obj.name.data) (hs : ':' ∉ obj.ns.data) :
    stringsSplit (resourceKey obj) ":" = [obj.kind, obj.apiVersion, obj.name, obj.ns] := by
  have e : resourceKey obj = obj.kind ++ String.singleton ':' ++ (obj.apiVersion ++
      String.singleton ':' ++ (obj.name ++ String.singleton ':' ++ obj.ns)) := by
    apply String.ext
    simp [resourceKey, String.data_append, List.append_assoc, ← colon_eq]
  rw [e, colon_eq, stringsSplit_append _ _ _ hk, stringsSplit_append _ _ _ ha,
    stringsSplit_append _ _ _ hn, stringsSplit_noSep _ _ hs]

/-! ## Facts about decimal numerals -/

theorem digitVal_digitChar (d : Nat) (h : d < 10) : digitVal (digitChar d) = some d := by
  interval_cases d <;> rfl

theorem digitChar_not_sep (d : Nat) (h : d < 10) :
    digitChar d ≠ '/' ∧ digitChar d ≠ '+' ∧ digitChar d ≠ '-' := by
  interval_cases d <;> decide

theorem parseDigits_append (l1 l2 : List Char) (acc : Nat) :
    parseDigits (l1 ++ l2) acc = (parseDigits l1 acc).bind (fun n => parseDigits l2 n) := by
  induction l1 generalizing acc with
  | nil => simp [parseDigits]
  | cons c cs ih =>
    simp only [List.cons_append, parseDigits]
    cases digitVal c with
    | none => simp
    | some d => simp [ih]

theorem parseDigits_natDigits (fuel n : Nat) (h : n < fuel) :
    parseDigits (natDigits fuel n) 0 = some n := by
  induction fuel generalizing n with
  | zero => omega
  | succ f ih =>
    unfold natDigits
    split
    · rename_i h10
      simp [parseDigits, digitVal_digitChar n h10]
    · rename_i h10
      have hlt : n / 10 < f := by omega
      rw [parseDigits_append, ih _ hlt]
      simp only [Option.some_bind, parseDigits]
      rw [digitVal_digitChar _ (Nat.mod_lt _ (by decide))]
      simp only
      congr 1
      omega

theorem natDigits_chars (fuel n : Nat) :
    ∀ ch ∈ natDigits fuel n, ch ≠ '/' ∧ ch ≠ '+' ∧ ch ≠ '-' := by
  induction fuel generalizing n with
  | zero => simp [natDigits]
  | succ f ih =>
    unfold natDigits
    split
    · rename_i h10
      intro ch hch
      simp only [List.mem_singleton] at hch
      subst hch
      exact digitChar_not_sep n h10
    · intro ch hch
      rw [List.mem_append] at hch
      rcases hch with hch | hch
      · exact ih _ ch hch
      · simp only [List.mem_singleton] at hch
        subst hch
        exact digitChar_not_sep _ (Nat.mod_lt _ (by decide))

theorem natDigits_ne_nil (fuel n : Nat) : natDigits (fuel + 1) n ≠ [] := by
  unfold natDigits
  split <;> simp

theorem strconvAtoi_digits (l : List Char) (h0 : l ≠ [])
    (hd : ∀ ch ∈ l, ch ≠ '/' ∧ ch ≠ '+' ∧ ch ≠ '-') :
    strconvAtoi (String.mk l) =
      (parseDigits l 0).bind (fun n => if n ≤ maxInt then some (Int.ofNat n) else none) := by
  cases l with
  | nil => exact absurd rfl h0
  | cons c cs =>
    have hc := hd c (by simp)
    unfold strconvAtoi
    split
    · rename_i heq
      simp at heq
    · rename_i heq
      simp only [List.cons.injEq] at heq
      exact absurd heq.1 hc.2.1
    · rename_i heq
      simp only [List.cons.injEq] at heq
      exact absurd heq.1 hc.2.2
    · rfl

theorem strconvAtoi_fmtNat (e : Nat) (h : e ≤ maxInt) :
    strconvAtoi (fmtNat e) = some (Int.ofNat e) := by
  unfold fmtNat
  rw [strconvAtoi_digits _ (natDigits_ne_nil e e) (natDigits_chars _ _),
    parseDigits_natDigits _ _ (Nat.lt_succ_self e)]
  simp [h]

theorem fmtNat_no_slash (e : Nat) : '/' ∉ (fmtNat e).data := by
  intro h
  exact (natDigits_chars _ _ _ h).1 rfl

/-! ## Status aggregation -/

theorem splitField_of_lt (k : String) (i : Nat) (h : i < (stringsSplit k ":").length) :
    splitField k ":" i = .ok (keyField k i) := by
  unfold splitField keyField
  rw [List.getElem?_eq_getElem h]
  rfl

theorem mapKeys_mapSet_mem (m : StrMap) (k v : String) (h : k ∈ mapKeys m) :
    mapKeys (mapSet m k v) = mapKeys m := by
  induction m with
  | nil => simp [mapKeys] at h
  | cons e m ih =>
    obtain ⟨k', w⟩ := e
    by_cases hk : k' = k
    · simp [mapSet, mapKeys, hk]
    · have : k ∈ mapKeys m := by
        simp only [mapKeys, List.map_cons, List.mem_cons] at h
        rcases h with h | h
        · exact absurd h.symm hk
        · exact h
      simp only [mapSet, hk, if_false, mapKeys, List.map_cons] at ih ⊢
      rw [ih this]

/-- One round of the aggregation loop on a provenance key: the counters move as the
specification says and the key set stays. -/
theorem collectOne_counts (c : Cluster) (st : Counters) (k : String) (hk : isProvenanceKey k)
    (hmem : k ∈ mapKeys st.annotations) :
    ∃ st', collectOne c st k = .ok st' ∧
      st'.totalCnt = st.totalCnt + (if isWorkloadKey k then 1 else 0) ∧
      st'.readyCnt = st.readyCnt + (if isReadyKey c k then 1 else 0) ∧
      mapKeys st'.annotations = mapKeys st.annotations := by
  unfold isProvenanceKey at hk
  unfold collectOne
  rw [splitField_of_lt k 0 (by omega), splitField_of_lt k 2 (by omega),
    splitField_of_lt k 3 (by omega)]
  simp only
  by_cases hw : (keyField k 0 = Deployment || keyField k 0 = StatefulSet) = true
  · have hwk : isWorkloadKey k = true := hw
    rw [if_pos hw]
    cases hget : c.get "apps/v1" (keyField k 0) (keyField k 3) (keyField k 2) with
    | none =>
      refine ⟨_, rfl, ?_, ?_, rfl⟩
      · simp [hwk]
      · simp [isReadyKey, hget]
    | some d =>
      by_cases hd : keyField k 0 = Deployment
      · simp only [if_pos hd]
        refine ⟨_, rfl, ?_, ?_, ?_⟩
        · simp [hwk]
        · have hget' := hget
          rw [hd] at hget'
          by_cases hr : d.status.availableReplicas = d.replicas <;>
            simp [isReadyKey, hget', hwk, hd, hr]
        · exact mapKeys_mapSet_mem _ _ _ hmem
      · simp only [if_neg hd]
        refine ⟨_, rfl, ?_, ?_, ?_⟩
        · simp [hwk]
        · by_cases hr : d.status.readyReplicas = d.replicas <;>
            simp [isReadyKey, hget, hwk, hd, hr]
        · exact mapKeys_mapSet_mem _ _ _ hmem
  · have hwk : isWorkloadKey k = false := by
      simpa [isWorkloadKey] using hw
    rw [if_neg hw]
    refine ⟨st, rfl, ?_, ?_, rfl⟩
    · simp [hwk]
    · simp [isReadyKey, hwk]

/-- The aggregation loop over provenance keys: it completes, with the counts of the
specification, and keeps the key set. -/
theorem collectLoop_counts (c : Cluster) (ks : List String) (st : Counters)
    (hk : ∀ k ∈ ks, isProvenanceKey k) (hmem : ∀ k ∈ ks, k ∈ mapKeys st.annotations) :
    ∃ st', collectLoop c ks st = .ok st' ∧
      st'.totalCnt = st.totalCnt + trackedTotal ks ∧
      st'.readyCnt = st.readyCnt + trackedReady c ks ∧
      mapKeys st'.annotations = mapKeys st.annotations := by
  induction ks generalizing st with
  | nil => exact ⟨st, rfl, by simp [trackedTotal], by simp [trackedReady], rfl⟩
  | cons k ks ih =>
    obtain ⟨st1, h1, ht1, hr1, hk1⟩ :=
      collectOne_counts c st k (hk k (by simp)) (hmem k (by simp))
    obtain ⟨st2, h2, ht2, hr2, hk2⟩ := ih st1 (fun x hx => hk x (by simp [hx]))
      (fun x hx => by rw [hk1]; exact hmem x (by simp [hx]))
    refine ⟨st2, ?_, ?_, ?_, ?_⟩
    · simp [collectLoop, h1, h2]
    · rw [ht2, ht1]
      simp only [trackedTotal, List.countP_cons]
      omega
    · rw [hr2, hr1]
      simp only [trackedReady, List.countP_cons]
      omega
    · rw [hk2, hk1]

theorem trackedReady_le (c : Cluster) (ks : List String) : trackedReady c ks ≤ trackedTotal ks := by
  unfold trackedReady trackedTotal
  apply List.countP_mono_left
  intro k _ h
  simp only [isReadyKey, Bool.and_eq_true] at h
  exact h.1

theorem status_middle_field (a cs : String) (e : Nat) (ha : '/' ∉ a.data) :
    splitField (a ++ "/" ++ fmtNat e ++ "/" ++ cs) "/" 1 = .ok (fmtNat e) := by
  have e1 : a ++ "/" ++ fmtNat e ++ "/" ++ cs =
      a ++ String.singleton '/' ++ (fmtNat e ++ String.singleton '/' ++ cs) := by
    apply String.ext
    simp [String.data_append, List.append_assoc, ← slash_eq]
  unfold splitField
  rw [e1, slash_eq, stringsSplit_append _ _ _ ha, stringsSplit_append _ _ _ (fmtNat_no_slash e)]
  simp

theorem updateStatus_status (w : World) (graph : GMConnector) :
    (updateStatus w graph).1.Status = graph.Status := by
  unfold updateStatus
  cases w.latestGraph graph <;> (simp only; split <;> rfl)

/-- The status string `collectResourceStatus` leaves, for tracked provenance keys and an
incoming status string whose middle field is the numeral of `e`. -/
theorem collect_status_string (w : World) (c : Cluster) (graph : GMConnector)
    (a cs : String) (e : Nat)
    (hne : graph.Status.Annotations ≠ [])
    (hkeys : ∀ k ∈ mapKeys graph.Status.Annotations, isProvenanceKey k)
    (ha : '/' ∉ a.data) (he : e ≤ maxInt)
    (hst : graph.Status.Status = a ++ "/" ++ fmtNat e ++ "/" ++ cs) :
    (collectResourceStatus w c graph).1.Status.Status =
        fmtNat (trackedReady c (mapKeys graph.Status.Annotations)) ++ "/" ++ fmtNat e ++ "/" ++
          fmtNat (trackedTotal (mapKeys graph.Status.Annotations)) ∧
      mapKeys (collectResourceStatus w c graph).1.Status.Annotations =
        mapKeys graph.Status.Annotations := by
  obtain ⟨st, hloop, ht, hr, hks⟩ := collectLoop_counts c (mapKeys graph.Status.Annotations)
    { annotations := graph.Status.Annotations, totalCnt := 0, readyCnt := 0 } hkeys
    (fun k hk => hk)
  have hlen : graph.Status.Annotations.length ≠ 0 := by
    intro h
    exact hne (List.length_eq_zero.mp h)
  unfold collectResourceStatus
  rw [if_neg hlen, hloop]
  simp only [hst, status_middle_field a cs e ha, strconvAtoi_fmtNat e he]
  simp only [Nat.zero_add] at ht hr
  rw [ht, hr]
  have hi : fmtInt (Int.ofNat e) = fmtNat e := rfl
  rw [hi]
  simp only [updateStatus_status]
  exact ⟨trivial, hks⟩

/-! ## The record of deletions -/

theorem applyStep_deleted (w : World) (sched : Nat → List Tick) (graph : GMConnector) (sys : Sys)
    (obj : K8sObj) : (applyStep w sched graph sys obj).1.deleted = sys.deleted := rfl

theorem reconcileDocs_deleted (w : World) (sched : Nat → List Tick) (graphNs : String)
    (stepCfg : Step) (nodeCfg : Router) (graph : GMConnector) (docs : List String) (flag : Bool)
    (retObjs : List K8sObj) (sys : Sys) :
    (reconcileDocs w sched graphNs stepCfg nodeCfg graph docs flag retObjs sys).1.deleted =
      sys.deleted := by
  induction docs generalizing flag retObjs sys with
  | nil => rfl
  | cons res rest ih =>
    unfold reconcileDocs
    split
    · exact ih _ _ _
    · split
      · rfl
      · split
        · rfl
        · split
          · rfl
          · rw [ih]; rfl

theorem reconcileResource_deleted (w : World) (sched : Nat → List Tick) (graphNs : String)
    (stepCfg : Step) (nodeCfg : Router) (graph : GMConnector) (sys : Sys) :
    (reconcileResource w sched graphNs stepCfg nodeCfg graph sys).1.deleted = sys.deleted := by
  unfold reconcileResource
  split
  · rfl
  · exact reconcileDocs_deleted _ _ _ _ _ _ _ _ _ _

theorem reconcileStep_deleted (w : World) (sched : Nat → List Tick) (nodeName : String)
    (node : Router) (i : Nat) (step : Step) (st : Pass) :
    (reconcileStep w sched nodeName node i step st).1.sys.deleted = st.sys.deleted := by
  have h := reconcileResource_deleted w sched st.graph.Namespace step node st.graph st.sys
  unfold reconcileStep
  split
  · rfl
  · split
    · split
      · rename_i heq; rw [heq] at h; exact h
      · rename_i heq; rw [heq] at h; exact h
      · rename_i heq
        rw [heq] at h
        split <;> exact h
    · rfl

theorem reconcileSteps_deleted (w : World) (sched : Nat → List Tick) (nodeName : String)
    (node : Router) (steps : List Step) (i : Nat) (st : Pass) :
    (reconcileSteps w sched nodeName node steps i st).1.sys.deleted = st.sys.deleted := by
  induction steps generalizing i st with
  | nil => rfl
  | cons step rest ih =>
    have h := reconcileStep_deleted w sched nodeName node i step st
    unfold reconcileSteps
    split
    · rename_i heq; rw [heq] at h; exact h
    · rename_i heq; rw [heq] at h; rw [ih]; exact h

theorem reconcileNodes_deleted (w : World) (sched : Nat → List Tick)
    (nodes : List (String × Router)) (st : Pass) :
    (reconcileNodes w sched nodes st).1.sys.deleted = st.sys.deleted := by
  induction nodes generalizing st with
  | nil => rfl
  | cons n rest ih =>
    obtain ⟨nodeName, node⟩ := n
    have h := reconcileSteps_deleted w sched nodeName node node.Steps 0 st
    unfold reconcileNodes
    split
    · rename_i heq; rw [heq] at h; exact h
    · rename_i heq; rw [heq] at h; rw [ih]; exact h

theorem routerDocs_deleted (w : World) (sched : Nat → List Tick) (docs : List String)
    (st : Pass) : (routerDocs w sched docs st).1.sys.deleted = st.sys.deleted := by
  induction docs generalizing st with
  | nil => rfl
  | cons res rest ih =>
    unfold routerDocs
    split
    · exact ih _
    · split
      · rfl
      · split
        · rfl
        · split
          · rfl
          · rw [ih]; rfl

theorem reconcileRouterService_deleted (w : World) (sched : Nat → List Tick) (st : Pass) :
    (reconcileRouterService w sched st).1.sys.deleted = st.sys.deleted := by
  unfold reconcileRouterService
  split
  · rfl
  · split
    · rfl
    · split
      · rfl
      · exact routerDocs_deleted _ _ _ _

/-- The keys the garbage-collection loop passes on are keys of the snapshot absent from the
rebuilt map; when the loop completes they are all of them. -/
theorem gcLoop_deleted (ann : StrMap) (ks : List String) (sys : Sys) :
    (∀ k, k ∈ (gcLoop ann ks sys).1.deleted →
      k ∈ sys.deleted ∨ (k ∈ ks ∧ mapHas ann k = false)) ∧
    ((gcLoop ann ks sys).2 = none →
      ∀ k, k ∈ (gcLoop ann ks sys).1.deleted ↔
        (k ∈ sys.deleted ∨ (k ∈ ks ∧ mapHas ann k = false))) := by
  induction ks generalizing sys with
  | nil => simp [gcLoop]
  | cons x rest ih =>
    unfold gcLoop
    by_cases hx : mapHas ann x = true
    · simp only [hx, if_true]
      obtain ⟨h1, h2⟩ := ih sys
      constructor
      · intro k hk
        rcases h1 k hk with h | h
        · exact Or.inl h
        · exact Or.inr ⟨by simp [h.1], h.2⟩
      · intro hnone k
        rw [h2 hnone k]
        constructor
        · rintro (h | h)
          · exact Or.inl h
          · exact Or.inr ⟨by simp [h.1], h.2⟩
        · rintro (h | ⟨h, hf⟩)
          · exact Or.inl h
          · simp only [List.mem_cons] at h
            rcases h with h | h
            · subst h; rw [hx] at hf; cases hf
            · exact Or.inr ⟨h, hf⟩
    · have hxf : mapHas ann x = false := by simpa using hx
      simp only [hx]
      cases hdel : deleteRecordedResource sys.cluster x with
      | error f =>
        simp only [Bool.false_eq_true, if_false]
        constructor
        · intro k hk
          simp only [List.mem_append, List.mem_singleton] at hk
          rcases hk with h | h
          · exact Or.inl h
          · subst h; exact Or.inr ⟨by simp, hxf⟩
        · intro h; cases h
      | ok c' =>
        simp only [Bool.false_eq_true, if_false]
        obtain ⟨h1, h2⟩ := ih { sys with cluster := c', deleted := sys.deleted ++ [x] }
        constructor
        · intro k hk
          rcases h1 k hk with h | h
          · simp only [List.mem_append, List.mem_singleton] at h
            rcases h with h | h
            · exact Or.inl h
            · subst h; exact Or.inr ⟨by simp, hxf⟩
          · exact Or.inr ⟨by simp [h.1], h.2⟩
        · intro hnone k
          rw [h2 hnone k]
          simp only [List.mem_append, List.mem_cons, List.not_mem_nil, or_false]
          constructor
          · rintro ((h | h) | h)
            · exact Or.inl h
            · subst h; exact Or.inr ⟨Or.inl rfl, hxf⟩
            · exact Or.inr ⟨Or.inr h.1, h.2⟩
          · rintro (h | ⟨h | h, hf⟩)
            · exact Or.inl (Or.inl h)
            · exact Or.inl (Or.inr h)
            · exact Or.inr ⟨h, hf⟩

theorem collectOne_keys (c : Cluster) (st st' : Counters) (k : String)
    (hmem : k ∈ mapKeys st.annotations) (h : collectOne c st k = .ok st') :
    mapKeys st'.annotations = mapKeys st.annotations := by
  unfold collectOne at h
  split at h
  · split at h
    · split at h
      · injection h with h; subst h; rfl
      · split at h <;>
          (injection h with h; subst h; exact mapKeys_mapSet_mem _ _ _ hmem)
    · injection h with h; subst h; rfl
  · cases h

theorem collectLoop_keys (c : Cluster) (ks : List String) (st st' : Counters)
    (hmem : ∀ k ∈ ks, k ∈ mapKeys st.annotations) (h : collectLoop c ks st = .ok st') :
    mapKeys st'.annotations = mapKeys st.annotations := by
  induction ks generalizing st with
  | nil => simp only [collectLoop] at h; injection h with h; subst h; rfl
  | cons k rest ih =>
    unfold collectLoop at h
    split at h
    · cases h
    · rename_i st1 h1
      have hk1 := collectOne_keys c st st1 k (hmem k (by simp)) h1
      rw [ih st1 (fun x hx => by rw [hk1]; exact hmem x (by simp [hx])) h, hk1]

/-- Status aggregation keeps the set of tracked keys, whatever its outcome. -/
theorem collectResourceStatus_keys (w : World) (c : Cluster) (graph : GMConnector) :
    mapKeys (collectResourceStatus w c graph).1.Status.Annotations =
      mapKeys graph.Status.Annotations := by
  unfold collectResourceStatus
  split
  · rfl
  · split
    · rfl
    · rename_i st hloop
      have hk := collectLoop_keys c (mapKeys graph.Status.Annotations)
        { annotations := graph.Status.Annotations, totalCnt := 0, readyCnt := 0 } st
        (fun k hk => hk) hloop
      simp only
      split
      · exact hk
      · split
        · exact hk
        · rw [updateStatus_status]
          exact hk

theorem mapHas_iff_mem (m : StrMap) (k : String) : mapHas m k = true ↔ k ∈ mapKeys m := by
  induction m with
  | nil => simp [mapHas, mapLookup, mapKeys]
  | cons e m ih =>
    obtain ⟨k', v⟩ := e
    by_cases h : k' = k
    · simp [mapHas, mapLookup, mapKeys, h]
    · have : ¬ k = k' := fun e => h e.symm
      simp only [mapHas, mapLookup, h, if_false, mapKeys, List.map_cons, List.mem_cons, this,
        false_or]
      exact ih

theorem mapHas_congr_keys (m m' : StrMap) (k : String) (h : mapKeys m = mapKeys m') :
    mapHas m k = mapHas m' k := by
  have h1 := mapHas_iff_mem m k
  have h2 := mapHas_iff_mem m' k
  rw [h] at h1
  cases hm : mapHas m k <;> cases hm' : mapHas m' k <;> simp_all

/-- The keys a pass deletes, against the snapshot and the map the pass leaves. -/
theorem reconcileGraph_deleted (w : World) (sched : Nat → List Tick) (c : Cluster)
    (graph : GMConnector) :
    (∀ k, k ∈ (reconcileGraph w sched c graph).sys.deleted →
      k ∈ mapKeys graph.Status.Annotations ∧
        mapHas (reconcileGraph w sched c graph).graph.Status.Annotations k = false) ∧
    ((reconcileGraph w sched c graph).stage = .status ∨
        (reconcileGraph w sched c graph).stage = .done →
      ∀ k, k ∈ (reconcileGraph w sched c graph).sys.deleted ↔
        (k ∈ mapKeys graph.Status.Annotations ∧
          mapHas (reconcileGraph w sched c graph).graph.Status.Annotations k = false)) := by
  have hN := reconcileNodes_deleted w sched graph.Spec.Nodes
      { graph := clearAnnotations graph, externalService := 0
        sys := { cluster := c, calls := 0, applied := [], deleted := [] } }
  unfold reconcileGraph
  simp only
  split
  · rename_i st f heq
    rw [heq] at hN
    simp only at hN
    simp [hN]
  · rename_i st heq
    rw [heq] at hN
    simp only at hN
    have hR := reconcileRouterService_deleted w sched st
    split
    · rename_i st2 f heq2
      rw [heq2] at hR
      simp only at hR
      simp [hR, hN]
    · rename_i st2 heq2
      rw [heq2] at hR
      simp only at hR
      have hd : st2.sys.deleted = [] := by rw [hR, hN]
      obtain ⟨g1, g2⟩ := gcLoop_deleted st2.graph.Status.Annotations
        (mapKeys graph.Status.Annotations) st2.sys
      split
      · rename_i sys3 f heq3
        rw [heq3] at g1
        simp only at g1
        constructor
        · intro k hk
          rcases g1 k hk with h | h
          · rw [hd] at h; cases h
          · exact h
        · intro h
          rcases h with h | h <;> cases h
      · rename_i sys3 heq3
        rw [heq3] at g1 g2
        simp only at g1 g2
        have hkeys : ∀ k,
            mapHas (collectResourceStatus w sys3.cluster
              (setInitialStatus st2.graph st2.externalService)).1.Status.Annotations k =
            mapHas st2.graph.Status.Annotations k := fun k =>
          mapHas_congr_keys _ _ k (collectResourceStatus_keys w sys3.cluster
            (setInitialStatus st2.graph st2.externalService))
        have hiff : ∀ k, k ∈ sys3.deleted ↔
            (k ∈ mapKeys graph.Status.Annotations ∧
              mapHas st2.graph.Status.Annotations k = false) := by
          intro k
          rw [g2 trivial k, hd]
          simp
        split
        · rename_i g' f heq4
          have e : g' = (collectResourceStatus w sys3.cluster
              (setInitialStatus st2.graph st2.externalService)).1 := by rw [heq4]
          simp only [e, hkeys]
          exact ⟨fun k hk => (hiff k).mp hk, fun _ k => hiff k⟩
        · rename_i g' heq4
          have e : g' = (collectResourceStatus w sys3.cluster
              (setInitialStatus st2.graph st2.externalService)).1 := by rw [heq4]
          simp only [e, hkeys]
          exact ⟨fun k hk => (hiff k).mp hk, fun _ k => hiff k⟩

/-! ## Directives in `Step.Config` -/

theorem stringsSplitN2_colon (p r : String) (hp : ':' ∉ p.data) :
    stringsSplitN2 (p ++ ":" ++ r) ":" = [p, r] := by
  unfold stringsSplitN2
  have e : (p ++ ":" ++ r).data = p.data ++ ':' :: r.data := by
    simp [String.data_append]
  have e2 : (":" : String).data = [':'] := rfl
  rw [e, e2, splitFirst_single_append ':' p.data r.data hp]

theorem stringsSplitN2_plain (v : String) (h : ':' ∉ v.data) : stringsSplitN2 v ":" = [v] := by
  unfold stringsSplitN2
  have e2 : (":" : String).data = [':'] := rfl
  rw [e2, splitFirst_single_noSep ':' v.data h]

theorem parseFetchFrom_colon (p r : String) (hp : ':' ∉ p.data) :
    parseFetchFrom (p ++ ":" ++ r) =
      if p = "fetch_from" then .ok (true, r)
      else .error (.error ("Invalid syntax: expected 'fetch_from:service/namespace', got '" ++
        (p ++ ":" ++ r) ++ "'")) := by
  unfold parseFetchFrom
  rw [stringsSplitN2_colon p r hp]

theorem parseFetchFrom_plain (v : String) (h : ':' ∉ v.data) :
    parseFetchFrom v = .ok (false, v) := by
  unfold parseFetchFrom
  rw [stringsSplitN2_plain v h]

theorem splitServiceNamespace_none (graphNs v : String) (h : '/' ∉ v.data) :
    splitServiceNamespace graphNs v = .ok (v, graphNs) := by
  unfold splitServiceNamespace
  rw [slash_eq, stringsSplit_noSep v '/' h]

theorem splitServiceNamespace_one (graphNs a b : String) (ha : '/' ∉ a.data)
    (hb : '/' ∉ b.data) : splitServiceNamespace graphNs (a ++ "/" ++ b) = .ok (a, b) := by
  unfold splitServiceNamespace
  rw [slash_eq, stringsSplit_append a b '/' ha, stringsSplit_noSep b '/' hb]

theorem splitServiceNamespace_more (graphNs a b rest : String) (ha : '/' ∉ a.data)
    (hb : '/' ∉ b.data) :
    splitServiceNamespace graphNs (a ++ "/" ++ b ++ "/" ++ rest) =
      .error (.error ("Invalid syntax: expected 'service/namespace', got '" ++
        (a ++ "/" ++ b ++ "/" ++ rest) ++ "'")) := by
  have e1 : a ++ "/" ++ b ++ "/" ++ rest =
      a ++ String.singleton '/' ++ (b ++ String.singleton '/' ++ rest) := by
    apply String.ext
    simp [String.data_append, List.append_assoc, ← slash_eq]
  have hsplit : stringsSplit (a ++ "/" ++ b ++ "/" ++ rest) "/" =
      a :: b :: stringsSplit rest (String.singleton '/') := by
    rw [e1, slash_eq, stringsSplit_append _ _ _ ha, stringsSplit_append _ _ _ hb]
  have hne : stringsSplit rest (String.singleton '/') ≠ [] := by
    unfold stringsSplit
    intro h
    exact splitSep_ne_nil _ _ _ (List.map_eq_nil_iff.mp h)
  unfold splitServiceNamespace
  rw [hsplit]
  cases hr : stringsSplit rest (String.singleton '/') with
  | nil => exact absurd hr hne
  | cons x xs => rfl

theorem resolveConfig_append (w : World) (c : Cluster) (k : WorkloadKind) (graphNs : String)
    (stepCfg : Step) (nodeCfg : Router) (pre post : StrMap) (acc : List EnvVar) :
    resolveConfig w c k graphNs stepCfg nodeCfg (pre ++ post) acc =
      match resolveConfig w c k graphNs stepCfg nodeCfg pre acc with
      | .ok acc' => resolveConfig w c k graphNs stepCfg nodeCfg post acc'
      | .error f => .error f := by
  induction pre generalizing acc with
  | nil => rfl
  | cons e pre ih =>
    obtain ⟨name, value⟩ := e
    simp only [List.cons_append, resolveConfig]
    split
    · exact ih acc
    · split
      · rfl
      · exact ih _

/-- When the loop over `Step.Config` reaches an entry whose value does not resolve, the
loop ends with the failure of that entry. -/
theorem resolveConfig_fails_at (w : World) (c : Cluster) (k : WorkloadKind) (graphNs : String)
    (stepCfg : Step) (nodeCfg : Router) (pre post : StrMap) (acc acc' : List EnvVar)
    (name value : String) (f : Fault) (hname : name ≠ "endpoint" ∧ name ≠ "nodes")
    (hpre : resolveConfig w c k graphNs stepCfg nodeCfg pre acc = .ok acc')
    (hval : resolveConfigValue w c k graphNs stepCfg nodeCfg name value = .error f) :
    resolveConfig w c k graphNs stepCfg nodeCfg (pre ++ (name, value) :: post) acc =
      .error f := by
  rw [resolveConfig_append, hpre]
  simp only [resolveConfig]
  have : ¬ ((name = "endpoint" || name = "nodes") = true) := by
    simp [hname.1, hname.2]
  rw [if_neg this, hval]

/-- A workload document whose Config loop fails is not shaped: `reconcileResource` returns
the failure. -/
theorem shapeWorkload_fails (w : World) (c : Cluster) (k : WorkloadKind) (graphNs : String)
    (stepCfg : Step) (nodeCfg : Router) (flag : Bool) (obj obj1 : K8sObj) (f : Fault)
    (hren : renameWorkload stepCfg.InternalService.ServiceName obj = .ok obj1)
    (hcfg : resolveConfig w c k graphNs stepCfg nodeCfg stepCfg.InternalService.Config [] =
      .error f) :
    shapeWorkload w c k graphNs stepCfg nodeCfg flag obj = .error f := by
  unfold shapeWorkload
  rw [hren]
  simp only [hcfg]

/-! ## A pass that leaves the cluster as it found it -/

theorem quiet_of_isPrefix {l l' : List ApplyEvent} (h : l <+: l') (hq : quiet l') : quiet l :=
  fun e he => hq e (h.subset he)

theorem Sys.frames_refl (sys : Sys) : sys.frames sys :=
  ⟨List.prefix_refl _, fun _ => rfl⟩

theorem Sys.frames_trans {a b c : Sys} (h1 : a.frames b) (h2 : b.frames c) : a.frames c :=
  ⟨h1.1.trans h2.1, fun hq => by rw [h2.2 hq, h1.2 (quiet_of_isPrefix h2.1 hq)]⟩

theorem Cluster.update_same (c : Cluster) (n latest : K8sObj)
    (hget : c.get n.apiVersion n.kind n.ns n.name = some latest)
    (hsame : storedAfterUpdate latest n = latest) : c.update n = c := by
  induction c with
  | nil => rfl
  | cons o os ih =>
    unfold Cluster.get at hget
    unfold Cluster.update
    by_cases h : o.isAt n.apiVersion n.kind n.ns n.name = true
    · rw [if_pos h] at hget
      injection hget with hget
      subst hget
      rw [if_pos h, hsame]
    · rw [if_neg h] at hget
      rw [if_neg h, ih hget]

/-- A call of `applyResourceToK8s` that neither creates nor changes leaves the store. -/
theorem applyResourceToK8s_cluster (w : World) (graph : GMConnector) (ticks : List Tick)
    (c : Cluster) (obj : K8sObj)
    (hc : (applyResourceToK8s w graph ticks c obj).created = false)
    (hch : (applyResourceToK8s w graph ticks c obj).objectChanged = false) :
    (applyResourceToK8s w graph ticks c obj).cluster = c := by
  induction ticks generalizing obj with
  | nil => rfl
  | cons t rest ih =>
    cases t with
    | cancelled => rfl
    | attempt getFails writeFails =>
      unfold applyResourceToK8s at hc hch ⊢
      split
      · rfl
      · rename_i obj1 hset
        simp only [hset] at hc hch
        by_cases hg : getFails = true
        · simp only [hg, if_true] at hc hch ⊢
          exact ih obj1 hc hch
        · simp only [hg, Bool.false_eq_true, if_false] at hc hch ⊢
          cases hget : c.get obj1.apiVersion obj1.kind obj1.ns obj1.name with
          | none =>
            simp only [hget] at hc hch ⊢
            by_cases hw : writeFails = true
            · simp [hw]
            · simp [hw] at hc
          | some latest =>
            simp only [hget] at hc hch ⊢
            by_cases hp : obj1.kind = "PersistentVolumeClaim"
            · simp [hp]
            · simp only [hp, if_false] at hc hch ⊢
              by_cases hw : writeFails = true
              · simp only [hw, if_true] at hc hch ⊢
                exact ih _ hc hch
              · simp only [hw, Bool.false_eq_true, if_false] at hc hch ⊢
                have hsame : storedAfterUpdate latest
                    { obj1 with resourceVersion := latest.resourceVersion } = latest := by
                  by_contra hne
                  have : decide (latest ≠ storedAfterUpdate latest
                      { obj1 with resourceVersion := latest.resourceVersion }) = true := by
                    simp only [decide_eq_true_eq]
                    exact fun e => hne e.symm
                  rw [this] at hch
                  cases hch
                exact Cluster.update_same c _ latest hget hsame

theorem applyStep_frames (w : World) (sched : Nat → List Tick) (graph : GMConnector) (sys : Sys)
    (obj : K8sObj) : sys.frames (applyStep w sched graph sys obj).1 := by
  constructor
  · exact List.prefix_append _ _
  · intro hq
    have he := hq { key := resourceKey (applyResourceToK8s w graph (sched sys.calls) sys.cluster obj).obj
                    created := (applyResourceToK8s w graph (sched sys.calls) sys.cluster obj).created
                    changed := (applyResourceToK8s w graph (sched sys.calls) sys.cluster obj).objectChanged
                    failed := (applyResourceToK8s w graph (sched sys.calls) sys.cluster obj).err.isSome }
      (by simp [applyStep])
    exact applyResourceToK8s_cluster w graph _ _ obj he.1 he.2

theorem reconcileDocs_frames (w : World) (sched : Nat → List Tick) (graphNs : String)
    (stepCfg : Step) (nodeCfg : Router) (graph : GMConnector) (docs : List String) (flag : Bool)
    (retObjs : List K8sObj) (sys : Sys) :
    sys.frames (reconcileDocs w sched graphNs stepCfg nodeCfg graph docs flag retObjs sys).1 := by
  induction docs generalizing flag retObjs sys with
  | nil => exact Sys.frames_refl sys
  | cons res rest ih =>
    unfold reconcileDocs
    split
    · exact ih _ _ _
    · split
      · exact Sys.frames_refl sys
      · split
        · exact Sys.frames_refl sys
        · split
          · exact applyStep_frames _ _ _ _ _
          · exact Sys.frames_trans (applyStep_frames _ _ _ _ _) (ih _ _ _)

theorem reconcileResource_frames (w : World) (sched : Nat → List Tick) (graphNs : String)
    (stepCfg : Step) (nodeCfg : Router) (graph : GMConnector) (sys : Sys) :
    sys.frames (reconcileResource w sched graphNs stepCfg nodeCfg graph sys).1 := by
  unfold reconcileResource
  split
  · exact Sys.frames_refl sys
  · exact reconcileDocs_frames _ _ _ _ _ _ _ _ _ _

theorem reconcileStep_frames (w : World) (sched : Nat → List Tick) (nodeName : String)
    (node : Router) (i : Nat) (step : Step) (st : Pass) :
    st.sys.frames (reconcileStep w sched nodeName node i step st).1.sys := by
  have h := reconcileResource_frames w sched st.graph.Namespace step node st.graph st.sys
  unfold reconcileStep
  split
  · exact Sys.frames_refl _
  · split
    · split
      · rename_i heq; rw [heq] at h; exact h
      · rename_i heq; rw [heq] at h; exact h
      · rename_i heq
        rw [heq] at h
        split <;> exact h
    · exact Sys.frames_refl _

theorem reconcileSteps_frames (w : World) (sched : Nat → List Tick) (nodeName : String)
    (node : Router) (steps : List Step) (i : Nat) (st : Pass) :
    st.sys.frames (reconcileSteps w sched nodeName node steps i st).1.sys := by
  induction steps generalizing i st with
  | nil => exact Sys.frames_refl _
  | cons step rest ih =>
    have h := reconcileStep_frames w sched nodeName node i step st
    unfold reconcileSteps
    split
    · rename_i heq; rw [heq] at h; exact h
    · rename_i heq; rw [heq] at h; exact Sys.frames_trans h (ih _ _)

theorem reconcileNodes_frames (w : World) (sched : Nat → List Tick)
    (nodes : List (String × Router)) (st : Pass) :
    st.sys.frames (reconcileNodes w sched nodes st).1.sys := by
  induction nodes generalizing st with
  | nil => exact Sys.frames_refl _
  | cons n rest ih =>
    obtain ⟨nodeName, node⟩ := n
    have h := reconcileSteps_frames w sched nodeName node node.Steps 0 st
    unfold reconcileNodes
    split
    · rename_i heq; rw [heq] at h; exact h
    · rename_i heq; rw [heq] at h; exact Sys.frames_trans h (ih _)

theorem routerDocs_frames (w : World) (sched : Nat → List Tick) (docs : List String)
    (st : Pass) : st.sys.frames (routerDocs w sched docs st).1.sys := by
  induction docs generalizing st with
  | nil => exact Sys.frames_refl _
  | cons res rest ih =>
    unfold routerDocs
    split
    · exact ih _
    · split
      · exact Sys.frames_refl _
      · split
        · exact applyStep_frames _ _ _ _ _
        · split
          · exact applyStep_frames _ _ _ _ _
          · rename_i obj _ _ _ _ graph' _
            exact Sys.frames_trans (applyStep_frames w sched st.graph st.sys obj)
              (ih { st with graph := graph', sys := (applyStep w sched st.graph st.sys obj).1 })

theorem reconcileRouterService_frames (w : World) (sched : Nat → List Tick) (st : Pass) :
    st.sys.frames (reconcileRouterService w sched st).1.sys := by
  unfold reconcileRouterService
  split
  · exact Sys.frames_refl _
  · split
    · exact Sys.frames_refl _
    · split
      · exact Sys.frames_refl _
      · exact routerDocs_frames _ _ _ _

theorem gcLoop_present (ann : StrMap) (ks : List String) (sys : Sys)
    (h : ∀ k ∈ ks, mapHas ann k = true) : gcLoop ann ks sys = (sys, none) := by
  induction ks with
  | nil => rfl
  | cons k rest ih =>
    unfold gcLoop
    rw [if_pos (h k (by simp))]
    exact ih (fun x hx => h x (by simp [hx]))

theorem gcLoop_applied (ann : StrMap) (ks : List String) (sys : Sys) :
    (gcLoop ann ks sys).1.applied = sys.applied := by
  induction ks generalizing sys with
  | nil => rfl
  | cons k rest ih =>
    unfold gcLoop
    split
    · exact ih sys
    · split
      · rfl
      · rw [ih]

theorem applyResourceToK8s_congr (w : World) (g g' : GMConnector) (h : sameForPass g g')
    (ticks : List Tick) (c : Cluster) (obj : K8sObj) :
    applyResourceToK8s w g ticks c obj = applyResourceToK8s w g' ticks c obj := by
  induction ticks generalizing obj with
  | nil => rfl
  | cons t rest ih =>
    cases t with
    | cancelled => rfl
    | attempt getFails writeFails =>
      unfold applyResourceToK8s
      rw [h.1, h.2.1]
      split
      · rfl
      · rename_i obj1 _
        simp only [ih]

theorem applyStep_congr (w : World) (sched : Nat → List Tick) (g g' : GMConnector)
    (h : sameForPass g g') (sys : Sys) (obj : K8sObj) :
    applyStep w sched g sys obj = applyStep w sched g' sys obj := by
  unfold applyStep
  rw [applyResourceToK8s_congr w g g' h]

theorem reconcileDocs_congr (w : World) (sched : Nat → List Tick) (graphNs : String)
    (stepCfg : Step) (nodeCfg : Router) (g g' : GMConnector) (h : sameForPass g g')
    (docs : List String) (flag : Bool) (retObjs : List K8sObj) (sys : Sys) :
    reconcileDocs w sched graphNs stepCfg nodeCfg g docs flag retObjs sys =
      reconcileDocs w sched graphNs stepCfg nodeCfg g' docs flag retObjs sys := by
  induction docs generalizing flag retObjs sys with
  | nil => rfl
  | cons res rest ih =>
    unfold reconcileDocs
    simp only [applyStep_congr w sched g g' h, ih]

theorem reconcileResource_congr (w : World) (sched : Nat → List Tick) (graphNs : String)
    (stepCfg : Step) (nodeCfg : Router) (g g' : GMConnector) (h : sameForPass g g')
    (sys : Sys) :
    reconcileResource w sched graphNs stepCfg nodeCfg g sys =
      reconcileResource w sched graphNs stepCfg nodeCfg g' sys := by
  unfold reconcileResource
  simp only [reconcileDocs_congr w sched graphNs stepCfg nodeCfg g g' h]

theorem recordResource_congr (g g' : GMConnector) (h : sameForPass g g') (nodeName : String)
    (i : Nat) (obj : K8sObj) :
    agreeGo (recordResource g nodeName i obj) (recordResource g' nodeName i obj) := by
  obtain ⟨h1, h2, h3, h4⟩ := h
  unfold recordResource
  simp only [h3, h4]
  by_cases hk : obj.kind = Service
  · simp only [hk, if_true]
    by_cases hn : g'.Spec.Nodes.length ≠ 0 ∧
        (nodeLookup g'.Spec.Nodes nodeName).Steps.length ≠ 0
    · rw [if_pos hn, if_pos hn]
      cases (nodeLookup g'.Spec.Nodes nodeName).Steps[i]? with
      | none => simp [agreeGo]
      | some step => simp [agreeGo, sameForPass, h1, h2, h3]
    · rw [if_neg hn, if_neg hn]
      simp [agreeGo, sameForPass, h1, h2, h3]
  · simp only [hk, if_false]
    simp [agreeGo, sameForPass, h1, h2, h3]

theorem recordAll_congr (nodeName : String) (i : Nat) (objs : List K8sObj)
    (g g' : GMConnector) (h : sameForPass g g') :
    agreeGo (recordAll nodeName i objs g) (recordAll nodeName i objs g') := by
  induction objs generalizing g g' with
  | nil => exact h
  | cons obj rest ih =>
    have hr := recordResource_congr g g' h nodeName i obj
    unfold recordAll
    cases h1 : recordResource g nodeName i obj with
    | error f =>
      cases h2 : recordResource g' nodeName i obj with
      | error f' =>
        rw [h1, h2] at hr
        exact hr
      | ok g1' =>
        rw [h1, h2] at hr
        exact hr.elim
    | ok g1 =>
      cases h2 : recordResource g' nodeName i obj with
      | error f' =>
        rw [h1, h2] at hr
        exact hr.elim
      | ok g1' =>
        rw [h1, h2] at hr
        exact ih g1 g1' hr

theorem setExternalURL_congr (g g' : GMConnector) (h : sameForPass g g') (nodeName : String)
    (i : Nat) (url : String) :
    sameForPass (setExternalURL g nodeName i url) (setExternalURL g' nodeName i url) := by
  obtain ⟨h1, h2, h3, h4⟩ := h
  exact ⟨h1, h2, by simp [setExternalURL, h3], h4⟩

theorem reconcileStep_congr (w : World) (sched : Nat → List Tick) (nodeName : String)
    (node : Router) (i : Nat) (step : Step) (st st' : Pass) (h : st.agrees st') :
    (reconcileStep w sched nodeName node i step st).1.agrees
        (reconcileStep w sched nodeName node i step st').1 ∧
      (reconcileStep w sched nodeName node i step st).2 =
        (reconcileStep w sched nodeName node i step st').2 := by
  obtain ⟨hg, he, hs⟩ := h
  unfold reconcileStep
  by_cases hn : step.NodeName ≠ ""
  · rw [if_pos hn, if_pos hn]
    exact ⟨⟨hg, he, hs⟩, rfl⟩
  · rw [if_neg hn, if_neg hn]
    by_cases hx : step.ExternalService = ""
    · rw [if_pos hx, if_pos hx]
      rw [← hs, ← hg.2.1, ← reconcileResource_congr w sched st.graph.Namespace step node
        st.graph st'.graph hg st.sys]
      cases hr : reconcileResource w sched st.graph.Namespace step node st.graph st.sys with
      | mk sys r =>
        cases r with
        | error f =>
          cases f with
          | error e => exact ⟨⟨hg, he, rfl⟩, rfl⟩
          | panic p => exact ⟨⟨hg, he, rfl⟩, rfl⟩
        | ok objs =>
          have hrec := recordAll_congr nodeName i objs st.graph st'.graph hg
          simp only
          cases h1 : recordAll nodeName i objs st.graph with
          | error f =>
            cases h2 : recordAll nodeName i objs st'.graph with
            | error f' =>
              rw [h1, h2] at hrec
              have : f = f' := hrec
              subst this
              cases f with
              | error e => exact ⟨⟨hg, he, rfl⟩, rfl⟩
              | panic p => exact ⟨⟨hg, he, rfl⟩, rfl⟩
            | ok g1' =>
              rw [h1, h2] at hrec
              exact hrec.elim
          | ok g1 =>
            cases h2 : recordAll nodeName i objs st'.graph with
            | error f' =>
              rw [h1, h2] at hrec
              exact hrec.elim
            | ok g1' =>
              rw [h1, h2] at hrec
              exact ⟨⟨hrec, he, rfl⟩, rfl⟩
    · rw [if_neg hx, if_neg hx]
      exact ⟨⟨setExternalURL_congr _ _ hg _ _ _, by simp [he], hs⟩, rfl⟩

theorem reconcileSteps_congr (w : World) (sched : Nat → List Tick) (nodeName : String)
    (node : Router) (steps : List Step) (i : Nat) (st st' : Pass) (h : st.agrees st') :
    (reconcileSteps w sched nodeName node steps i st).1.agrees
        (reconcileSteps w sched nodeName node steps i st').1 ∧
      (reconcileSteps w sched nodeName node steps i st).2 =
        (reconcileSteps w sched nodeName node steps i st').2 := by
  induction steps generalizing i st st' with
  | nil => exact ⟨h, rfl⟩
  | cons step rest ih =>
    obtain ⟨ha, hf⟩ := reconcileStep_congr w sched nodeName node i step st st' h
    unfold reconcileSteps
    cases h1 : reconcileStep w sched nodeName node i step st with
    | mk st1 f1 =>
      cases h2 : reconcileStep w sched nodeName node i step st' with
      | mk st1' f1' =>
        rw [h1, h2] at ha hf
        simp only at ha hf
        subst hf
        cases f1 with
        | some f => exact ⟨ha, rfl⟩
        | none => exact ih (i + 1) st1 st1' ha

theorem reconcileNodes_congr (w : World) (sched : Nat → List Tick)
    (nodes : List (String × Router)) (st st' : Pass) (h : st.agrees st') :
    (reconcileNodes w sched nodes st).1.agrees (reconcileNodes w sched nodes st').1 ∧
      (reconcileNodes w sched nodes st).2 = (reconcileNodes w sched nodes st').2 := by
  induction nodes generalizing st st' with
  | nil => exact ⟨h, rfl⟩
  | cons n rest ih =>
    obtain ⟨nodeName, node⟩ := n
    obtain ⟨ha, hf⟩ := reconcileSteps_congr w sched nodeName node node.Steps 0 st st' h
    unfold reconcileNodes
    cases h1 : reconcileSteps w sched nodeName node node.Steps 0 st with
    | mk st1 f1 =>
      cases h2 : reconcileSteps w sched nodeName node node.Steps 0 st' with
      | mk st1' f1' =>
        rw [h1, h2] at ha hf
        simp only at ha hf
        subst hf
        cases f1 with
        | some f => exact ⟨ha, rfl⟩
        | none => exact ih st1 st1' ha

theorem routerDocs_congr (w : World) (sched : Nat → List Tick) (docs : List String)
    (st st' : Pass) (h : st.agrees st') :
    (routerDocs w sched docs st).1.agrees (routerDocs w sched docs st').1 ∧
      (routerDocs w sched docs st).2 = (routerDocs w sched docs st').2 := by
  induction docs generalizing st st' with
  | nil => exact ⟨h, rfl⟩
  | cons res rest ih =>
    obtain ⟨hg, he, hs⟩ := h
    unfold routerDocs
    by_cases hskip : (res = "" || !stringsContains res "kind:") = true
    · rw [if_pos hskip, if_pos hskip]
      exact ih st st' ⟨hg, he, hs⟩
    · rw [if_neg hskip, if_neg hskip]
      cases w.decode res with
      | error e => exact ⟨⟨hg, he, hs⟩, rfl⟩
      | ok obj =>
        simp only
        rw [← hs, ← applyStep_congr w sched st.graph st'.graph hg st.sys obj]
        cases (applyStep w sched st.graph st.sys obj).2.err with
        | some e => exact ⟨⟨hg, he, rfl⟩, rfl⟩
        | none =>
          simp only
          have hrec := recordResource_congr st.graph st'.graph hg "" 0
            (applyStep w sched st.graph st.sys obj).2.obj
          cases h1 : recordResource st.graph "" 0 (applyStep w sched st.graph st.sys obj).2.obj with
          | error f =>
            cases h2 : recordResource st'.graph "" 0
                (applyStep w sched st.graph st.sys obj).2.obj with
            | error f' =>
              rw [h1, h2] at hrec
              have : f = f' := hrec
              subst this
              exact ⟨⟨hg, he, rfl⟩, rfl⟩
            | ok g1' =>
              rw [h1, h2] at hrec
              exact hrec.elim
          | ok g1 =>
            cases h2 : recordResource st'.graph "" 0
                (applyStep w sched st.graph st.sys obj).2.obj with
            | error f' =>
              rw [h1, h2] at hrec
              exact hrec.elim
            | ok g1' =>
              rw [h1, h2] at hrec
              exact ih _ _ ⟨hrec, he, rfl⟩

theorem routerSettings_congr (g g' : GMConnector) (h : sameForPass g g') (json : String) :
    routerSettings g json = routerSettings g' json := by
  unfold routerSettings
  rw [h.2.1, h.2.2.1]

theorem reconcileRouterService_congr (w : World) (sched : Nat → List Tick) (st st' : Pass)
    (h : st.agrees st') :
    (reconcileRouterService w sched st).1.agrees (reconcileRouterService w sched st').1 ∧
      (reconcileRouterService w sched st).2 = (reconcileRouterService w sched st').2 := by
  have hg := h.1
  have hs := h.2.2
  have hset : ∀ json, routerSettings st'.graph json = routerSettings st.graph json :=
    fun json => (routerSettings_congr st.graph st'.graph hg json).symm
  unfold reconcileRouterService
  rw [← hs, ← hg.2.2.1]
  simp only [hset]
  cases w.marshal st.graph.Spec with
  | error e => exact ⟨h, rfl⟩
  | ok jsonString =>
    simp only
    cases getTemplateBytes w st.sys.cluster Router_ with
    | error e => exact ⟨h, rfl⟩
    | ok templateBytes =>
      simp only
      cases applyRouterConfigToTemplates w Router_ (routerSettings st.graph jsonString)
          templateBytes with
      | error e => exact ⟨h, rfl⟩
      | ok appliedCfg => exact routerDocs_congr w sched _ st st' h

/-- The status string and the annotation map that `collectResourceStatus` leaves depend on
the graph through its annotation map and its incoming status string only. -/
theorem collectResourceStatus_congr (w : World) (c : Cluster) (g g' : GMConnector)
    (ha : g.Status.Annotations = g'.Status.Annotations)
    (hs : g.Status.Status = g'.Status.Status) :
    (collectResourceStatus w c g).1.Status.Status =
        (collectResourceStatus w c g').1.Status.Status ∧
      (collectResourceStatus w c g).1.Status.Annotations =
        (collectResourceStatus w c g').1.Status.Annotations := by
  unfold collectResourceStatus
  dsimp only
  rw [← ha, ← hs]
  by_cases hl : g.Status.Annotations.length = 0
  · rw [if_pos hl, if_pos hl]
    exact ⟨hs, ha⟩
  · rw [if_neg hl, if_neg hl]
    cases collectLoop c (mapKeys g.Status.Annotations)
        { annotations := g.Status.Annotations, totalCnt := 0, readyCnt := 0 } with
    | error f => exact ⟨hs, ha⟩
    | ok st =>
      dsimp only
      cases splitField g.Status.Status "/" 1 with
      | error f => exact ⟨rfl, rfl⟩
      | ok s =>
        dsimp only
        cases strconvAtoi s with
        | none => exact ⟨rfl, rfl⟩
        | some n =>
          dsimp only
          rw [updateStatus_status, updateStatus_status]
          exact ⟨rfl, rfl⟩

/-- A pass that succeeds without creating, changing or deleting anything is followed, on
the cluster it leaves and with the same answers of the collaborators, by a pass that does
the same: no call creates or changes an object, nothing is deleted, and the status string
and the set of tracked keys are those of the first pass. -/
theorem reconcileGraph_settled (w : World) (sched : Nat → List Tick) (c : Cluster)
    (graph : GMConnector)
    (hdone : (reconcileGraph w sched c graph).stage = .done)
    (hquiet : quiet (reconcileGraph w sched c graph).sys.applied)
    (hgc : (reconcileGraph w sched c graph).sys.deleted = []) :
    (reconcileGraph w sched c graph).sys.cluster = c ∧
    quiet (reconcileGraph w sched c (nextGraph graph (reconcileGraph w sched c graph))).sys.applied ∧
    (reconcileGraph w sched c (nextGraph graph (reconcileGraph w sched c graph))).sys.deleted = [] ∧
    (reconcileGraph w sched c (nextGraph graph (reconcileGraph w sched c graph))).graph.Status.Status =
      (reconcileGraph w sched c graph).graph.Status.Status ∧
    mapKeys (reconcileGraph w sched c
        (nextGraph graph (reconcileGraph w sched c graph))).graph.Status.Annotations =
      mapKeys (reconcileGraph w sched c graph).graph.Status.Annotations := by
  -- the first pass, stage by stage
  cases hN : reconcileNodes w sched graph.Spec.Nodes
      { graph := clearAnnotations graph, externalService := 0
        sys := { cluster := c, calls := 0, applied := [], deleted := [] } } with
  | mk st1 f1 =>
  cases f1 with
  | some f =>
    have : (reconcileGraph w sched c graph).stage = .steps := by
      simp only [reconcileGraph, hN]
    rw [this] at hdone
    cases hdone
  | none =>
  cases hR : reconcileRouterService w sched st1 with
  | mk st2 f2 =>
  cases f2 with
  | some f =>
    have : (reconcileGraph w sched c graph).stage = .router := by
      simp only [reconcileGraph, hN, hR]
    rw [this] at hdone
    cases hdone
  | none =>
  cases hG : gcLoop st2.graph.Status.Annotations (mapKeys graph.Status.Annotations) st2.sys with
  | mk sys3 f3 =>
  cases f3 with
  | some f =>
    have : (reconcileGraph w sched c graph).stage = .gc := by
      simp only [reconcileGraph, hN, hR, hG]
    rw [this] at hdone
    cases hdone
  | none =>
  cases hC : collectResourceStatus w sys3.cluster
      (setInitialStatus st2.graph st2.externalService) with
  | mk g4 f4 =>
  have hr1 : reconcileGraph w sched c graph =
      { graph := g4, sys := sys3, stage := (reconcileGraph w sched c graph).stage
        failure := (reconcileGraph w sched c graph).failure } := by
    cases f4 <;> simp only [reconcileGraph, hN, hR, hG, hC]
  have hsys1 : (reconcileGraph w sched c graph).sys = sys3 := by rw [hr1]
  have hg1 : (reconcileGraph w sched c graph).graph = g4 := by rw [hr1]
  rw [hsys1] at hquiet hgc
  -- the first pass left the cluster as it was
  have hdel2 : st2.sys.deleted = [] := by
    have h1 := reconcileNodes_deleted w sched graph.Spec.Nodes
      { graph := clearAnnotations graph, externalService := 0
        sys := { cluster := c, calls := 0, applied := [], deleted := [] } }
    have h2 := reconcileRouterService_deleted w sched st1
    rw [hN] at h1
    rw [hR] at h2
    simp only at h1 h2
    rw [h2, h1]
  have hpresent : ∀ k ∈ mapKeys graph.Status.Annotations,
      mapHas st2.graph.Status.Annotations k = true := by
    intro k hk
    by_contra hne
    have hf : mapHas st2.graph.Status.Annotations k = false := by simpa using hne
    have := (gcLoop_deleted st2.graph.Status.Annotations (mapKeys graph.Status.Annotations)
      st2.sys).2 (by rw [hG]) k
    rw [hG] at this
    simp only at this
    have hk3 : k ∈ sys3.deleted := this.mpr (Or.inr ⟨hk, hf⟩)
    rw [hgc] at hk3
    cases hk3
  have hsys3 : sys3 = st2.sys := by
    have := gcLoop_present st2.graph.Status.Annotations (mapKeys graph.Status.Annotations)
      st2.sys hpresent
    rw [hG] at this
    exact (Prod.mk.inj this).1
  rw [hsys3] at hquiet hsys1
  have hfr : Sys.frames { cluster := c, calls := 0, applied := [], deleted := [] } st2.sys := by
    have h1 := reconcileNodes_frames w sched graph.Spec.Nodes
      { graph := clearAnnotations graph, externalService := 0
        sys := { cluster := c, calls := 0, applied := [], deleted := [] } }
    have h2 := reconcileRouterService_frames w sched st1
    rw [hN] at h1
    rw [hR] at h2
    exact Sys.frames_trans h1 h2
  have hcl : st2.sys.cluster = c := hfr.2 hquiet
  -- the second pass, stage by stage
  clear hr1 hdone
  generalize reconcileGraph w sched c graph = r1 at hsys1 hg1 ⊢
  have hagree0 : Pass.agrees
      { graph := clearAnnotations graph, externalService := 0
        sys := { cluster := c, calls := 0, applied := [], deleted := [] } }
      { graph := clearAnnotations (nextGraph graph r1)
        externalService := 0
        sys := { cluster := c, calls := 0, applied := [], deleted := [] } } :=
    ⟨⟨rfl, rfl, rfl, rfl⟩, rfl, rfl⟩
  obtain ⟨hN1, hN2⟩ := reconcileNodes_congr w sched graph.Spec.Nodes _ _ hagree0
  rw [hN] at hN1 hN2
  simp only at hN1 hN2
  cases hN' : reconcileNodes w sched graph.Spec.Nodes
      { graph := clearAnnotations (nextGraph graph r1)
        externalService := 0
        sys := { cluster := c, calls := 0, applied := [], deleted := [] } } with
  | mk st1' f1' =>
  rw [hN'] at hN1 hN2
  simp only at hN1 hN2
  subst hN2
  obtain ⟨hR1, hR2⟩ := reconcileRouterService_congr w sched st1 st1' hN1
  rw [hR] at hR1 hR2
  simp only at hR1 hR2
  cases hR' : reconcileRouterService w sched st1' with
  | mk st2' f2' =>
  rw [hR'] at hR1 hR2
  simp only at hR1 hR2
  subst hR2
  obtain ⟨hgr, hext, hsys⟩ := hR1
  have hkeys4 : mapKeys g4.Status.Annotations = mapKeys st2.graph.Status.Annotations := by
    have := collectResourceStatus_keys w sys3.cluster
      (setInitialStatus st2.graph st2.externalService)
    rw [hC] at this
    exact this
  have hpresent' : ∀ k ∈ mapKeys (nextGraph graph r1).Status.Annotations,
      mapHas st2'.graph.Status.Annotations k = true := by
    intro k hk
    have hk' : k ∈ mapKeys g4.Status.Annotations := by
      simpa [nextGraph, hg1] using hk
    rw [hkeys4, hgr.2.2.2] at hk'
    exact (mapHas_iff_mem _ _).mpr hk'
  have hG' := gcLoop_present st2'.graph.Status.Annotations
    (mapKeys (nextGraph graph r1).Status.Annotations)
    st2'.sys hpresent'
  have hnodes : (nextGraph graph r1).Spec.Nodes =
      graph.Spec.Nodes := rfl
  have hr2 : reconcileGraph w sched c (nextGraph graph r1) =
      { graph := (collectResourceStatus w st2'.sys.cluster
          (setInitialStatus st2'.graph st2'.externalService)).1
        sys := st2'.sys
        stage := (reconcileGraph w sched c
          (nextGraph graph r1)).stage
        failure := (reconcileGraph w sched c
          (nextGraph graph r1)).failure } := by
    cases hC' : collectResourceStatus w st2'.sys.cluster
        (setInitialStatus st2'.graph st2'.externalService) with
    | mk g4' f4' =>
      cases f4' <;> simp only [reconcileGraph, hnodes, hN', hR', hG', hC']
  have hcong := collectResourceStatus_congr w st2.sys.cluster
    (setInitialStatus st2.graph st2.externalService)
    (setInitialStatus st2'.graph st2'.externalService)
    (by simpa [setInitialStatus] using hgr.2.2.2)
    (by simp [setInitialStatus, hext])
  have hC2 : (collectResourceStatus w st2.sys.cluster
      (setInitialStatus st2.graph st2.externalService)).1 = g4 := by
    rw [← hsys3, hC]
  rw [hC2] at hcong
  refine ⟨?_, ?_, ?_, ?_, ?_⟩
  · rw [hsys1]; exact hcl
  · rw [hr2]
    simp only
    rw [← hsys]
    exact hquiet
  · rw [hr2]
    simp only
    rw [← hsys]
    exact hdel2
  · rw [hr2, hg1]
    simp only
    rw [← hsys]
    exact hcong.1.symm
  · rw [hr2, hg1]
    simp only
    rw [← hsys, ← hcong.2]

/-! ## Downstream endpoints and fetched variables -/

theorem findDownStreamLoop_some (dsName : String) (steps : List Step) (s : Step) :
    findDownStreamLoop dsName steps = some s ↔
      ∃ pre post, steps = pre ++ s :: post ∧
        (s.InternalService.ServiceName = dsName ∧ s.InternalService.IsDownstreamService = true) ∧
        ∀ t ∈ pre, ¬ (t.InternalService.ServiceName = dsName ∧
          t.InternalService.IsDownstreamService = true) := by
  induction steps with
  | nil => simp [findDownStreamLoop]
  | cons x rest ih =>
    unfold findDownStreamLoop
    by_cases hx : x.InternalService.ServiceName = dsName ∧
        x.InternalService.IsDownstreamService = true
    · have hc : (decide (x.InternalService.ServiceName = dsName) &&
          x.InternalService.IsDownstreamService) = true := by simp [hx.1, hx.2]
      rw [if_pos hc]
      constructor
      · intro h
        injection h with h
        subst h
        exact ⟨[], rest, rfl, hx, by simp⟩
      · rintro ⟨pre, post, heq, _, hpre⟩
        cases pre with
        | nil =>
          simp only [List.nil_append, List.cons.injEq] at heq
          rw [heq.1]
        | cons y ys =>
          simp only [List.cons_append, List.cons.injEq] at heq
          exact absurd (heq.1 ▸ hx) (hpre y (by simp))
    · have hc : ¬ ((decide (x.InternalService.ServiceName = dsName) &&
          x.InternalService.IsDownstreamService) = true) := by
        simpa using hx
      rw [if_neg hc, ih]
      constructor
      · rintro ⟨pre, post, heq, hs, hpre⟩
        refine ⟨x :: pre, post, by simp [heq], hs, ?_⟩
        intro t ht
        simp only [List.mem_cons] at ht
        rcases ht with ht | ht
        · subst ht; exact hx
        · exact hpre t ht
      · rintro ⟨pre, post, heq, hs, hpre⟩
        cases pre with
        | nil =>
          simp only [List.nil_append, List.cons.injEq] at heq
          exact absurd (heq.1 ▸ hs) hx
        | cons y ys =>
          simp only [List.cons_append, List.cons.injEq] at heq
          exact ⟨ys, post, heq.2, hs, fun t ht => hpre t (by simp [ht])⟩

theorem findDownStreamLoop_none (dsName : String) (steps : List Step) :
    findDownStreamLoop dsName steps = none ↔
      ∀ t ∈ steps, ¬ (t.InternalService.ServiceName = dsName ∧
        t.InternalService.IsDownstreamService = true) := by
  induction steps with
  | nil => simp [findDownStreamLoop]
  | cons x rest ih =>
    unfold findDownStreamLoop
    by_cases hx : x.InternalService.ServiceName = dsName ∧
        x.InternalService.IsDownstreamService = true
    · have hc : (decide (x.InternalService.ServiceName = dsName) &&
          x.InternalService.IsDownstreamService) = true := by simp [hx.1, hx.2]
      rw [if_pos hc]
      constructor
      · intro h; cases h
      · intro h; exact absurd hx (h x (by simp))
    · have hc : ¬ ((decide (x.InternalService.ServiceName = dsName) &&
          x.InternalService.IsDownstreamService) = true) := by
        simpa using hx
      rw [if_neg hc, ih]
      constructor
      · intro h t ht
        simp only [List.mem_cons] at ht
        rcases ht with ht | ht
        · subst ht; exact hx
        · exact h t ht
      · intro h t ht
        exact h t (by simp [ht])

theorem allowList_not_reserved (name : String) (h : isDownStreamEndpointKey name = true) :
    name ≠ "endpoint" ∧ name ≠ "nodes" := by
  constructor <;> (intro e; subst e; revert h; decide)

theorem findEnvVar_eq_find (varName : String) (env : List EnvVar) :
    findEnvVar varName env = (env.find? (fun e => e.name = varName)).map (fun e => e.value) := by
  induction env with
  | nil => rfl
  | cons e rest ih =>
    unfold findEnvVar
    by_cases h : e.name = varName
    · simp [h]
    · simp [h, ih]

theorem scanContainers_eq_first (varName : String) (containers : List Container) :
    scanContainers varName containers = firstEnvValue varName containers := by
  induction containers with
  | nil => rfl
  | cons ct rest ih =>
    unfold scanContainers
    rw [findEnvVar_eq_find, ih]
    unfold firstEnvValue
    simp only [List.map_cons, List.flatten_cons, List.find?_append]
    cases List.find? (fun e => decide (e.name = varName)) ct.env <;> simp

theorem firstEnvValue_none (varName : String) (containers : List Container)
    (h : ∀ ct ∈ containers, ∀ e ∈ ct.env, e.name ≠ varName) :
    firstEnvValue varName containers = none := by
  unfold firstEnvValue
  simp only [Option.map_eq_none', List.find?_eq_none, List.mem_flatten, List.mem_map]
  rintro e ⟨l, ⟨ct, hct, rfl⟩, he⟩
  simpa using h ct hct e he

/-! ## Reading a map after a write -/

theorem mapLookup_mapSet_self (m : StrMap) (k v : String) :
    mapLookup (mapSet m k v) k = some v := by
  induction m with
  | nil => simp [mapSet, mapLookup]
  | cons p m ih =>
    obtain ⟨k', v'⟩ := p
    by_cases h : k' = k
    · simp [mapSet, mapLookup, h]
    · simp [mapSet, mapLookup, h, ih]

theorem mapLookup_mapSet_other (m : StrMap) (k v k' : String) (hne : k' ≠ k) :
    mapLookup (mapSet m k v) k' = mapLookup m k' := by
  induction m with
  | nil =>
    have : ¬ k = k' := fun h => hne h.symm
    simp [mapSet, mapLookup, this]
  | cons p m ih =>
    obtain ⟨k0, v0⟩ := p
    by_cases h : k0 = k
    · subst h
      have : ¬ k0 = k' := fun h => hne h.symm
      simp [mapSet, mapLookup, this]
    · by_cases h' : k0 = k'
      · subst h'
        simp [mapSet, mapLookup, h]
      · simp [mapSet, mapLookup, h, h', ih]

/-! ## The parts of a shaped workload -/

/-- A shaped workload is the renamed document with the strategy set, the variables appended
and the restart annotation stamped. -/
theorem shapeWorkload_ok (w : World) (c : Cluster) (k : WorkloadKind) (graphNs : String)
    (stepCfg : Step) (nodeCfg : Router) (flag : Bool) (obj obj' : K8sObj)
    (h : shapeWorkload w c k graphNs stepCfg nodeCfg flag obj = .ok obj') :
    ∃ o1 vs, renameWorkload stepCfg.InternalService.ServiceName obj = .ok o1 ∧
      resolveConfig w c k graphNs stepCfg nodeCfg stepCfg.InternalService.Config [] = .ok vs ∧
      stampRestart w flag
        (appendEnvVars
          { o1 with strategy := k.strategyName, rollingUpdate := none }
          (appendLLMModelName c k graphNs stepCfg vs)) = .ok obj' := by
  unfold shapeWorkload at h
  cases h1 : renameWorkload stepCfg.InternalService.ServiceName obj with
  | error f => rw [h1] at h; cases h
  | ok o1 =>
    rw [h1] at h
    cases h2 : resolveConfig w c k graphNs stepCfg nodeCfg stepCfg.InternalService.Config [] with
    | error f => rw [h2] at h; cases h
    | ok vs =>
      rw [h2] at h
      refine ⟨o1, vs, rfl, rfl, ?_⟩
      cases k <;> exact h

/-- The restart stamp touches the annotations of the pod template only. -/
theorem stampRestart_ok (w : World) (flag : Bool) (o o' : K8sObj)
    (h : stampRestart w flag o = .ok o') :
    ∃ a, o' = { o with template := { o.template with annotations := a } } := by
  unfold stampRestart at h
  cases flag with
  | false =>
    simp only [Bool.false_eq_true, if_false] at h
    cases h
    exact ⟨o.template.annotations, rfl⟩
  | true =>
    simp only [if_true] at h
    cases hn : nilMapSet (if o.annotations = none then some [] else o.template.annotations)
        "kubectl.kubernetes.io/restartedAt" w.now with
    | error f => rw [hn] at h; cases h
    | ok a =>
      rw [hn] at h
      cases h
      exact ⟨a, rfl⟩

/-- Appending variables touches the containers and init containers of the pod template only. -/
theorem appendEnvVars_eq (o : K8sObj) (vs : List EnvVar) :
    appendEnvVars o vs =
      { o with template := { o.template with
          containers := if vs = [] then o.template.containers
            else setEnvVars o.template.containers vs
          initContainers := if vs = [] then o.template.initContainers
            else setEnvVars o.template.initContainers vs } } := by
  unfold appendEnvVars
  cases vs with
  | nil => simp
  | cons v vs => simp

/-- What `renameWorkload` returns when it returns. -/
theorem renameWorkload_ok (svc : String) (o o1 : K8sObj) (h : renameWorkload svc o = .ok o1) :
    (svc = "" → o1 = o) ∧
      (svc ≠ "" → ∃ m l, o.matchLabels = some (some m) ∧ o.template.labels = some l ∧
        o1 = { o with
          name := svc ++ dplymtSubfix
          matchLabels := some (some (mapSet m "app" svc))
          template := { o.template with labels := some (mapSet l "app" svc) } }) := by
  unfold renameWorkload at h
  by_cases hs : svc = ""
  · simp only [hs, ne_eq, not_true_eq_false, if_false] at h
    cases h
    exact ⟨fun _ => rfl, fun hne => absurd hs hne⟩
  · refine ⟨fun he => absurd he hs, fun _ => ?_⟩
    simp only [ne_eq, hs, not_false_eq_true, if_true] at h
    cases hm : o.matchLabels with
    | none => rw [hm] at h; cases h
    | some ml =>
      rw [hm] at h
      cases ml with
      | none => simp [nilMapSet] at h
      | some m =>
        cases hl : o.template.labels with
        | none => rw [hl] at h; simp [nilMapSet] at h
        | some l =>
          rw [hl] at h
          simp only [nilMapSet] at h
          cases h
          exact ⟨m, l, rfl, rfl, rfl⟩

/-! ## The two workload branches side by side -/

/-- One Config entry resolves alike in both branches when its fetch reads alike. -/
theorem resolveConfigValue_kind (w : World) (c : Cluster) (graphNs : String) (stepCfg : Step)
    (nodeCfg : Router) (name value : String)
    (hfetch : ∀ v service ns, parseFetchFrom value = .ok (true, v) →
      splitServiceNamespace graphNs v = .ok (service, ns) →
      fetchEnvVarFromServiceStatefulSet c ns service name =
        fetchEnvVarFromService c ns service name) :
    resolveConfigValue w c .statefulSet graphNs stepCfg nodeCfg name value =
      resolveConfigValue w c .deployment graphNs stepCfg nodeCfg name value := by
  unfold resolveConfigValue
  cases hp : parseFetchFrom value with
  | error f => rfl
  | ok p =>
    obtain ⟨fetch, v⟩ := p
    dsimp only
    cases hs : splitServiceNamespace graphNs v with
    | error f => rfl
    | ok q =>
      obtain ⟨service, ns⟩ := q
      dsimp only
      cases fetch with
      | false => simp only [resolveTarget, Bool.false_eq_true, if_false]
      | true =>
        simp only [resolveTarget, if_true]
        rw [hfetch v service ns hp hs]

/-- The Config loop resolves alike in both branches when every fetch reads alike. -/
theorem resolveConfig_kind (w : World) (c : Cluster) (graphNs : String) (stepCfg : Step)
    (nodeCfg : Router) (config : StrMap)
    (hfetch : ∀ name value, (name, value) ∈ config →
      ∀ v service ns, parseFetchFrom value = .ok (true, v) →
        splitServiceNamespace graphNs v = .ok (service, ns) →
        fetchEnvVarFromServiceStatefulSet c ns service name =
          fetchEnvVarFromService c ns service name)
    (acc : List EnvVar) :
    resolveConfig w c .statefulSet graphNs stepCfg nodeCfg config acc =
      resolveConfig w c .deployment graphNs stepCfg nodeCfg config acc := by
  induction config generalizing acc with
  | nil => rfl
  | cons p rest ih =>
    obtain ⟨name, value⟩ := p
    have ih' := ih (fun n v hm => hfetch n v (List.mem_cons_of_mem _ hm))
    unfold resolveConfig
    by_cases hr : (name = "endpoint" || name = "nodes") = true
    · simp only [hr, if_true]
      exact ih' acc
    · simp only [hr, if_false]
      rw [resolveConfigValue_kind w c graphNs stepCfg nodeCfg name value
        (hfetch name value (List.mem_cons_self _ _))]
      cases resolveConfigValue w c .deployment graphNs stepCfg nodeCfg name value with
      | error f => rfl
      | ok v => exact ih' _

/-- Shaping as a StatefulSet is shaping as a Deployment with the other strategy, when no
model name is appended and every fetch reads alike. -/
theorem shapeWorkload_kind (w : World) (c : Cluster) (graphNs : String) (stepCfg : Step)
    (nodeCfg : Router) (flag : Bool)
    (hllm : stepCfg.StepName ≠ Llm ∨ getLLMModelNameFromVLLMConfigMap c graphNs = "")
    (hfetch : ∀ name value, (name, value) ∈ stepCfg.InternalService.Config →
      ∀ v service ns, parseFetchFrom value = .ok (true, v) →
        splitServiceNamespace graphNs v = .ok (service, ns) →
        fetchEnvVarFromServiceStatefulSet c ns service name =
          fetchEnvVarFromService c ns service name)
    (doc : K8sObj) :
    shapeWorkload w c .statefulSet graphNs stepCfg nodeCfg flag { doc with kind := StatefulSet } =
      (shapeWorkload w c .deployment graphNs stepCfg nodeCfg flag doc).map
        (fun o => { o with kind := StatefulSet, strategy := "RollingUpdate" }) := by
  have hl : ∀ vs, appendLLMModelName c .deployment graphNs stepCfg vs = vs := by
    intro vs
    unfold appendLLMModelName
    rcases hllm with h | h
    · simp only [h, if_false]
    · simp only [h, ne_eq, not_true_eq_false, if_false, ite_self]
  have hl2 : ∀ vs, appendLLMModelName c .statefulSet graphNs stepCfg vs = vs := fun _ => rfl
  unfold shapeWorkload
  rw [resolveConfig_kind w c graphNs stepCfg nodeCfg _ hfetch]
  unfold renameWorkload
  by_cases hs : stepCfg.InternalService.ServiceName ≠ ""
  · simp only [if_pos hs]
    cases doc.matchLabels with
    | none => rfl
    | some ml =>
      cases ml with
      | none => rfl
      | some m =>
        cases doc.template.labels with
        | none => rfl
        | some l =>
          simp only [nilMapSet]
          cases resolveConfig w c .deployment graphNs stepCfg nodeCfg
              stepCfg.InternalService.Config [] with
          | error f => rfl
          | ok vs =>
            simp only [hl, hl2, appendEnvVars_eq, stampRestart]
            cases flag with
            | false =>
              simp only [Bool.false_eq_true, if_false]
              rfl
            | true =>
              simp only [if_true]
              cases doc.annotations <;> cases doc.template.annotations <;> rfl
  · simp only [if_neg hs]
    cases resolveConfig w c .deployment graphNs stepCfg nodeCfg
        stepCfg.InternalService.Config [] with
    | error f => rfl
    | ok vs =>
      simp only [hl, hl2, appendEnvVars_eq, stampRestart]
      cases flag with
      | false =>
        simp only [Bool.false_eq_true, if_false]
        rfl
      | true =>
        simp only [if_true]
        cases doc.annotations <;> cases doc.template.annotations <;> rfl

/-- A document of a workload kind goes to the branch of its kind, after the namespace of the
step is set on it. -/
theorem shapeDocument_workload (w : World) (c : Cluster) (graphNs : String) (stepCfg : Step)
    (nodeCfg : Router) (flag : Bool) (obj : K8sObj) (k : WorkloadKind)
    (hk : obj.kind = k.kindName) :
    shapeDocument w c graphNs stepCfg nodeCfg flag obj =
      shapeWorkload w c k graphNs stepCfg nodeCfg flag
        (if (if stepCfg.InternalService.NameSpace ≠ "" then stepCfg.InternalService.NameSpace
            else graphNs) ≠ "" then
          { obj with ns := if stepCfg.InternalService.NameSpace ≠ "" then
              stepCfg.InternalService.NameSpace else graphNs }
        else obj) := by
  unfold shapeDocument
  generalize (if stepCfg.InternalService.NameSpace ≠ "" then stepCfg.InternalService.NameSpace
    else graphNs) = ns
  have key : ∀ o : K8sObj, o.kind = k.kindName →
      (if o.kind = Service ∧ stepCfg.InternalService.ServiceName ≠ "" then
        match nilMapSet o.selector "app" stepCfg.InternalService.ServiceName with
        | .error f => .error f
        | .ok selector =>
          .ok { o with name := stepCfg.InternalService.ServiceName, selector := selector }
      else if o.kind = ServiceAccount then .ok o
      else if o.kind = Deployment then
        shapeWorkload w c .deployment graphNs stepCfg nodeCfg flag o
      else if o.kind = StatefulSet then
        shapeWorkload w c .statefulSet graphNs stepCfg nodeCfg flag o
      else .ok o) = shapeWorkload w c k graphNs stepCfg nodeCfg flag o := by
    intro o ho
    cases k with
    | deployment =>
      have h1 : ¬ (o.kind = Service ∧ stepCfg.InternalService.ServiceName ≠ "") := by
        rw [ho]; intro hc; exact absurd hc.1 (by decide)
      have h2 : ¬ o.kind = ServiceAccount := by rw [ho]; decide
      have h3 : o.kind = Deployment := ho
      rw [if_neg h1, if_neg h2, if_pos h3]
    | statefulSet =>
      have h1 : ¬ (o.kind = Service ∧ stepCfg.InternalService.ServiceName ≠ "") := by
        rw [ho]; intro hc; exact absurd hc.1 (by decide)
      have h2 : ¬ o.kind = ServiceAccount := by rw [ho]; decide
      have h3 : ¬ o.kind = Deployment := by rw [ho]; decide
      have h4 : o.kind = StatefulSet := ho
      rw [if_neg h1, if_neg h2, if_neg h3, if_pos h4]
  by_cases hn : ns ≠ ""
  · simp only [if_pos hn]
    exact key { obj with ns := ns } hk
  · simp only [if_neg hn]
    exact key obj hk

/-! ## The errors of an apply -/

/-- The four errors `applyResourceToK8s` can return. -/
theorem applyResourceToK8s_err (w : World) (graph : GMConnector) (ticks : List Tick)
    (c : Cluster) (obj : K8sObj) (e : String)
    (h : (applyResourceToK8s w graph ticks c obj).err = some e) :
    e = "timed out while trying to update or create resource" ∨ e = "context cancelled" ∨
      e = "failed to create resource" ∨
      ∃ m, e = "failed to set controller reference: " ++ m := by
  induction ticks generalizing obj with
  | nil =>
    simp only [applyResourceToK8s, Option.some.injEq] at h
    exact Or.inl h.symm
  | cons t rest ih =>
    cases t with
    | cancelled =>
      simp only [applyResourceToK8s, Option.some.injEq] at h
      exact Or.inr (Or.inl h.symm)
    | attempt getFails writeFails =>
      unfold applyResourceToK8s at h
      cases hset : w.setControllerReference graph.Name graph.Namespace obj with
      | error m =>
        rw [hset] at h
        simp only [Option.some.injEq] at h
        exact Or.inr (Or.inr (Or.inr ⟨m, h.symm⟩))
      | ok obj1 =>
        rw [hset] at h
        simp only at h
        cases getFails with
        | true =>
          simp only [if_true] at h
          exact ih obj1 h
        | false =>
          simp only [Bool.false_eq_true, if_false] at h
          cases hget : c.get obj1.apiVersion obj1.kind obj1.ns obj1.name with
          | none =>
            rw [hget] at h
            cases writeFails with
            | true =>
              simp only [if_true, Option.some.injEq] at h
              exact Or.inr (Or.inr (Or.inl h.symm))
            | false => simp at h
          | some latest =>
            rw [hget] at h
            by_cases hp : obj1.kind = "PersistentVolumeClaim"
            · simp [hp] at h
            · cases writeFails with
              | true =>
                simp only [hp, if_false, if_true] at h
                exact ih _ h
              | false => simp [hp] at h

/-! ## Steps by position -/

theorem setStepURL_getElem? (steps : List Step) (i : Nat) (url : String) (j : Nat) :
    (setStepURL steps i url)[j]? =
      if j = i then (steps[i]?).map (fun s => { s with ServiceURL := url }) else steps[j]? := by
  induction steps generalizing i j with
  | nil => cases i <;> simp [setStepURL]
  | cons s rest ih =>
    cases i with
    | zero =>
      cases j with
      | zero => simp [setStepURL]
      | succ j => simp [setStepURL]
    | succ i =>
      cases j with
      | zero => simp [setStepURL]
      | succ j => simpa [setStepURL] using ih i j

theorem setStepURL_length (steps : List Step) (i : Nat) (url : String) :
    (setStepURL steps i url).length = steps.length := by
  induction steps generalizing i with
  | nil => cases i <;> simp [setStepURL]
  | cons s rest ih => cases i <;> simp [setStepURL, ih]

theorem nodeLookup_setNodeStepURL (nodes : List (String × Router)) (n : String) (i : Nat)
    (url : String) (n' : String) :
    nodeLookup (setNodeStepURL nodes n i url) n' =
      if n' = n then { Steps := setStepURL (nodeLookup nodes n).Steps i url }
      else nodeLookup nodes n' := by
  induction nodes with
  | nil =>
    by_cases h : n' = n
    · simp [setNodeStepURL, nodeLookup, setStepURL, h]
    · simp [setNodeStepURL, nodeLookup, h]
  | cons p rest ih =>
    obtain ⟨m, node⟩ := p
    by_cases hm : m = n
    · subst hm
      by_cases h : n' = m
      · subst h
        simp [setNodeStepURL, nodeLookup]
      · have h2 : ¬ m = n' := fun e => h e.symm
        simp [setNodeStepURL, nodeLookup, h, h2]
    · by_cases h : n' = n
      · subst h
        simp [setNodeStepURL, nodeLookup, hm, ih]
      · by_cases h3 : m = n'
        · simp [setNodeStepURL, nodeLookup, hm, h, h3]
        · simp [setNodeStepURL, nodeLookup, hm, h, h3, ih]

/-- Writing the URL of one step changes that step and no other. -/
theorem stepAt_setNodeStepURL (nodes : List (String × Router)) (n : String) (i : Nat)
    (url : String) (n' : String) (j : Nat) :
    stepAt (setNodeStepURL nodes n i url) n' j =
      if n' = n ∧ j = i then (stepAt nodes n i).map (fun s => { s with ServiceURL := url })
      else stepAt nodes n' j := by
  unfold stepAt
  rw [nodeLookup_setNodeStepURL]
  by_cases h : n' = n
  · subst h
    simp only [if_true, true_and, setStepURL_getElem?]
  · simp only [h, if_false, false_and]

/-! ## The router settings as the template sees them -/

/-- The settings of `reconcileRouterService`, read back by `applyRouterConfigToTemplates`. -/
theorem router_template_values (w : World) (graph : GMConnector) (jsonString yamlFile : String) :
    applyRouterConfigToTemplates w Router_ (routerSettings graph jsonString) yamlFile =
      w.executeTemplate yamlFile
        { Namespace := if graph.Spec.RouterConfig.NameSpace ≠ "" then
            graph.Spec.RouterConfig.NameSpace else graph.Namespace
          SvcName := if graph.Spec.RouterConfig.ServiceName ≠ "" then
            graph.Spec.RouterConfig.ServiceName else "router-service"
          DplymntName := (if graph.Spec.RouterConfig.ServiceName ≠ "" then
            graph.Spec.RouterConfig.ServiceName else "router-service") ++ "-deployment"
          NoProxy := "", HttpProxy := "", HttpsProxy := ""
          GRAPH_JSON := "'" ++ String.mk (escapeQuotes jsonString.data) ++ "'" } := by
  have hget : ∀ k, mapGet (routerSettings graph jsonString) k =
      if k = "nodes" then "'" ++ String.mk (escapeQuotes jsonString.data) ++ "'"
      else if k = "namespace" then
        (if graph.Spec.RouterConfig.NameSpace ≠ "" then graph.Spec.RouterConfig.NameSpace
          else graph.Namespace)
      else if k = "svcName" then
        (if graph.Spec.RouterConfig.ServiceName ≠ "" then graph.Spec.RouterConfig.ServiceName
          else DefaultRouterServiceName)
      else if k = "dplymntName" then
        (if graph.Spec.RouterConfig.ServiceName ≠ ""
          then graph.Spec.RouterConfig.ServiceName ++ dplymtSubfix
          else DefaultRouterServiceName ++ dplymtSubfix)
      else "" := by
    intro k
    simp only [routerSettings, mapSet, mapGet, mapLookup,
      show ¬ ("nodes" = "namespace") by decide, show ¬ ("nodes" = "svcName") by decide,
      show ¬ ("nodes" = "dplymntName") by decide, show ¬ ("namespace" = "svcName") by decide,
      show ¬ ("namespace" = "dplymntName") by decide,
      show ¬ ("svcName" = "dplymntName") by decide, if_false, eq_comm]
    by_cases h1 : k = "nodes"
    · simp [h1]
    · by_cases h2 : k = "namespace"
      · simp [h2]
      · by_cases h3 : k = "svcName"
        · simp [h3]
        · by_cases h4 : k = "dplymntName"
          · simp [h4]
          · simp [h1, h2, h3, h4]
  unfold applyRouterConfigToTemplates
  rw [if_pos (by decide : Router_ = "router")]
  rw [hget "namespace", hget "svcName", hget "dplymntName", hget "no_proxy", hget "http_proxy",
    hget "https_proxy", hget "nodes"]
  simp only [show ¬ ("namespace" = "nodes") by decide, show ¬ ("svcName" = "nodes") by decide,
    show ¬ ("svcName" = "namespace") by decide, show ¬ ("dplymntName" = "nodes") by decide,
    show ¬ ("dplymntName" = "namespace") by decide, show ¬ ("dplymntName" = "svcName") by decide,
    show ¬ ("no_proxy" = "nodes") by decide, show ¬ ("no_proxy" = "namespace") by decide,
    show ¬ ("no_proxy" = "svcName") by decide, show ¬ ("no_proxy" = "dplymntName") by decide,
    show ¬ ("http_proxy" = "nodes") by decide, show ¬ ("http_proxy" = "namespace") by decide,
    show ¬ ("http_proxy" = "svcName") by decide, show ¬ ("http_proxy" = "dplymntName") by decide,
    show ¬ ("https_proxy" = "nodes") by decide, show ¬ ("https_proxy" = "namespace") by decide,
    show ¬ ("https_proxy" = "svcName") by decide,
    show ¬ ("https_proxy" = "dplymntName") by decide, if_false, if_true]
  have hd : (if graph.Spec.RouterConfig.ServiceName ≠ ""
      then graph.Spec.RouterConfig.ServiceName ++ dplymtSubfix
      else DefaultRouterServiceName ++ dplymtSubfix) =
      (if graph.Spec.RouterConfig.ServiceName ≠ "" then
        graph.Spec.RouterConfig.ServiceName else "router-service") ++ "-deployment" := by
    by_cases hs : graph.Spec.RouterConfig.ServiceName ≠ ""
    · rw [if_pos hs, if_pos hs]; rfl
    · rw [if_neg hs, if_neg hs]; rfl
  rw [hd]
  have hmatch : ∀ r : Except String String,
      (match r with
        | .error e => .error e
        | .ok appliedCfg => .ok appliedCfg) = r := by
    intro r
    cases r <;> rfl
  exact hmatch _

/-! ## The escape of single quotes -/

/-- An escaped text never begins with a single quote. -/
theorem escapeQuotes_head (l : List Char) : (escapeQuotes l).head? ≠ some '\'' := by
  cases l with
  | nil => simp [escapeQuotes]
  | cons c cs =>
    by_cases h : c = '\''
    · simp [escapeQuotes, h]
    · simp [escapeQuotes, h]

/-- In an escaped text a backslash stands right before every single quote. -/
theorem escapeQuotes_preceded (l : List Char) (i : Nat)
    (h : (escapeQuotes l)[i]? = some '\'') :
    ∃ k, i = k + 1 ∧ (escapeQuotes l)[k]? = some '\\' := by
  induction l generalizing i with
  | nil => simp [escapeQuotes] at h
  | cons c cs ih =>
    by_cases hc : c = '\''
    · simp only [escapeQuotes, hc, if_true] at h ⊢
      match i, h with
      | 0, h => simp at h
      | 1, _ => exact ⟨0, rfl, rfl⟩
      | n + 2, h =>
        have h' : (escapeQuotes cs)[n]? = some '\'' := by simpa using h
        obtain ⟨k, hk, hk'⟩ := ih n h'
        exact ⟨k + 2, by omega, by simpa using hk'⟩
    · simp only [escapeQuotes, hc, if_false] at h ⊢
      match i, h with
      | 0, h =>
        simp at h
        exact absurd h hc
      | n + 1, h =>
        have h' : (escapeQuotes cs)[n]? = some '\'' := by simpa using h
        obtain ⟨k, hk, hk'⟩ := ih n h'
        exact ⟨k + 1, by omega, by simpa using hk'⟩

/-- Replacing each backslash-quote pair of the escaped text gives the text back. -/
theorem unescape_escape (l : List Char) : unescapeQuotes (escapeQuotes l) = l := by
  induction l with
  | nil => simp [escapeQuotes, unescapeQuotes]
  | cons c cs ih =>
    by_cases hc : c = '\''
    · simp only [escapeQuotes, hc, if_true, unescapeQuotes, and_self]
      rw [ih]
    · simp only [escapeQuotes, hc, if_false]
      cases he : escapeQuotes cs with
      | nil =>
        rw [he] at ih
        simp only [unescapeQuotes] at ih ⊢
        rw [← ih]
      | cons d ds =>
        have hd : d ≠ '\'' := by
          intro hd
          have := escapeQuotes_head cs
          rw [he, hd] at this
          exact this rfl
        rw [he] at ih
        simp only [unescapeQuotes, hd, and_false, if_false]
        rw [ih]

/-! ## External steps -/

/-- The middle field of the status string after a status aggregation that succeeds. -/
theorem collect_middle_of_success (w : World) (c : Cluster) (graph : GMConnector)
    (a cs : String) (e : Nat) (ha : '/' ∉ a.data)
    (hst : graph.Status.Status = a ++ "/" ++ fmtNat e ++ "/" ++ cs)
    (hok : (collectResourceStatus w c graph).2 = none) :
    splitField (collectResourceStatus w c graph).1.Status.Status "/" 1 = .ok (fmtNat e) := by
  unfold collectResourceStatus at hok ⊢
  by_cases hlen : graph.Status.Annotations.length = 0
  · rw [if_pos hlen] at hok
    cases hok
  · rw [if_neg hlen] at hok ⊢
    cases hloop : collectLoop c (mapKeys graph.Status.Annotations)
        { annotations := graph.Status.Annotations, totalCnt := 0, readyCnt := 0 } with
    | error f =>
      simp only [hloop] at hok
      cases hok
    | ok st =>
      simp only [hloop, hst, status_middle_field a cs e ha] at hok ⊢
      by_cases he : e ≤ maxInt
      · simp only [strconvAtoi_fmtNat e he]
        have hi : fmtInt (Int.ofNat e) = fmtNat e := rfl
        rw [hi]
        simp only [updateStatus_status]
        exact status_middle_field _ _ e (fmtNat_no_slash _)
      · have hnone : strconvAtoi (fmtNat e) = none := by
          unfold fmtNat
          rw [strconvAtoi_digits _ (natDigits_ne_nil e e) (natDigits_chars _ _),
            parseDigits_natDigits _ _ (Nat.lt_succ_self e)]
          simp [he]
        simp only [hnone] at hok
        cases hok

/-- What the loop body does with an external step. -/
theorem reconcileStep_external (w : World) (sched : Nat → List Tick) (nodeName : String)
    (node : Router) (i : Nat) (step : Step) (st : Pass) (h : isExternalStep step = true) :
    reconcileStep w sched nodeName node i step st =
      ({ st with
          graph := setExternalURL st.graph nodeName i step.ExternalService
          externalService := st.externalService + 1 }, none) := by
  simp only [isExternalStep, Bool.and_eq_true, decide_eq_true_eq] at h
  unfold reconcileStep
  rw [if_neg (fun hn => hn h.1), if_neg h.2]

/-- The loop body skips a step that names a node. -/
theorem reconcileStep_nested (w : World) (sched : Nat → List Tick) (nodeName : String)
    (node : Router) (i : Nat) (step : Step) (st : Pass) (h : step.NodeName ≠ "") :
    reconcileStep w sched nodeName node i step st = (st, none) := by
  unfold reconcileStep
  rw [if_pos h]

/-- Recording an object for a step changes, among the steps, at most that one. -/
theorem recordResource_steps (graph g : GMConnector) (nodeName : String) (i : Nat)
    (obj : K8sObj) (h : recordResource graph nodeName i obj = .ok g) :
    ∀ n j, ¬ (n = nodeName ∧ j = i) → stepAt g.Spec.Nodes n j = stepAt graph.Spec.Nodes n j := by
  intro n j hnj
  unfold recordResource at h
  by_cases hk : obj.kind = Service
  · rw [if_pos hk] at h
    by_cases hc : graph.Spec.Nodes.length ≠ 0 ∧
        (nodeLookup graph.Spec.Nodes nodeName).Steps.length ≠ 0
    · rw [if_pos hc] at h
      cases hs : (nodeLookup graph.Spec.Nodes nodeName).Steps[i]? with
      | none => rw [hs] at h; cases h
      | some step =>
        rw [hs] at h
        simp only [Except.ok.injEq] at h
        subst h
        show stepAt (setNodeStepURL _ _ _ _) _ _ = _
        rw [stepAt_setNodeStepURL, if_neg hnj]
    · rw [if_neg hc] at h
      simp only [Except.ok.injEq] at h
      subst h
      rfl
  · rw [if_neg hk] at h
    simp only [Except.ok.injEq] at h
    subst h
    rfl

theorem recordAll_steps (nodeName : String) (i : Nat) (objs : List K8sObj)
    (graph g : GMConnector) (h : recordAll nodeName i objs graph = .ok g) :
    ∀ n j, ¬ (n = nodeName ∧ j = i) → stepAt g.Spec.Nodes n j = stepAt graph.Spec.Nodes n j := by
  induction objs generalizing graph with
  | nil =>
    simp only [recordAll, Except.ok.injEq] at h
    subst h
    intro n j _
    rfl
  | cons obj rest ih =>
    unfold recordAll at h
    cases h1 : recordResource graph nodeName i obj with
    | error f => rw [h1] at h; cases h
    | ok g1 =>
      rw [h1] at h
      intro n j hnj
      rw [ih g1 h n j hnj, recordResource_steps graph g1 nodeName i obj h1 n j hnj]

/-- The loop body for the step at `(nodeName, i)` changes no other step; it leaves an
external step with its external URL and a step that names a node as it was. -/
theorem reconcileStep_steps (w : World) (sched : Nat → List Tick) (nodeName : String)
    (node : Router) (i : Nat) (step : Step) (st st' : Pass)
    (h : reconcileStep w sched nodeName node i step st = (st', none)) :
    (∀ n j, ¬ (n = nodeName ∧ j = i) →
      stepAt st'.graph.Spec.Nodes n j = stepAt st.graph.Spec.Nodes n j) ∧
    st'.externalService = st.externalService + (if isExternalStep step then 1 else 0) ∧
    (isExternalStep step = true →
      stepAt st'.graph.Spec.Nodes nodeName i =
        (stepAt st.graph.Spec.Nodes nodeName i).map
          (fun s => { s with ServiceURL := step.ExternalService })) ∧
    (step.NodeName ≠ "" → st' = st) := by
  by_cases hn : step.NodeName ≠ ""
  · rw [reconcileStep_nested w sched nodeName node i step st hn] at h
    simp only [Prod.mk.injEq, and_true] at h
    subst h
    have hx : isExternalStep step = false := by
      simp only [isExternalStep, Bool.and_eq_false_imp, decide_eq_true_eq]
      intro he
      exact absurd he hn
    refine ⟨fun _ _ _ => rfl, by simp [hx], ?_, fun _ => rfl⟩
    intro he
    rw [hx] at he
    cases he
  · by_cases he : step.ExternalService = ""
    · have hx : isExternalStep step = false := by
        simp [isExternalStep, he]
      unfold reconcileStep at h
      rw [if_neg hn, if_pos he] at h
      refine ⟨?_, ?_, (fun hc => by rw [hx] at hc; cases hc), fun hc => absurd hc hn⟩
      · intro n j hnj
        revert h
        cases reconcileResource w sched st.graph.Namespace step node st.graph st.sys with
        | mk sys res =>
          cases res with
          | error f => cases f <;> (simp only; intro h; cases h)
          | ok objs =>
            simp only
            cases hr : recordAll nodeName i objs st.graph with
            | error f => cases f <;> (simp only; intro h; cases h)
            | ok g =>
              simp only
              intro h
              simp only [Prod.mk.injEq, and_true] at h
              subst h
              exact recordAll_steps nodeName i objs st.graph g hr n j hnj
      · revert h
        cases reconcileResource w sched st.graph.Namespace step node st.graph st.sys with
        | mk sys res =>
          cases res with
          | error f => cases f <;> (simp only; intro h; cases h)
          | ok objs =>
            simp only
            cases hr : recordAll nodeName i objs st.graph with
            | error f => cases f <;> (simp only; intro h; cases h)
            | ok g =>
              simp only
              intro h
              simp only [Prod.mk.injEq, and_true] at h
              subst h
              simp [hx]
    · have hx : isExternalStep step = true := by
        simp only [isExternalStep, Bool.and_eq_true, decide_eq_true_eq]
        exact ⟨not_not.mp hn, he⟩
      rw [reconcileStep_external w sched nodeName node i step st hx] at h
      simp only [Prod.mk.injEq, and_true] at h
      subst h
      refine ⟨?_, by simp [hx], fun _ => ?_, fun hc => absurd hc hn⟩
      · intro n j hnj
        show stepAt (setNodeStepURL _ _ _ _) _ _ = _
        rw [stepAt_setNodeStepURL, if_neg hnj]
      · show stepAt (setNodeStepURL _ _ _ _) _ _ = _
        rw [stepAt_setNodeStepURL, if_pos ⟨rfl, rfl⟩]

/-- The loop over the steps of a node: steps of other nodes and steps outside the range of the
loop stay; the counter grows by the number of external steps; an external step of the loop
gets its external URL, and a step that names a node stays. -/
theorem reconcileSteps_steps (w : World) (sched : Nat → List Tick) (nodeName : String)
    (node : Router) (steps : List Step) (i0 : Nat) (st st' : Pass)
    (h : reconcileSteps w sched nodeName node steps i0 st = (st', none)) :
    (∀ n j, (n ≠ nodeName ∨ j < i0 ∨ i0 + steps.length ≤ j) →
      stepAt st'.graph.Spec.Nodes n j = stepAt st.graph.Spec.Nodes n j) ∧
    st'.externalService = st.externalService + steps.countP isExternalStep ∧
    (∀ k step, steps[k]? = some step →
      (isExternalStep step = true →
        stepAt st'.graph.Spec.Nodes nodeName (i0 + k) =
          (stepAt st.graph.Spec.Nodes nodeName (i0 + k)).map
            (fun s => { s with ServiceURL := step.ExternalService })) ∧
      (step.NodeName ≠ "" →
        stepAt st'.graph.Spec.Nodes nodeName (i0 + k) =
          stepAt st.graph.Spec.Nodes nodeName (i0 + k))) := by
  induction steps generalizing i0 st with
  | nil =>
    simp only [reconcileSteps, Prod.mk.injEq, and_true] at h
    subst h
    refine ⟨fun _ _ _ => rfl, by simp, ?_⟩
    intro k step hk
    simp at hk
  | cons s rest ih =>
    unfold reconcileSteps at h
    cases hs : reconcileStep w sched nodeName node i0 s st with
    | mk st1 r =>
      rw [hs] at h
      cases r with
      | some f => simp at h
      | none =>
        simp only at h
        obtain ⟨f1, c1, x1, n1⟩ := reconcileStep_steps w sched nodeName node i0 s st st1 hs
        obtain ⟨f2, c2, u2⟩ := ih (i0 + 1) st1 h
        refine ⟨?_, ?_, ?_⟩
        · intro n j hnj
          have e2 : stepAt st'.graph.Spec.Nodes n j = stepAt st1.graph.Spec.Nodes n j := by
            apply f2
            rcases hnj with hn | hj | hj
            · exact Or.inl hn
            · exact Or.inr (Or.inl (by omega))
            · exact Or.inr (Or.inr (by simp only [List.length_cons] at hj; omega))
          have e1 : stepAt st1.graph.Spec.Nodes n j = stepAt st.graph.Spec.Nodes n j := by
            apply f1
            rintro ⟨hn, hj⟩
            rcases hnj with hn' | hj' | hj'
            · exact hn' hn
            · omega
            · simp only [List.length_cons] at hj'; omega
          rw [e2, e1]
        · rw [c2, c1, List.countP_cons]
          omega
        · intro k step hk
          cases k with
          | zero =>
            simp only [List.getElem?_cons_zero, Option.some.injEq] at hk
            subst hk
            have e2 : stepAt st'.graph.Spec.Nodes nodeName (i0 + 0) =
                stepAt st1.graph.Spec.Nodes nodeName (i0 + 0) :=
              f2 nodeName (i0 + 0) (Or.inr (Or.inl (by omega)))
            refine ⟨fun hx => ?_, fun hn => ?_⟩
            · rw [e2]
              exact x1 hx
            · rw [e2, n1 hn]
          | succ k =>
            simp only [List.getElem?_cons_succ] at hk
            obtain ⟨ux, un⟩ := u2 k step hk
            have e1 : stepAt st1.graph.Spec.Nodes nodeName (i0 + (k + 1)) =
                stepAt st.graph.Spec.Nodes nodeName (i0 + (k + 1)) := by
              apply f1
              rintro ⟨_, hj⟩
              omega
            have ei : i0 + 1 + k = i0 + (k + 1) := by omega
            rw [ei] at ux un
            refine ⟨fun hx => ?_, fun hn => ?_⟩
            · rw [ux hx, e1]
            · rw [un hn, e1]

/-- The loop over the nodes, for nodes stored under different names: steps of nodes outside
the loop stay; the counter grows by the number of external steps; an external step gets its
external URL, and a step that names a node stays. -/
theorem reconcileNodes_steps (w : World) (sched : Nat → List Tick)
    (nodes : List (String × Router)) (st st' : Pass)
    (hnd : (nodes.map Prod.fst).Nodup)
    (h : reconcileNodes w sched nodes st = (st', none)) :
    (∀ n j, n ∉ nodes.map Prod.fst →
      stepAt st'.graph.Spec.Nodes n j = stepAt st.graph.Spec.Nodes n j) ∧
    st'.externalService = st.externalService + countExternal nodes ∧
    (∀ n node i step, (n, node) ∈ nodes → node.Steps[i]? = some step →
      (isExternalStep step = true →
        stepAt st'.graph.Spec.Nodes n i =
          (stepAt st.graph.Spec.Nodes n i).map
            (fun s => { s with ServiceURL := step.ExternalService })) ∧
      (step.NodeName ≠ "" →
        stepAt st'.graph.Spec.Nodes n i = stepAt st.graph.Spec.Nodes n i)) := by
  induction nodes generalizing st with
  | nil =>
    simp only [reconcileNodes, Prod.mk.injEq, and_true] at h
    subst h
    refine ⟨fun _ _ _ => rfl, by simp [countExternal], ?_⟩
    intro n node i step hm
    cases hm
  | cons p rest ih =>
    obtain ⟨n0, node0⟩ := p
    simp only [List.map_cons, List.nodup_cons] at hnd
    unfold reconcileNodes at h
    cases hs : reconcileSteps w sched n0 node0 node0.Steps 0 st with
    | mk st1 r =>
      rw [hs] at h
      cases r with
      | some f => simp at h
      | none =>
        simp only at h
        obtain ⟨f1, c1, u1⟩ := reconcileSteps_steps w sched n0 node0 node0.Steps 0 st st1 hs
        obtain ⟨f2, c2, u2⟩ := ih st1 hnd.2 h
        refine ⟨?_, ?_, ?_⟩
        · intro n j hn
          simp only [List.map_cons, List.mem_cons, not_or] at hn
          rw [f2 n j hn.2, f1 n j (Or.inl hn.1)]
        · rw [c2, c1]
          simp only [countExternal, List.map_cons, List.sum_cons]
          omega
        · intro n node i step hm hstep
          simp only [List.mem_cons, Prod.mk.injEq] at hm
          rcases hm with ⟨hn, hnode⟩ | hm
          · subst hn
            subst hnode
            obtain ⟨ux, un⟩ := u1 i step hstep
            simp only [Nat.zero_add] at ux un
            have e2 := f2 n i hnd.1
            refine ⟨fun hx => ?_, fun hq => ?_⟩
            · rw [e2, ux hx]
            · rw [e2, un hq]
          · have hne : n ≠ n0 := by
              intro he
              subst he
              exact hnd.1 (List.mem_map.mpr ⟨(n, node), hm, rfl⟩)
            obtain ⟨ux, un⟩ := u2 n node i step hm hstep
            have e1 := f1 n i (Or.inl hne)
            refine ⟨fun hx => ?_, fun hq => ?_⟩
            · rw [ux hx, e1]
            · rw [un hq, e1]

/-- In a map whose keys differ, a stored node is the node found under its name. -/
theorem nodeLookup_of_mem (nodes : List (String × Router)) (n : String) (node : Router)
    (hnd : (nodes.map Prod.fst).Nodup) (hm : (n, node) ∈ nodes) : nodeLookup nodes n = node := by
  induction nodes with
  | nil => cases hm
  | cons p rest ih =>
    obtain ⟨n0, node0⟩ := p
    simp only [List.map_cons, List.nodup_cons] at hnd
    simp only [List.mem_cons, Prod.mk.injEq] at hm
    rcases hm with ⟨hn, hnode⟩ | hm
    · subst hn
      subst hnode
      simp [nodeLookup]
    · have hne : n0 ≠ n := by
        intro he
        subst he
        exact hnd.1 (List.mem_map.mpr ⟨(n0, node), hm, rfl⟩)
      simp only [nodeLookup, hne, if_false]
      exact ih hnd.2 hm

theorem routerDocs_external (w : World) (sched : Nat → List Tick) (docs : List String)
    (st : Pass) : (routerDocs w sched docs st).1.externalService = st.externalService := by
  induction docs generalizing st with
  | nil => rfl
  | cons res rest ih =>
    unfold routerDocs
    split
    · exact ih _
    · split
      · rfl
      · split
        · rfl
        · split
          · rfl
          · rw [ih]

theorem reconcileRouterService_external (w : World) (sched : Nat → List Tick) (st : Pass) :
    (reconcileRouterService w sched st).1.externalService = st.externalService := by
  unfold reconcileRouterService
  split
  · rfl
  · split
    · rfl
    · split
      · rfl
      · exact routerDocs_external _ _ _ _

/-- A pass that ends in stage `done` went through every stage without failure. -/
theorem reconcileGraph_done (w : World) (sched : Nat → List Tick) (c : Cluster)
    (graph : GMConnector) (hdone : (reconcileGraph w sched c graph).stage = .done) :
    ∃ st st2 sys,
      reconcileNodes w sched graph.Spec.Nodes
        { graph := clearAnnotations graph, externalService := 0
          sys := { cluster := c, calls := 0, applied := [], deleted := [] } } = (st, none) ∧
      reconcileRouterService w sched st = (st2, none) ∧
      gcLoop st2.graph.Status.Annotations (mapKeys graph.Status.Annotations) st2.sys =
        (sys, none) ∧
      (collectResourceStatus w sys.cluster
        (setInitialStatus st2.graph st2.externalService)).2 = none ∧
      (reconcileGraph w sched c graph).graph =
        (collectResourceStatus w sys.cluster
          (setInitialStatus st2.graph st2.externalService)).1 := by
  unfold reconcileGraph at hdone ⊢
  simp only at hdone ⊢
  cases h1 : reconcileNodes w sched graph.Spec.Nodes
      { graph := clearAnnotations graph, externalService := 0
        sys := { cluster := c, calls := 0, applied := [], deleted := [] } } with
  | mk st r1 =>
    rw [h1] at hdone
    cases r1 with
    | some f => simp at hdone
    | none =>
      simp only at hdone ⊢
      cases h2 : reconcileRouterService w sched st with
      | mk st2 r2 =>
        rw [h2] at hdone
        cases r2 with
        | some f => simp at hdone
        | none =>
          simp only at hdone ⊢
          cases h3 : gcLoop st2.graph.Status.Annotations (mapKeys graph.Status.Annotations)
              st2.sys with
          | mk sys r3 =>
            rw [h3] at hdone
            cases r3 with
            | some f => simp at hdone
            | none =>
              simp only at hdone ⊢
              cases h4 : collectResourceStatus w sys.cluster
                  (setInitialStatus st2.graph st2.externalService) with
              | mk g r4 =>
                rw [h4] at hdone
                cases r4 with
                | some f => simp at hdone
                | none =>
                  refine ⟨st, st2, sys, rfl, h2, h3, ?_, ?_⟩
                  · rw [h4]
                  · rw [h4]

/-! ## The manifest table -/

/-- Every path of the manifest table is non-empty. -/
theorem yamlDict_path_ne (path kind : String) (h : mapLookup yamlDict kind = some path) :
    path ≠ "" := by
  have hall : ∀ p ∈ yamlDict, p.2 ≠ "" := by decide
  have hmem : ∀ (m : StrMap), mapLookup m kind = some path → (kind, path) ∈ m := by
    intro m
    induction m with
    | nil => intro h; cases h
    | cons p m ih =>
      obtain ⟨k, v⟩ := p
      intro h
      unfold mapLookup at h
      by_cases hk : k = kind
      · rw [if_pos hk] at h
        cases h
        rw [hk]
        exact List.mem_cons_self _ _
      · rw [if_neg hk] at h
        exact List.mem_cons_of_mem _ (ih h)
  exact hall (kind, path) (hmem yamlDict h)

/-! ## Deep equality -/

theorem mapDeepEqual_refl (a : StrMap) : mapDeepEqual a a = true := by
  simp [mapDeepEqual]

theorem optMapDeepEqual_refl (a : Option StrMap) : optMapDeepEqual a a = true := by
  cases a with
  | none => rfl
  | some m => exact mapDeepEqual_refl m

theorem stepDeepEqual_refl (a : Step) : stepDeepEqual a a = true := by
  simp [stepDeepEqual, targetDeepEqual, mapDeepEqual_refl]

theorem stepsDeepEqual_refl (l : List Step) : stepsDeepEqual l l = true := by
  induction l with
  | nil => rfl
  | cons a l ih => simp [stepsDeepEqual, stepDeepEqual_refl, ih]

theorem nodeFind_of_mem (nodes : List (String × Router)) (p : String × Router)
    (h : p ∈ nodes) : ∃ x, nodeFind nodes p.1 = some x := by
  induction nodes with
  | nil => cases h
  | cons q rest ih =>
    obtain ⟨n, node⟩ := q
    by_cases hn : n = p.1
    · exact ⟨node, by simp [nodeFind, hn]⟩
    · have hm : p ∈ rest := by
        rcases List.mem_cons.mp h with h1 | h1
        · exact absurd (by rw [h1]) hn
        · exact h1
      obtain ⟨x, hx⟩ := ih hm
      exact ⟨x, by simp [nodeFind, hn, hx]⟩

theorem nodesDeepEqual_refl (nodes : List (String × Router)) :
    nodesDeepEqual nodes nodes = true := by
  simp only [nodesDeepEqual, decide_True, Bool.true_and, List.all_eq_true]
  intro p hp
  obtain ⟨x, hx⟩ := nodeFind_of_mem nodes p hp
  rw [hx]
  exact stepsDeepEqual_refl _

theorem specDeepEqual_refl (s : GMConnectorSpec) : specDeepEqual s s = true := by
  simp [specDeepEqual, nodesDeepEqual_refl]

/-! ## The Available condition -/

/-- The loop over the conditions ends with the status of the last condition of type Available,
or with the value it started from. -/
theorem availableLoop_eq (status : String) (conditions : List Condition) :
    availableLoop status conditions =
      match (conditions.filter (fun cond => cond.condType = "Available")).getLast? with
      | some cond => cond.status
      | none => status := by
  induction conditions generalizing status with
  | nil => rfl
  | cons c rest ih =>
    unfold availableLoop
    rw [ih]
    by_cases hc : c.condType = "Available"
    · simp only [hc, if_true, List.filter_cons, decide_True]
      cases hf : rest.filter (fun cond => cond.condType = "Available") with
      | nil => simp
      | cons d ds =>
        rw [List.getLast?_cons_cons]
        cases hg : (d :: ds).getLast? with
        | none => simp at hg
        | some x => rfl
    · simp only [hc, if_false, List.filter_cons, decide_False]
      simp

theorem availableLoop_last (conditions : List Condition) :
    availableLoop "Unknown" conditions = lastAvailable conditions := by
  rw [availableLoop_eq]
  rfl

/-! ## The status update after a Deployment event -/

/-- `handleStatusUpdate` never returns an error: it ends with no error or in a panic. -/
theorem handleStatusLoop_no_error (w : World) (c : Cluster)
    (getGraph : String → String → Except String GMConnector) (ns : String)
    (owners : List OwnerReference) (e : String) :
    handleStatusLoop w c getGraph ns owners ≠ .ok (some e) := by
  induction owners with
  | nil => simp [handleStatusLoop]
  | cons owner rest ih =>
    unfold handleStatusLoop
    split
    · split
      · exact ih
      · split
        · exact ih
        · simp
        · simp
    · exact ih

/-! ## The claims -/

/-- C1: in a pass over a graph, every key passed to `deleteRecordedResource` is a key of the
pre-pass snapshot that is absent from the annotation map the pass rebuilds, so that no key of
the rebuilt map is ever deleted; an empty snapshot causes no deletion; and in a pass that
gets through the garbage-collection step the keys passed are exactly the keys of the
snapshot that are absent from the rebuilt map. -/
theorem gc_deletes_exactly_the_orphans (w : World) (sched : Nat → List Tick) (c : Cluster)
    (graph : GMConnector) :
    (∀ k, k ∈ (reconcileGraph w sched c graph).sys.deleted →
      k ∈ mapKeys graph.Status.Annotations ∧
        mapHas (reconcileGraph w sched c graph).graph.Status.Annotations k = false) ∧
    (graph.Status.Annotations = [] → (reconcileGraph w sched c graph).sys.deleted = []) ∧
    ((reconcileGraph w sched c graph).stage = .status ∨
        (reconcileGraph w sched c graph).stage = .done →
      ∀ k, k ∈ (reconcileGraph w sched c graph).sys.deleted ↔
        (k ∈ mapKeys graph.Status.Annotations ∧
          mapHas (reconcileGraph w sched c graph).graph.Status.Annotations k = false)) := by
  obtain ⟨h1, h2⟩ := reconcileGraph_deleted w sched c graph
  refine ⟨h1, ?_, h2⟩
  intro hempty
  apply List.eq_nil_iff_forall_not_mem.mpr
  intro k hk
  have := (h1 k hk).1
  rw [hempty] at this
  simp [mapKeys] at this

/-- Witness of C1: the sample graph with a snapshot of one orphan key, and with an empty
snapshot. -/
theorem gc_deletes_exactly_the_orphans_witness :
    "Service:v1:gone:rag" ∈ (reconcileGraph sampleWorld promptly sampleCluster
        (sampleGraph { Status := "", AccessURL := ""
                       Annotations := [("Service:v1:gone:rag", "provisioned")] })).sys.deleted ∧
      (reconcileGraph sampleWorld promptly sampleCluster
        (sampleGraph { Status := "", AccessURL := "", Annotations := [] })).sys.deleted = [] :=
  ⟨((gc_deletes_exactly_the_orphans sampleWorld promptly sampleCluster
      (sampleGraph { Status := "", AccessURL := ""
                     Annotations := [("Service:v1:gone:rag", "provisioned")] })).2.2
      (by decide) "Service:v1:gone:rag").mpr ⟨by decide, by decide⟩,
   (gc_deletes_exactly_the_orphans sampleWorld promptly sampleCluster
      (sampleGraph { Status := "", AccessURL := "", Annotations := [] })).2.1 rfl⟩

/-- C2: for an object whose kind, apiVersion, name and namespace hold no `:`, the key that
`recordResource` writes is kind, apiVersion, name and namespace joined by `:`, and no other
key is added; splitting that key on `:` has the fields 0 to 3 in bounds, equal to the kind,
the apiVersion, the name and the namespace, so that `deleteRecordedResource` addresses
exactly that object. -/
theorem provenance_key_round_trip (graph graph' : GMConnector) (nodeName : String)
    (stepIdx : Nat) (obj : K8sObj) (c : Cluster)
    (hk : ':' ∉ obj.kind.data) (ha : ':' ∉ obj.apiVersion.data)
    (hn : ':' ∉ obj.name.data) (hs : ':' ∉ obj.ns.data)
    (hrec : recordResource graph nodeName stepIdx obj = .ok graph') :
    mapKeys graph'.Status.Annotations =
        mapKeys (mapSet graph.Status.Annotations
          (obj.kind ++ ":" ++ obj.apiVersion ++ ":" ++ obj.name ++ ":" ++ obj.ns) "provisioned") ∧
      splitField (obj.kind ++ ":" ++ obj.apiVersion ++ ":" ++ obj.name ++ ":" ++ obj.ns) ":" 0 =
        .ok obj.kind ∧
      splitField (obj.kind ++ ":" ++ obj.apiVersion ++ ":" ++ obj.name ++ ":" ++ obj.ns) ":" 1 =
        .ok obj.apiVersion ∧
      splitField (obj.kind ++ ":" ++ obj.apiVersion ++ ":" ++ obj.name ++ ":" ++ obj.ns) ":" 2 =
        .ok obj.name ∧
      splitField (obj.kind ++ ":" ++ obj.apiVersion ++ ":" ++ obj.name ++ ":" ++ obj.ns) ":" 3 =
        .ok obj.ns ∧
      deleteRecordedResource c
          (obj.kind ++ ":" ++ obj.apiVersion ++ ":" ++ obj.name ++ ":" ++ obj.ns) =
        .ok ((c.delete obj.apiVersion obj.kind obj.ns obj.name).getD c) := by
  have hf := resourceKey_fields obj hk ha hn hs
  have hkey : obj.kind ++ ":" ++ obj.apiVersion ++ ":" ++ obj.name ++ ":" ++ obj.ns =
      resourceKey obj := rfl
  rw [hkey]
  have h0 : splitField (resourceKey obj) ":" 0 = .ok obj.kind := by simp [splitField, hf]
  have h1 : splitField (resourceKey obj) ":" 1 = .ok obj.apiVersion := by simp [splitField, hf]
  have h2 : splitField (resourceKey obj) ":" 2 = .ok obj.name := by simp [splitField, hf]
  have h3 : splitField (resourceKey obj) ":" 3 = .ok obj.ns := by simp [splitField, hf]
  refine ⟨recordResource_keys graph graph' nodeName stepIdx obj hrec, h0, h1, h2, h3, ?_⟩
  unfold deleteRecordedResource
  rw [h0, h1, h2, h3]
  simp only
  cases c.delete obj.apiVersion obj.kind obj.ns obj.name <;> rfl

/-- Witness of C2: the stale Service of the sample cluster, recorded on the sample graph. -/
theorem provenance_key_round_trip_witness :
    splitField "Service:v1:emb:rag" ":" 2 = .ok "emb" ∧
      deleteRecordedResource sampleCluster "Service:v1:emb:rag" = .ok [sampleOverrideStore] :=
  have h := provenance_key_round_trip
    (sampleGraph { Status := "", AccessURL := "", Annotations := [] })
    ((recordResource (sampleGraph { Status := "", AccessURL := "", Annotations := [] })
      "root" 0 staleService).toOption.getD emptyGraph)
    "root" 0 staleService sampleCluster (by decide) (by decide) (by decide) (by decide)
    (by decide)
  ⟨h.2.2.2.1, h.2.2.2.2.2⟩

/-- C3: for a graph with a non-empty annotation map of provenance keys whose
incoming status string is `a/e/c`, with `e` the numeral of a natural number that a Go `int`
holds (at most 2^63 - 1), `collectResourceStatus` sets the status string to `r/e/t`, where
`t` counts the tracked keys of kind Deployment or StatefulSet (fetched or not) and `r` those
whose live object is fetched and has all desired replicas available (Deployment) or ready
(StatefulSet); the middle field is kept, and `r ≤ t`. -/
theorem status_string_counts (w : World) (c : Cluster) (graph : GMConnector)
    (a cs : String) (e : Nat)
    (hne : graph.Status.Annotations ≠ [])
    (hkeys : ∀ k ∈ mapKeys graph.Status.Annotations, isProvenanceKey k)
    (ha : '/' ∉ a.data) (he : e ≤ maxInt)
    (hst : graph.Status.Status = a ++ "/" ++ fmtNat e ++ "/" ++ cs) :
    (collectResourceStatus w c graph).1.Status.Status =
        fmtNat (trackedReady c (mapKeys graph.Status.Annotations)) ++ "/" ++ fmtNat e ++ "/" ++
          fmtNat (trackedTotal (mapKeys graph.Status.Annotations)) ∧
      trackedReady c (mapKeys graph.Status.Annotations) ≤
        trackedTotal (mapKeys graph.Status.Annotations) :=
  ⟨(collect_status_string w c graph a cs e hne hkeys ha he hst).1, trackedReady_le c _⟩

/-- Witness of C3: the graph that tracks three Deployments, with incoming status `0/1/0`. -/
theorem status_string_counts_witness :
    (collectResourceStatus bareWorld threeDeployments threeDeploymentsGraph).1.Status.Status =
        fmtNat (trackedReady threeDeployments (mapKeys threeDeploymentsGraph.Status.Annotations))
          ++ "/" ++ fmtNat 1 ++ "/" ++
          fmtNat (trackedTotal (mapKeys threeDeploymentsGraph.Status.Annotations)) ∧
      trackedReady threeDeployments (mapKeys threeDeploymentsGraph.Status.Annotations) ≤
        trackedTotal (mapKeys threeDeploymentsGraph.Status.Annotations) :=
  status_string_counts bareWorld threeDeployments threeDeploymentsGraph "0" "0" 1
    (by decide) (by decide) (by decide) (by decide) (by decide)

/-- Counterexample to C4: with two ready Deployments, one Deployment that is not ready and a
Service among the tracked keys, and one external step counted, the status string is `2/1/3`,
not `2/1/2`. -/
theorem status_arithmetic_counterexample :
    threeDeploymentsGraph.Status.Status = "0/1/0" ∧
      trackedReady threeDeployments (mapKeys threeDeploymentsGraph.Status.Annotations) = 2 ∧
      (collectResourceStatus bareWorld threeDeployments threeDeploymentsGraph).1.Status.Status =
        "2/1/3" ∧
      (collectResourceStatus bareWorld threeDeployments threeDeploymentsGraph).1.Status.Status ≠
        "2/1/2" := by
  decide

/-- C4, amended: for a graph that tracks three workloads, two of them ready (and any other
keys), after a pass that counted one external step, `collectResourceStatus` produces the
status string `2/1/3`: the last field counts every tracked workload. -/
theorem status_arithmetic (w : World) (c : Cluster) (graph : GMConnector)
    (hne : graph.Status.Annotations ≠ [])
    (hkeys : ∀ k ∈ mapKeys graph.Status.Annotations, isProvenanceKey k)
    (htotal : trackedTotal (mapKeys graph.Status.Annotations) = 3)
    (hready : trackedReady c (mapKeys graph.Status.Annotations) = 2) :
    (setInitialStatus graph 1).Status.Status = "0/1/0" ∧
      (collectResourceStatus w c (setInitialStatus graph 1)).1.Status.Status = "2/1/3" := by
  have h := (collect_status_string w c (setInitialStatus graph 1) "0" "0" 1 hne hkeys
    (by decide) (by decide) rfl).1
  have e1 : (setInitialStatus graph 1).Status.Annotations = graph.Status.Annotations := rfl
  rw [e1, htotal, hready] at h
  exact ⟨show fmtNat 0 ++ "/" ++ fmtNat 1 ++ "/" ++ fmtNat 0 = "0/1/0" by decide, h⟩

/-- Witness of C4, amended: the graph that tracks three Deployments. -/
theorem status_arithmetic_witness :
    (collectResourceStatus bareWorld threeDeployments
      (setInitialStatus threeDeploymentsGraph 1)).1.Status.Status = "2/1/3" :=
  (status_arithmetic bareWorld threeDeployments threeDeploymentsGraph
    (by decide) (by decide) (by decide) (by decide)).2

/-- C5: while a Deployment or StatefulSet document is shaped, for a Config entry whose key is
not `endpoint` or `nodes`, whatever the variable name, and whose value is `p:r` with no `:`
in `p`: if `p` is `fetch_from`, resolution goes on in fetch mode with working value `r`;
otherwise the entry fails with the error on the `fetch_from:service/namespace` form, the
Config loop ends with that error when it reaches the entry, and the document is not shaped,
so no environment variable is emitted. A value without `:` is kept as it is, out of fetch
mode. -/
theorem fetch_from_directive (w : World) (c : Cluster) (k : WorkloadKind) (graphNs : String)
    (stepCfg : Step) (nodeCfg : Router) (name p r : String)
    (hname : name ≠ "endpoint" ∧ name ≠ "nodes") (hp : ':' ∉ p.data) :
    (p = "fetch_from" →
      parseFetchFrom (p ++ ":" ++ r) = .ok (true, r) ∧
      resolveConfigValue w c k graphNs stepCfg nodeCfg name (p ++ ":" ++ r) =
        match splitServiceNamespace graphNs r with
        | .error f => .error f
        | .ok (endpoint, ns) =>
          resolveTarget w c k graphNs stepCfg nodeCfg name r true endpoint ns) ∧
    (p ≠ "fetch_from" →
      resolveConfigValue w c k graphNs stepCfg nodeCfg name (p ++ ":" ++ r) =
        .error (.error ("Invalid syntax: expected 'fetch_from:service/namespace', got '" ++
          (p ++ ":" ++ r) ++ "'")) ∧
      (∀ pre post acc acc',
        resolveConfig w c k graphNs stepCfg nodeCfg pre acc = .ok acc' →
        resolveConfig w c k graphNs stepCfg nodeCfg (pre ++ (name, p ++ ":" ++ r) :: post) acc =
          .error (.error ("Invalid syntax: expected 'fetch_from:service/namespace', got '" ++
            (p ++ ":" ++ r) ++ "'"))) ∧
      (∀ pre post acc' flag obj obj1,
        stepCfg.InternalService.Config = pre ++ (name, p ++ ":" ++ r) :: post →
        resolveConfig w c k graphNs stepCfg nodeCfg pre [] = .ok acc' →
        renameWorkload stepCfg.InternalService.ServiceName obj = .ok obj1 →
        shapeWorkload w c k graphNs stepCfg nodeCfg flag obj =
          .error (.error ("Invalid syntax: expected 'fetch_from:service/namespace', got '" ++
            (p ++ ":" ++ r) ++ "'")))) ∧
    (∀ v, ':' ∉ v.data → parseFetchFrom v = .ok (false, v)) := by
  refine ⟨?_, ?_, fun v hv => parseFetchFrom_plain v hv⟩
  · intro hpf
    have h1 : parseFetchFrom (p ++ ":" ++ r) = .ok (true, r) := by
      rw [parseFetchFrom_colon p r hp, if_pos hpf]
    refine ⟨h1, ?_⟩
    unfold resolveConfigValue
    rw [h1]
  · intro hpf
    have h1 : resolveConfigValue w c k graphNs stepCfg nodeCfg name (p ++ ":" ++ r) =
        .error (.error ("Invalid syntax: expected 'fetch_from:service/namespace', got '" ++
          (p ++ ":" ++ r) ++ "'")) := by
      unfold resolveConfigValue
      rw [parseFetchFrom_colon p r hp, if_neg hpf]
    refine ⟨h1, ?_, ?_⟩
    · intro pre post acc acc' hpre
      exact resolveConfig_fails_at w c k graphNs stepCfg nodeCfg pre post acc acc' name _ _
        hname hpre h1
    · intro pre post acc' flag obj obj1 hcfg hpre hren
      apply shapeWorkload_fails w c k graphNs stepCfg nodeCfg flag obj obj1 _ hren
      rw [hcfg]
      exact resolveConfig_fails_at w c k graphNs stepCfg nodeCfg pre post [] acc' name _ _
        hname hpre h1

/-- Witness of C5: a variable `MODEL` with the value `copy_from:tei` on a step of the sample
world. -/
theorem fetch_from_directive_witness :
    resolveConfigValue sampleWorld sampleCluster .deployment "rag" emptyStep { Steps := [] }
        "MODEL" ("copy_from" ++ ":" ++ "tei") =
      .error (.error ("Invalid syntax: expected 'fetch_from:service/namespace', got '" ++
        ("copy_from" ++ ":" ++ "tei") ++ "'")) ∧
    parseFetchFrom ("fetch_from" ++ ":" ++ "tei/rag") = .ok (true, "tei/rag") :=
  ⟨((fetch_from_directive sampleWorld sampleCluster .deployment "rag" emptyStep { Steps := [] }
      "MODEL" "copy_from" "tei" (by decide) (by decide)).2.1 (by decide)).1,
   ((fetch_from_directive sampleWorld sampleCluster .deployment "rag" emptyStep { Steps := [] }
      "MODEL" "fetch_from" "tei/rag" (by decide) (by decide)).1 rfl).1⟩

/-- C6: for a Config entry that is not reserved, with working value `v` (the raw value, or
the text after `fetch_from:`): without `/` the target is service `v` in the namespace of the
graph; with one `/` it is the text before it in the namespace after it; with two or more
`/` the entry fails with the error on the `service/namespace` form, whatever the cluster
holds, so before any read of it, and also after a `fetch_from:` prefix. -/
theorem service_namespace_target (w : World) (c : Cluster) (k : WorkloadKind)
    (graphNs : String) (stepCfg : Step) (nodeCfg : Router) (name value v : String)
    (fetch : Bool) (hparse : parseFetchFrom value = .ok (fetch, v)) :
    ('/' ∉ v.data →
      splitServiceNamespace graphNs v = .ok (v, graphNs) ∧
      resolveConfigValue w c k graphNs stepCfg nodeCfg name value =
        resolveTarget w c k graphNs stepCfg nodeCfg name v fetch v graphNs) ∧
    (∀ a b, v = a ++ "/" ++ b → '/' ∉ a.data → '/' ∉ b.data →
      splitServiceNamespace graphNs v = .ok (a, b) ∧
      resolveConfigValue w c k graphNs stepCfg nodeCfg name value =
        resolveTarget w c k graphNs stepCfg nodeCfg name v fetch a b) ∧
    (∀ a b rest, v = a ++ "/" ++ b ++ "/" ++ rest → '/' ∉ a.data → '/' ∉ b.data →
      resolveConfigValue w c k graphNs stepCfg nodeCfg name value =
        .error (.error ("Invalid syntax: expected 'service/namespace', got '" ++ v ++ "'")) ∧
      resolveConfigValue w [] k graphNs stepCfg nodeCfg name value =
        .error (.error ("Invalid syntax: expected 'service/namespace', got '" ++ v ++ "'")) ∧
      resolveConfigValue w c k graphNs stepCfg nodeCfg name ("fetch_from" ++ ":" ++ v) =
        .error (.error ("Invalid syntax: expected 'service/namespace', got '" ++ v ++ "'"))) := by
  refine ⟨?_, ?_, ?_⟩
  · intro h
    have hs := splitServiceNamespace_none graphNs v h
    refine ⟨hs, ?_⟩
    unfold resolveConfigValue
    rw [hparse]
    simp only [hs]
  · intro a b hv ha hb
    have hs : splitServiceNamespace graphNs v = .ok (a, b) := by
      rw [hv]; exact splitServiceNamespace_one graphNs a b ha hb
    refine ⟨hs, ?_⟩
    unfold resolveConfigValue
    rw [hparse]
    simp only [hs]
  · intro a b rest hv ha hb
    have hs : splitServiceNamespace graphNs v =
        .error (.error ("Invalid syntax: expected 'service/namespace', got '" ++ v ++ "'")) := by
      rw [hv]; exact splitServiceNamespace_more graphNs a b rest ha hb
    have hff : parseFetchFrom ("fetch_from" ++ ":" ++ v) = .ok (true, v) := by
      rw [parseFetchFrom_colon "fetch_from" v (by decide), if_pos rfl]
    refine ⟨?_, ?_, ?_⟩
    · unfold resolveConfigValue
      rw [hparse]
      simp only [hs]
    · unfold resolveConfigValue
      rw [hparse]
      simp only [hs]
    · unfold resolveConfigValue
      rw [hff]
      simp only [hs]

/-- Witness of C6: the value `fetch_from:tei/rag/extra`. -/
theorem service_namespace_target_witness :
    resolveConfigValue sampleWorld sampleCluster .deployment "rag" emptyStep { Steps := [] }
        "MODEL" "fetch_from:tei/rag/extra" =
      .error (.error ("Invalid syntax: expected 'service/namespace', got '" ++
        "tei/rag/extra" ++ "'")) ∧
    splitServiceNamespace "rag" "tei" = .ok ("tei", "rag") ∧
    splitServiceNamespace "rag" "tei/models" = .ok ("tei", "models") :=
  ⟨((service_namespace_target sampleWorld sampleCluster .deployment "rag" emptyStep
      { Steps := [] } "MODEL" "fetch_from:tei/rag/extra" "tei/rag/extra" true (by decide)).2.2
      "tei" "rag" "extra" (by decide) (by decide) (by decide)).1,
   ((service_namespace_target sampleWorld sampleCluster .deployment "rag" emptyStep
      { Steps := [] } "MODEL" "tei" "tei" false (by decide)).1 (by decide)).1,
   ((service_namespace_target sampleWorld sampleCluster .deployment "rag" emptyStep
      { Steps := [] } "MODEL" "tei/models" "tei/models" false (by decide)).2.1
      "tei" "models" (by decide) (by decide) (by decide)).1⟩

/-- Counterexample to C7: on the sample cluster, the first pass over the sample graph
changes the stale Service and so stamps the restart annotation on the Deployment it creates
next; the second pass over the unchanged graph, on the cluster the first pass left, shapes
the Deployment without the stamp, and its `applyResourceToK8s` call reports
`changed = true`. And on a cluster that holds the override store only, the first pass over
the graph of an `Llm` and a `VLLM` step creates every object and reports no change, while the
second pass finds the ConfigMap that names the model, appends `LLM_MODEL_NAME` to the
Deployment of the `Llm` step, and reports `changed = true`. And for a step with two Config
entries, a second pass that visits them in the same order reports no change, while a
second pass that visits the same map in the other order appends the variables in the other
order and reports `changed = true`. -/
theorem idempotence_counterexample :
    (samplePass1.stage = .done ∧
      { key := "Service:v1:emb:rag", created := false, changed := true, failed := false } ∈
        samplePass1.sys.applied ∧
      (samplePass1.sys.cluster.get "apps/v1" Deployment "rag" "emb-deployment").map
          (fun d => d.template.annotations) =
        some (some [("kubectl.kubernetes.io/restartedAt", "2024-01-01T00:00:00Z")]) ∧
      samplePass2.stage = .done ∧
      { key := "Deployment:apps/v1:emb-deployment:rag", created := false, changed := true
        failed := false } ∈ samplePass2.sys.applied) ∧
    (llmPass1.stage = .done ∧
      (∀ e ∈ llmPass1.sys.applied, e.changed = false) ∧
      llmPass2.stage = .done ∧
      { key := "Deployment:apps/v1:llm-deployment:rag", created := false, changed := true
        failed := false } ∈ llmPass2.sys.applied) ∧
    (configPass1.stage = .done ∧
      (∀ e ∈ configPass1.sys.applied, e.changed = false) ∧
      (∀ e ∈ configPass2.sys.applied, e.changed = false) ∧
      configPass2Swapped.stage = .done ∧
      { key := "Deployment:apps/v1:emb-deployment:rag", created := false, changed := true
        failed := false } ∈ configPass2Swapped.sys.applied) := by
  decide

/-- C7, amended: let a pass over a graph succeed without creating or changing any object
(every `applyResourceToK8s` call finds its object and reports `changed = false`) and
without deleting any. Then in the next pass over the unchanged graph, on the cluster the
first pass left, with the same answers of the collaborators and the entries of every map
visited in the same order, every `applyResourceToK8s` call reports `changed = false`,
garbage collection deletes nothing, and the status string and the set of annotation keys
are those of the first pass. -/
theorem idempotent_once_settled (w : World) (sched : Nat → List Tick) (c : Cluster)
    (graph : GMConnector) (r1 r2 : PassResult)
    (h1 : reconcileGraph w sched c graph = r1)
    (h2 : reconcileGraph w sched r1.sys.cluster (nextGraph graph r1) = r2)
    (hdone : r1.stage = .done)
    (hquiet : ∀ e ∈ r1.sys.applied, e.created = false ∧ e.changed = false)
    (hgc : r1.sys.deleted = []) :
    (∀ e ∈ r2.sys.applied, e.changed = false) ∧
      r2.sys.deleted = [] ∧
      r2.graph.Status.Status = r1.graph.Status.Status ∧
      mapKeys r2.graph.Status.Annotations = mapKeys r1.graph.Status.Annotations := by
  subst h1
  obtain ⟨hcl, hq, hd, hs, hk⟩ := reconcileGraph_settled w sched c graph hdone hquiet hgc
  rw [hcl] at h2
  subst h2
  exact ⟨fun e he => (hq e he).2, hd, hs, hk⟩

/-- Witness of C7, amended: the third pass over the sample graph changes nothing, and
neither does the fourth. -/
theorem idempotent_once_settled_witness :
    (∀ e ∈ (reconcileGraph sampleWorld promptly samplePass3.sys.cluster
        (nextGraph (nextGraph (sampleGraph freshStatus) samplePass2) samplePass3)).sys.applied,
      e.changed = false) ∧
    (reconcileGraph sampleWorld promptly samplePass3.sys.cluster
        (nextGraph (nextGraph (sampleGraph freshStatus) samplePass2) samplePass3)).sys.deleted =
      [] ∧
    (reconcileGraph sampleWorld promptly samplePass3.sys.cluster
        (nextGraph (nextGraph (sampleGraph freshStatus) samplePass2)
          samplePass3)).graph.Status.Status = samplePass3.graph.Status.Status ∧
    mapKeys (reconcileGraph sampleWorld promptly samplePass3.sys.cluster
        (nextGraph (nextGraph (sampleGraph freshStatus) samplePass2)
          samplePass3)).graph.Status.Annotations =
      mapKeys samplePass3.graph.Status.Annotations :=
  idempotent_once_settled sampleWorld promptly samplePass2.sys.cluster
    (nextGraph (sampleGraph freshStatus) samplePass2) samplePass3 _ rfl rfl
    (by decide) (by decide) (by decide)

/-- Counterexample to C8: a downstream step of a registered kind that names service `tei` in
namespace `models`, and an external service too, resolves to the name of the manifest in the
namespace of the graph, not to `http://tei.models.svc:6000`. -/
theorem downstream_endpoint_counterexample :
    lookupManifestDir externalDownstreamStep.StepName ≠ "" ∧
      getServiceDetailsFromManifests sampleWorld
        (lookupManifestDir externalDownstreamStep.StepName) = .ok ("embedding-usvc", 6000) ∧
      externalDownstreamStep.InternalService.ServiceName = "tei" ∧
      externalDownstreamStep.InternalService.NameSpace = "models" ∧
      getDownstreamSvcEndpoint sampleWorld "rag" "tei" (some externalDownstreamStep) =
        .ok "http://embedding-usvc.rag.svc:6000" ∧
      getDownstreamSvcEndpoint sampleWorld "rag" "tei" (some externalDownstreamStep) ≠
        .ok "http://tei.models.svc:6000" := by
  decide

/-- C8, amended: for a downstream step of a registered kind whose manifest yields a Service
named `m` with first port `p`, `getDownstreamSvcEndpoint` returns
`scheme://name.ns.svc:p`, with scheme `redis` exactly for the VectorDB kind and `http`
otherwise; for a step without external service, `name` is its ServiceName if non-empty else
`m`, and `ns` its NameSpace if non-empty else the namespace of the graph; for a step that
names an external service, `name` is `m` and `ns` the namespace of the graph. -/
theorem downstream_endpoint_format (w : World) (graphNs dsName : String) (step : Step)
    (m : String) (p : Int)
    (hreg : lookupManifestDir step.StepName ≠ "")
    (hman : getServiceDetailsFromManifests w (lookupManifestDir step.StepName) = .ok (m, p)) :
    getDownstreamSvcEndpoint w graphNs dsName (some step) =
      .ok ((if step.StepName = VectorDB then "redis://" else "http://") ++
        (if step.ExternalService = "" ∧ step.InternalService.ServiceName ≠ ""
          then step.InternalService.ServiceName else m) ++ "." ++
        (if step.ExternalService = "" ∧ step.InternalService.NameSpace ≠ ""
          then step.InternalService.NameSpace else graphNs) ++ ".svc:" ++ fmtInt p) := by
  unfold getDownstreamSvcEndpoint
  simp only [if_neg hreg, hman]
  have hn : (if (getNsNameFromStep step).2 = "" then m else (getNsNameFromStep step).2) =
      (if step.ExternalService = "" ∧ step.InternalService.ServiceName ≠ ""
        then step.InternalService.ServiceName else m) := by
    unfold getNsNameFromStep
    by_cases he : step.ExternalService = "" <;>
      by_cases hs : step.InternalService.ServiceName = "" <;> simp [he, hs]
  have hs : (if (getNsNameFromStep step).1 = "" then graphNs else (getNsNameFromStep step).1) =
      (if step.ExternalService = "" ∧ step.InternalService.NameSpace ≠ ""
        then step.InternalService.NameSpace else graphNs) := by
    unfold getNsNameFromStep
    by_cases he : step.ExternalService = "" <;>
      by_cases hs : step.InternalService.NameSpace = "" <;> simp [he, hs]
  rw [hn, hs]
  by_cases hv : step.StepName = VectorDB <;> simp [hv]

/-- Witness of C8, amended: the downstream step with an external service, and the same
step without it. -/
theorem downstream_endpoint_format_witness :
    getDownstreamSvcEndpoint sampleWorld "rag" "tei" (some externalDownstreamStep) =
        .ok "http://embedding-usvc.rag.svc:6000" ∧
      getDownstreamSvcEndpoint sampleWorld "rag" "tei"
          (some { externalDownstreamStep with ExternalService := "" }) =
        .ok "http://tei.models.svc:6000" :=
  ⟨downstream_endpoint_format sampleWorld "rag" "tei" externalDownstreamStep
      "embedding-usvc" 6000 (by decide) (by decide),
   downstream_endpoint_format sampleWorld "rag" "tei"
      { externalDownstreamStep with ExternalService := "" }
      "embedding-usvc" 6000 (by decide) (by decide)⟩

/-- C9: for a variable of the downstream allow-list, out of fetch mode, whose target
namespace is the namespace of the graph, `findDownStreamService` returns the first step of
the node, in step order, whose ServiceName is the referenced service and whose
IsDownstreamService flag is set; when no step of the node is such (the name matches with the
flag unset, or no name matches) it returns nil, the entry fails with an error, the Config
loop ends with it, and the document is not shaped, so no variable is emitted. -/
theorem downstream_service_lookup (w : World) (c : Cluster) (k : WorkloadKind)
    (graphNs : String) (stepCfg : Step) (nodeCfg : Router) (name value dsName : String)
    (hallow : isDownStreamEndpointKey name = true)
    (hparse : parseFetchFrom value = .ok (false, value))
    (hsplit : splitServiceNamespace graphNs value = .ok (dsName, graphNs)) :
    (∀ s, findDownStreamService dsName (some stepCfg) (some nodeCfg) = some s ↔
      ∃ pre post, nodeCfg.Steps = pre ++ s :: post ∧
        (s.InternalService.ServiceName = dsName ∧ s.InternalService.IsDownstreamService = true) ∧
        ∀ t ∈ pre, ¬ (t.InternalService.ServiceName = dsName ∧
          t.InternalService.IsDownstreamService = true)) ∧
    ((∀ t ∈ nodeCfg.Steps, ¬ (t.InternalService.ServiceName = dsName ∧
        t.InternalService.IsDownstreamService = true)) →
      findDownStreamService dsName (some stepCfg) (some nodeCfg) = none ∧
      resolveConfigValue w c k graphNs stepCfg nodeCfg name value =
        .error (.error ("failed to find downstream service endpoint " ++ name ++ "-" ++ dsName ++
          ": " ++ ("empty stepCfg for " ++ dsName))) ∧
      (∀ pre post acc acc',
        resolveConfig w c k graphNs stepCfg nodeCfg pre acc = .ok acc' →
        resolveConfig w c k graphNs stepCfg nodeCfg (pre ++ (name, value) :: post) acc =
          .error (.error ("failed to find downstream service endpoint " ++ name ++ "-" ++
            dsName ++ ": " ++ ("empty stepCfg for " ++ dsName)))) ∧
      (∀ pre post acc' flag obj obj1,
        stepCfg.InternalService.Config = pre ++ (name, value) :: post →
        resolveConfig w c k graphNs stepCfg nodeCfg pre [] = .ok acc' →
        renameWorkload stepCfg.InternalService.ServiceName obj = .ok obj1 →
        shapeWorkload w c k graphNs stepCfg nodeCfg flag obj =
          .error (.error ("failed to find downstream service endpoint " ++ name ++ "-" ++
            dsName ++ ": " ++ ("empty stepCfg for " ++ dsName))))) := by
  refine ⟨fun s => findDownStreamLoop_some dsName nodeCfg.Steps s, ?_⟩
  intro hnone
  have hfind : findDownStreamService dsName (some stepCfg) (some nodeCfg) = none :=
    (findDownStreamLoop_none dsName nodeCfg.Steps).mpr hnone
  have hval : resolveConfigValue w c k graphNs stepCfg nodeCfg name value =
      .error (.error ("failed to find downstream service endpoint " ++ name ++ "-" ++ dsName ++
        ": " ++ ("empty stepCfg for " ++ dsName))) := by
    unfold resolveConfigValue
    rw [hparse]
    simp only [hsplit]
    unfold resolveTarget
    simp only [Bool.false_eq_true, if_false, hallow, if_true, hfind]
    rfl
  have hname := allowList_not_reserved name hallow
  refine ⟨hfind, hval, ?_, ?_⟩
  · intro pre post acc acc' hpre
    exact resolveConfig_fails_at w c k graphNs stepCfg nodeCfg pre post acc acc' name _ _
      hname hpre hval
  · intro pre post acc' flag obj obj1 hcfg hpre hren
    apply shapeWorkload_fails w c k graphNs stepCfg nodeCfg flag obj obj1 _ hren
    rw [hcfg]
    exact resolveConfig_fails_at w c k graphNs stepCfg nodeCfg pre post [] acc' name _ _
      hname hpre hval

/-- Witness of C9: `TEI_ENDPOINT: tei` on a node whose step `tei` is not flagged as a
downstream service. -/
theorem downstream_service_lookup_witness :
    resolveConfigValue sampleWorld sampleCluster .deployment "rag" emptyStep
        { Steps := [{ externalDownstreamStep with
            InternalService := { NameSpace := "", ServiceName := "tei", Config := []
                                 IsDownstreamService := false } }] }
        "TEI_ENDPOINT" "tei" =
      .error (.error ("failed to find downstream service endpoint " ++ "TEI_ENDPOINT" ++ "-" ++
        "tei" ++ ": " ++ ("empty stepCfg for " ++ "tei"))) :=
  ((downstream_service_lookup sampleWorld sampleCluster .deployment "rag" emptyStep
      { Steps := [{ externalDownstreamStep with
          InternalService := { NameSpace := "", ServiceName := "tei", Config := []
                               IsDownstreamService := false } }] }
      "TEI_ENDPOINT" "tei" "tei" (by decide) (by decide) (by decide)).2 (by decide)).2.1

/-- C10: for a live workload found under the name and namespace, `fetchEnvVarFromService`
(for a Deployment) and `fetchEnvVarFromServiceStatefulSet` (for a StatefulSet) return the
value of the first variable named `varName` met when the containers of the pod template are
scanned in order and the env list of each in order, and return an error, never a value,
when no container defines `varName`. -/
theorem fetch_env_var_first (c : Cluster) (ns serviceName varName : String) (d : K8sObj) :
    (c.get "apps/v1" Deployment ns serviceName = some d →
      (∀ v, firstEnvValue varName d.template.containers = some v →
        fetchEnvVarFromService c ns serviceName varName = .ok v) ∧
      ((∀ ct ∈ d.template.containers, ∀ e ∈ ct.env, e.name ≠ varName) →
        fetchEnvVarFromService c ns serviceName varName =
          .error (.error ("environment variable " ++ varName ++ " not found in deployment " ++
            serviceName ++ " in namespace " ++ ns)))) ∧
    (c.get "apps/v1" StatefulSet ns serviceName = some d →
      (∀ v, firstEnvValue varName d.template.containers = some v →
        fetchEnvVarFromServiceStatefulSet c ns serviceName varName = .ok v) ∧
      ((∀ ct ∈ d.template.containers, ∀ e ∈ ct.env, e.name ≠ varName) →
        fetchEnvVarFromServiceStatefulSet c ns serviceName varName =
          .error (.error ("environment variable " ++ varName ++ " not found in deployment " ++
            serviceName ++ " in namespace " ++ ns)))) := by
  constructor
  · intro hget
    constructor
    · intro v hv
      unfold fetchEnvVarFromService
      rw [hget]
      simp only [scanContainers_eq_first, hv]
    · intro hno
      unfold fetchEnvVarFromService
      rw [hget]
      simp only [scanContainers_eq_first, firstEnvValue_none varName _ hno]
  · intro hget
    constructor
    · intro v hv
      unfold fetchEnvVarFromServiceStatefulSet
      rw [hget]
      simp only [scanContainers_eq_first, hv]
    · intro hno
      unfold fetchEnvVarFromServiceStatefulSet
      rw [hget]
      simp only [scanContainers_eq_first, firstEnvValue_none varName _ hno]

/-- Witness of C10: the Deployment `mysvc` of namespace `myns` with `FOO=bar`, read for `FOO`
and for `BAZ`, and the same document as a StatefulSet. -/
theorem fetch_env_var_first_witness :
    fetchEnvVarFromService [fooDeployment] "myns" "mysvc" "FOO" = .ok "bar" ∧
      fetchEnvVarFromService [fooDeployment] "myns" "mysvc" "BAZ" =
        .error (.error ("environment variable " ++ "BAZ" ++ " not found in deployment " ++
          "mysvc" ++ " in namespace " ++ "myns")) ∧
      fetchEnvVarFromServiceStatefulSet [{ fooDeployment with kind := StatefulSet }]
        "myns" "mysvc" "FOO" = .ok "bar" ∧
      resolveConfigValue sampleWorld [fooDeployment] .deployment "rag" emptyStep { Steps := [] }
        "FOO" "fetch_from:mysvc/myns" = .ok "bar" :=
  ⟨((fetch_env_var_first [fooDeployment] "myns" "mysvc" "FOO" fooDeployment).1 (by decide)).1
      "bar" (by decide),
   ((fetch_env_var_first [fooDeployment] "myns" "mysvc" "BAZ" fooDeployment).1 (by decide)).2
      (by decide),
   ((fetch_env_var_first [{ fooDeployment with kind := StatefulSet }] "myns" "mysvc" "FOO"
      { fooDeployment with kind := StatefulSet }).2 (by decide)).1 "bar" (by decide),
   by decide⟩

/-- Counterexample to C11: the live Deployment `mysvc` sets `FOO=bar` in its init container
and in no regular container; the fetch of `FOO` fails, for the Deployment and for the same
workload as a StatefulSet, and so does the resolver on `fetch_from:mysvc/myns`. -/
theorem fetch_init_container_counterexample :
    fetchEnvVarFromService [initOnlyDeployment] "myns" "mysvc" "FOO" =
        .error (.error "environment variable FOO not found in deployment mysvc in namespace myns") ∧
      fetchEnvVarFromServiceStatefulSet [{ initOnlyDeployment with kind := StatefulSet }]
          "myns" "mysvc" "FOO" =
        .error (.error "environment variable FOO not found in deployment mysvc in namespace myns") ∧
      resolveConfigValue sampleWorld [initOnlyDeployment] .deployment "rag" emptyStep
          { Steps := [] } "FOO" "fetch_from:mysvc/myns" =
        .error (.error ("failed to fetch environment variable FOO from service mysvc in " ++
          "namespace myns: environment variable FOO not found in deployment mysvc in " ++
          "namespace myns")) := by
  decide

/-- C11, amended: in fetch mode the lookup covers the regular containers of the live workload
only. Two clusters whose workload of that name has the same regular containers give the same
result whatever their init containers hold, and when no regular container defines `varName`
the resolver fails with the error of the fetch. -/
theorem fetch_scans_regular_containers_only (w : World) (c c' : Cluster) (k : WorkloadKind)
    (graphNs : String) (stepCfg : Step) (nodeCfg : Router) (varName value service ns : String)
    (d d' : K8sObj)
    (hget : c.get "apps/v1" k.kindName ns service = some d)
    (hget' : c'.get "apps/v1" k.kindName ns service = some d')
    (hsame : d.template.containers = d'.template.containers) :
    resolveTarget w c k graphNs stepCfg nodeCfg varName value true service ns =
        resolveTarget w c' k graphNs stepCfg nodeCfg varName value true service ns ∧
      ((∀ ct ∈ d.template.containers, ∀ e ∈ ct.env, e.name ≠ varName) →
        resolveTarget w c k graphNs stepCfg nodeCfg varName value true service ns =
          .error (.error ("failed to fetch environment variable " ++ varName ++
            " from service " ++ service ++ " in namespace " ++ ns ++ ": " ++
            ("environment variable " ++ varName ++ " not found in deployment " ++ service ++
              " in namespace " ++ ns)))) := by
  cases k
  · simp only [WorkloadKind.kindName] at hget hget'
    constructor
    · simp only [resolveTarget, fetchEnvVarFromService, hget, hget', hsame, if_true]
    · intro hno
      simp only [resolveTarget, fetchEnvVarFromService, hget, if_true, scanContainers_eq_first,
        firstEnvValue_none varName _ hno]
  · simp only [WorkloadKind.kindName] at hget hget'
    constructor
    · simp only [resolveTarget, fetchEnvVarFromServiceStatefulSet, hget, hget', hsame, if_true]
    · intro hno
      simp only [resolveTarget, fetchEnvVarFromServiceStatefulSet, hget, if_true,
        scanContainers_eq_first, firstEnvValue_none varName _ hno]

/-- Witness of C11, amended: the Deployment whose init container sets `FOO`, and the same
Deployment without init containers. -/
theorem fetch_scans_regular_containers_only_witness :
    resolveTarget sampleWorld [initOnlyDeployment] .deployment "rag" emptyStep { Steps := [] }
        "FOO" "mysvc/myns" true "mysvc" "myns" =
      resolveTarget sampleWorld
        [{ initOnlyDeployment with template := { initOnlyDeployment.template with initContainers := [] } }]
        .deployment "rag" emptyStep { Steps := [] } "FOO" "mysvc/myns" true "mysvc" "myns" ∧
    resolveTarget sampleWorld [initOnlyDeployment] .deployment "rag" emptyStep { Steps := [] }
        "FOO" "mysvc/myns" true "mysvc" "myns" =
      .error (.error ("failed to fetch environment variable " ++ "FOO" ++
        " from service " ++ "mysvc" ++ " in namespace " ++ "myns" ++ ": " ++
        ("environment variable " ++ "FOO" ++ " not found in deployment " ++ "mysvc" ++
          " in namespace " ++ "myns"))) :=
  ⟨(fetch_scans_regular_containers_only sampleWorld [initOnlyDeployment]
      [{ initOnlyDeployment with template := { initOnlyDeployment.template with initContainers := [] } }]
      .deployment "rag" emptyStep { Steps := [] } "FOO" "mysvc/myns" "mysvc" "myns"
      initOnlyDeployment
      { initOnlyDeployment with template := { initOnlyDeployment.template with initContainers := [] } }
      (by decide) (by decide) (by decide)).1,
   (fetch_scans_regular_containers_only sampleWorld [initOnlyDeployment]
      [initOnlyDeployment]
      .deployment "rag" emptyStep { Steps := [] } "FOO" "mysvc/myns" "mysvc" "myns"
      initOnlyDeployment initOnlyDeployment (by decide) (by decide) (by decide)).2 (by decide)⟩
/-- C12: for a document of kind Deployment that `reconcileResource` shapes, the result has
strategy `Recreate` with no rolling-update parameters, whatever the manifest declared; with a
non-empty `ServiceName` it is named `ServiceName + "-deployment"` and both `matchLabels["app"]`
of the selector and `labels["app"]` of the pod template are `ServiceName`; with an empty
`ServiceName` the name, the selector labels and the pod-template labels of the manifest are
kept. -/
theorem deployment_shaping (w : World) (c : Cluster) (graphNs : String) (stepCfg : Step)
    (nodeCfg : Router) (flag : Bool) (obj obj' : K8sObj)
    (hkind : obj.kind = Deployment)
    (h : shapeDocument w c graphNs stepCfg nodeCfg flag obj = .ok obj') :
    obj'.strategy = "Recreate" ∧ obj'.rollingUpdate = none ∧
      (stepCfg.InternalService.ServiceName ≠ "" →
        obj'.name = stepCfg.InternalService.ServiceName ++ "-deployment" ∧
        (∃ m, obj'.matchLabels = some (some m) ∧
          mapLookup m "app" = some stepCfg.InternalService.ServiceName) ∧
        (∃ l, obj'.template.labels = some l ∧
          mapLookup l "app" = some stepCfg.InternalService.ServiceName)) ∧
      (stepCfg.InternalService.ServiceName = "" →
        obj'.name = obj.name ∧ obj'.matchLabels = obj.matchLabels ∧
        obj'.template.labels = obj.template.labels) := by
  unfold shapeDocument at h
  have hk : ∀ o : K8sObj, o.kind = Deployment → ¬ (o.kind = Service ∧
      stepCfg.InternalService.ServiceName ≠ "") := by
    intro o ho hc
    rw [ho] at hc
    exact absurd hc.1 (by decide)
  have hk2 : ∀ o : K8sObj, o.kind = Deployment → ¬ o.kind = ServiceAccount := by
    intro o ho hc
    rw [ho] at hc
    exact absurd hc (by decide)
  generalize hns : (if stepCfg.InternalService.NameSpace ≠ "" then
    stepCfg.InternalService.NameSpace else graphNs) = ns at h
  have hobj : ∃ o : K8sObj, (if ns ≠ "" then { obj with ns := ns } else obj) = o ∧
      o.kind = Deployment ∧ o.name = obj.name ∧ o.matchLabels = obj.matchLabels ∧
      o.template = obj.template := by
    by_cases hn : ns ≠ ""
    · exact ⟨_, rfl, by rw [if_pos hn]; exact hkind, by rw [if_pos hn], by rw [if_pos hn],
        by rw [if_pos hn]⟩
    · exact ⟨_, rfl, by rw [if_neg hn]; exact hkind, by rw [if_neg hn], by rw [if_neg hn],
        by rw [if_neg hn]⟩
  obtain ⟨o, ho, hko, hname, hml, htpl⟩ := hobj
  simp only [ho] at h
  rw [if_neg (hk o hko), if_neg (hk2 o hko), if_pos hko] at h
  obtain ⟨o1, vs, hren, _, hstamp⟩ := shapeWorkload_ok w c .deployment graphNs stepCfg nodeCfg
    flag o obj' h
  obtain ⟨a, ha⟩ := stampRestart_ok w flag _ _ hstamp
  rw [appendEnvVars_eq] at ha
  have hr := renameWorkload_ok _ o o1 hren
  subst ha
  refine ⟨rfl, rfl, ?_, ?_⟩
  · intro hne
    obtain ⟨m, l, _, _, ho1⟩ := hr.2 hne
    subst ho1
    exact ⟨rfl, ⟨_, rfl, mapLookup_mapSet_self m "app" _⟩,
      ⟨_, rfl, mapLookup_mapSet_self l "app" _⟩⟩
  · intro he
    have ho1 : o1 = o := hr.1 he
    rw [ho1]
    refine ⟨hname, hml, ?_⟩
    show o.template.labels = obj.template.labels
    rw [htpl]

/-- Witness of C12: the sample Deployment document, declared with a rolling update, shaped
for the step of the sample graph, whose `ServiceName` is `emb`. -/
theorem deployment_shaping_witness :
    shapedEmbDeployment.strategy = "Recreate" ∧ shapedEmbDeployment.rollingUpdate = none ∧
      (embStep.InternalService.ServiceName ≠ "" →
        shapedEmbDeployment.name = embStep.InternalService.ServiceName ++ "-deployment" ∧
        (∃ m, shapedEmbDeployment.matchLabels = some (some m) ∧
          mapLookup m "app" = some embStep.InternalService.ServiceName) ∧
        (∃ l, shapedEmbDeployment.template.labels = some l ∧
          mapLookup l "app" = some embStep.InternalService.ServiceName)) ∧
      (embStep.InternalService.ServiceName = "" →
        shapedEmbDeployment.name = rollingDeploymentDoc.name ∧
        shapedEmbDeployment.matchLabels = rollingDeploymentDoc.matchLabels ∧
        shapedEmbDeployment.template.labels = rollingDeploymentDoc.template.labels) :=
  deployment_shaping sampleWorld sampleCluster "rag" embStep { Steps := [] } false
    rollingDeploymentDoc shapedEmbDeployment (by decide) (by decide)
/-- Counterexample to C13: for a step of kind `Llm` with the model-name ConfigMap live, the
Deployment document gets `LLM_MODEL_NAME` appended and the same document as a StatefulSet gets
nothing; and for a step that copies `FOO` from `mysvc`, live as a Deployment only, the
Deployment document is shaped with `FOO=bar` while shaping the StatefulSet document fails. -/
theorem statefulset_shaping_counterexample :
    (shapeDocument sampleWorld [liveVllmConfig] "rag" llmStep { Steps := [] } false
        sampleLlmDoc).map (fun o => o.template.containers) =
      .ok [{ name := "llm", env := [{ name := "LLM_MODEL_NAME", value := "mistral-7b" }]
             rest := "" }] ∧
    (shapeDocument sampleWorld [liveVllmConfig] "rag" llmStep { Steps := [] } false
        { sampleLlmDoc with kind := StatefulSet }).map (fun o => o.template.containers) =
      .ok [{ name := "llm", env := [], rest := "" }] ∧
    (shapeDocument sampleWorld [fooDeployment] "rag" fetchStep { Steps := [] } false
        sampleDeploymentDoc).map (fun o => o.template.containers) =
      .ok [{ name := "embedding", env := [{ name := "FOO", value := "bar" }], rest := "" }] ∧
    shapeDocument sampleWorld [fooDeployment] "rag" fetchStep { Steps := [] } false
        { sampleDeploymentDoc with kind := StatefulSet } =
      .error (.error ("failed to fetch environment variable FOO from service mysvc in " ++
        "namespace myns: failed to get deployment mysvc in namespace myns: not found")) := by
  decide

/-- C13, amended: let the step not be of the LLM kind, or no model name be found, and let
every `fetch_from` entry of the step read the same from the live StatefulSet as from the live
Deployment of that name. Then shaping a document as a StatefulSet fails exactly when shaping
it as a Deployment fails, with the same failure, and otherwise yields the same document (same
name, selector labels and pod template, the appended variables included) but for its kind and
the update strategy, `RollingUpdate` in place of `Recreate`. -/
theorem statefulset_shaping (w : World) (c : Cluster) (graphNs : String) (stepCfg : Step)
    (nodeCfg : Router) (flag : Bool) (doc : K8sObj)
    (hkind : doc.kind = Deployment)
    (hllm : stepCfg.StepName ≠ Llm ∨ getLLMModelNameFromVLLMConfigMap c graphNs = "")
    (hfetch : ∀ name value, (name, value) ∈ stepCfg.InternalService.Config →
      ∀ v service ns, parseFetchFrom value = .ok (true, v) →
        splitServiceNamespace graphNs v = .ok (service, ns) →
        fetchEnvVarFromServiceStatefulSet c ns service name =
          fetchEnvVarFromService c ns service name) :
    shapeDocument w c graphNs stepCfg nodeCfg flag { doc with kind := StatefulSet } =
      (shapeDocument w c graphNs stepCfg nodeCfg flag doc).map
        (fun o => { o with kind := StatefulSet, strategy := "RollingUpdate" }) := by
  have hshape := shapeWorkload_kind w c graphNs stepCfg nodeCfg flag hllm hfetch
  rw [shapeDocument_workload w c graphNs stepCfg nodeCfg flag { doc with kind := StatefulSet }
      .statefulSet rfl,
    shapeDocument_workload w c graphNs stepCfg nodeCfg flag doc .deployment hkind]
  by_cases hn : (if stepCfg.InternalService.NameSpace ≠ "" then
      stepCfg.InternalService.NameSpace else graphNs) ≠ ""
  · simp only [if_pos hn]
    exact hshape { doc with ns := if stepCfg.InternalService.NameSpace ≠ "" then
      stepCfg.InternalService.NameSpace else graphNs }
  · simp only [if_neg hn]
    exact hshape doc

/-- Witness of C13, amended: a step that copies `FOO` from `mysvc`, live in both kinds with
`FOO=bar`; the StatefulSet document is shaped as the Deployment document is. -/
theorem statefulset_shaping_witness :
    shapeDocument sampleWorld bothKinds "rag" fetchStep { Steps := [] } false
        { sampleDeploymentDoc with kind := StatefulSet } =
      (shapeDocument sampleWorld bothKinds "rag" fetchStep { Steps := [] } false
        sampleDeploymentDoc).map
        (fun o => { o with kind := StatefulSet, strategy := "RollingUpdate" }) ∧
    (shapeDocument sampleWorld bothKinds "rag" fetchStep { Steps := [] } false
        { sampleDeploymentDoc with kind := StatefulSet }).map
        (fun o => (o.name, o.strategy, o.template.containers)) =
      .ok ("emb-deployment", "RollingUpdate",
        [{ name := "embedding", env := [{ name := "FOO", value := "bar" }], rest := "" }]) :=
  ⟨statefulset_shaping sampleWorld bothKinds "rag" fetchStep { Steps := [] } false
      sampleDeploymentDoc (by decide) (Or.inl (by decide))
      (by
        intro name value hm v service ns hp hs
        have hnv : (name, value) = ("FOO", "fetch_from:mysvc/myns") := by
          simpa [fetchStep] using hm
        obtain ⟨rfl, rfl⟩ := Prod.mk.inj hnv
        have e1 : parseFetchFrom "fetch_from:mysvc/myns" = .ok (true, "mysvc/myns") := by decide
        rw [e1] at hp
        have hv : v = "mysvc/myns" := by
          injection hp with hp
          exact (Prod.mk.inj hp).2.symm
        subst hv
        have e2 : splitServiceNamespace "rag" "mysvc/myns" = .ok ("mysvc", "myns") := by decide
        rw [e2] at hs
        injection hs with hs
        obtain ⟨rfl, rfl⟩ := Prod.mk.inj hs
        decide),
   by decide⟩

/-- C14: `setEnvVars(cs, vs)` returns as many containers as `cs` holds, in the same order;
container `i` of the result is container `i` of `cs` with `vs` appended to its env list,
nothing removed, and its other fields as they were. A workload that `reconcileResource`
shapes has the resolved variables appended this way to the containers and to the init
containers of its pod template when the list is not empty, and keeps both lists otherwise. -/
theorem set_env_vars_appends (cs : List Container) (vs : List EnvVar) (w : World) (c : Cluster)
    (k : WorkloadKind) (graphNs : String) (stepCfg : Step) (nodeCfg : Router) (flag : Bool)
    (obj obj' : K8sObj)
    (h : shapeWorkload w c k graphNs stepCfg nodeCfg flag obj = .ok obj') :
    (setEnvVars cs vs).length = cs.length ∧
      (∀ i : Nat, (setEnvVars cs vs)[i]? =
        (cs[i]?).map (fun ct => { ct with env := ct.env ++ vs })) ∧
      ∃ resolved, resolveConfig w c k graphNs stepCfg nodeCfg stepCfg.InternalService.Config [] =
          .ok resolved ∧
        (appendLLMModelName c k graphNs stepCfg resolved ≠ [] →
          obj'.template.containers = setEnvVars obj.template.containers
            (appendLLMModelName c k graphNs stepCfg resolved) ∧
          obj'.template.initContainers = setEnvVars obj.template.initContainers
            (appendLLMModelName c k graphNs stepCfg resolved)) ∧
        (appendLLMModelName c k graphNs stepCfg resolved = [] →
          obj'.template.containers = obj.template.containers ∧
          obj'.template.initContainers = obj.template.initContainers) := by
  refine ⟨by simp [setEnvVars], fun i => by simp [setEnvVars], ?_⟩
  obtain ⟨o1, resolved, hren, hres, hstamp⟩ := shapeWorkload_ok w c k graphNs stepCfg nodeCfg
    flag obj obj' h
  obtain ⟨a, ha⟩ := stampRestart_ok w flag _ _ hstamp
  rw [appendEnvVars_eq] at ha
  have hr := renameWorkload_ok _ obj o1 hren
  have hc : o1.template.containers = obj.template.containers ∧
      o1.template.initContainers = obj.template.initContainers := by
    by_cases hs : stepCfg.InternalService.ServiceName = ""
    · rw [hr.1 hs]
      exact ⟨rfl, rfl⟩
    · obtain ⟨m, l, _, _, ho1⟩ := hr.2 hs
      rw [ho1]
      exact ⟨rfl, rfl⟩
  refine ⟨resolved, hres, ?_, ?_⟩
  · intro hne
    subst ha
    simp only [if_neg hne]
    rw [← hc.1, ← hc.2]
    exact ⟨rfl, rfl⟩
  · intro he
    subst ha
    simp only [if_pos he]
    rw [← hc.1, ← hc.2]
    exact ⟨rfl, rfl⟩

/-- Witness of C14: a Deployment document with a container that sets `A=1` and an init
container, shaped for a step that sets `FOO=bar`. -/
theorem set_env_vars_appends_witness :
    (setEnvVars initDoc.template.containers [{ name := "FOO", value := "bar" }]).length =
        initDoc.template.containers.length ∧
      (∀ i : Nat, (setEnvVars initDoc.template.containers [{ name := "FOO", value := "bar" }])[i]? =
        (initDoc.template.containers[i]?).map (fun ct =>
          { ct with env := ct.env ++ [{ name := "FOO", value := "bar" }] })) ∧
      ∃ resolved, resolveConfig sampleWorld [] .deployment "rag" plainStep { Steps := [] }
          plainStep.InternalService.Config [] = .ok resolved ∧
        (appendLLMModelName [] .deployment "rag" plainStep resolved ≠ [] →
          shapedInitDoc.template.containers = setEnvVars initDoc.template.containers
            (appendLLMModelName [] .deployment "rag" plainStep resolved) ∧
          shapedInitDoc.template.initContainers = setEnvVars initDoc.template.initContainers
            (appendLLMModelName [] .deployment "rag" plainStep resolved)) ∧
        (appendLLMModelName [] .deployment "rag" plainStep resolved = [] →
          shapedInitDoc.template.containers = initDoc.template.containers ∧
          shapedInitDoc.template.initContainers = initDoc.template.initContainers) :=
  set_env_vars_appends initDoc.template.containers [{ name := "FOO", value := "bar" }]
    sampleWorld [] .deployment "rag" plainStep { Steps := [] } false initDoc shapedInitDoc
    (by decide)

/-- C15: one attempt of `applyResourceToK8s` whose read comes through, on the object with its
controller reference set. If the object is absent, one Create and no other write is sent, and
when it succeeds the result is `changed = false` with no error. If it is present and of kind
PersistentVolumeClaim, no write is sent and the result is `changed = false` with no error.
Otherwise the object takes the resource version of the stored one and one Update is sent
(the writes that follow are those of the next attempts, made only when the Update fails);
when it succeeds, `changed` is true exactly when the stored object as read differs from the
object as the Update returns it. -/
theorem apply_one_attempt (w : World) (graph : GMConnector) (rest : List Tick) (c : Cluster)
    (obj obj1 : K8sObj) (writeFails : Bool)
    (hset : w.setControllerReference graph.Name graph.Namespace obj = .ok obj1) :
    (c.get obj1.apiVersion obj1.kind obj1.ns obj1.name = none →
      (applyResourceToK8s w graph (.attempt false writeFails :: rest) c obj).writes =
          [.create obj1] ∧
        (writeFails = false →
          (applyResourceToK8s w graph (.attempt false writeFails :: rest) c obj).objectChanged =
              false ∧
            (applyResourceToK8s w graph (.attempt false writeFails :: rest) c obj).err = none ∧
            (applyResourceToK8s w graph (.attempt false writeFails :: rest) c obj).cluster =
              c.create obj1)) ∧
    (∀ latest, c.get obj1.apiVersion obj1.kind obj1.ns obj1.name = some latest →
      (obj1.kind = "PersistentVolumeClaim" →
        (applyResourceToK8s w graph (.attempt false writeFails :: rest) c obj).writes = [] ∧
          (applyResourceToK8s w graph (.attempt false writeFails :: rest) c obj).objectChanged =
            false ∧
          (applyResourceToK8s w graph (.attempt false writeFails :: rest) c obj).err = none ∧
          (applyResourceToK8s w graph (.attempt false writeFails :: rest) c obj).cluster = c) ∧
      (obj1.kind ≠ "PersistentVolumeClaim" →
        (applyResourceToK8s w graph (.attempt false writeFails :: rest) c obj).writes =
            .update { obj1 with resourceVersion := latest.resourceVersion } ::
              (if writeFails then
                (applyResourceToK8s w graph rest c
                  { obj1 with resourceVersion := latest.resourceVersion }).writes
              else []) ∧
          (writeFails = false →
            (applyResourceToK8s w graph (.attempt false writeFails :: rest) c obj).err = none ∧
              (applyResourceToK8s w graph (.attempt false writeFails :: rest) c obj).obj =
                storedAfterUpdate latest { obj1 with resourceVersion := latest.resourceVersion } ∧
              (applyResourceToK8s w graph (.attempt false writeFails :: rest) c obj).cluster =
                c.update { obj1 with resourceVersion := latest.resourceVersion } ∧
              ((applyResourceToK8s w graph (.attempt false writeFails :: rest) c obj).objectChanged =
                  true ↔
                latest ≠
                  (applyResourceToK8s w graph (.attempt false writeFails :: rest) c obj).obj)))) := by
  have step : applyResourceToK8s w graph (.attempt false writeFails :: rest) c obj =
      match c.get obj1.apiVersion obj1.kind obj1.ns obj1.name with
      | none =>
        if writeFails then
          { cluster := c, obj := obj1, objectChanged := false, created := false
            writes := [.create obj1]
            err := some "failed to create resource" }
        else
          { cluster := c.create obj1, obj := obj1, objectChanged := false, created := true
            writes := [.create obj1]
            err := none }
      | some latest =>
        if obj1.kind = "PersistentVolumeClaim" then
          { cluster := c, obj := obj1, objectChanged := false, created := false, writes := []
            err := none }
        else if writeFails then
          { applyResourceToK8s w graph rest c
              { obj1 with resourceVersion := latest.resourceVersion } with
            writes := .update { obj1 with resourceVersion := latest.resourceVersion } ::
              (applyResourceToK8s w graph rest c
                { obj1 with resourceVersion := latest.resourceVersion }).writes }
        else
          { cluster := c.update { obj1 with resourceVersion := latest.resourceVersion }
            writes := [.update { obj1 with resourceVersion := latest.resourceVersion }]
            obj := storedAfterUpdate latest { obj1 with resourceVersion := latest.resourceVersion }
            objectChanged := decide (latest ≠
              storedAfterUpdate latest { obj1 with resourceVersion := latest.resourceVersion })
            created := false
            err := none } := by
    rw [applyResourceToK8s, hset]
    simp only [Bool.false_eq_true, if_false]
  rw [step]
  constructor
  · intro hget
    rw [hget]
    cases writeFails with
    | true => exact ⟨rfl, fun hc => absurd hc (by decide)⟩
    | false => exact ⟨rfl, fun _ => ⟨rfl, rfl, rfl⟩⟩
  · intro latest hget
    rw [hget]
    constructor
    · intro hp
      simp only [if_pos hp]
      exact ⟨trivial, trivial, trivial, trivial⟩
    · intro hp
      simp only [if_neg hp]
      cases writeFails with
      | true =>
        simp only [if_true]
        exact ⟨trivial, fun hc => absurd hc (by decide)⟩
      | false =>
        simp only [Bool.false_eq_true, if_false]
        refine ⟨trivial, fun _ => ⟨trivial, trivial, trivial, ?_⟩⟩
        simp

/-- Witness of C15: the Service `emb` submitted for the sample graph on the sample cluster,
where it is stored with another selector: one Update under the stored resource version, and
`changed` is true. -/
theorem apply_one_attempt_witness :
    (applyResourceToK8s sampleWorld (sampleGraph freshStatus) [.attempt false false]
        sampleCluster embService).writes =
      [.update { ownedEmbService with resourceVersion := staleService.resourceVersion }] ∧
    (applyResourceToK8s sampleWorld (sampleGraph freshStatus) [.attempt false false]
        sampleCluster embService).err = none ∧
    (applyResourceToK8s sampleWorld (sampleGraph freshStatus) [.attempt false false]
        sampleCluster embService).objectChanged = true :=
  ⟨(((apply_one_attempt sampleWorld (sampleGraph freshStatus) [] sampleCluster embService
        ownedEmbService false (by decide)).2 staleService (by decide)).2 (by decide)).1,
   ((((apply_one_attempt sampleWorld (sampleGraph freshStatus) [] sampleCluster embService
        ownedEmbService false (by decide)).2 staleService (by decide)).2 (by decide)).2 rfl).1,
   ((((apply_one_attempt sampleWorld (sampleGraph freshStatus) [] sampleCluster embService
        ownedEmbService false (by decide)).2 staleService (by decide)).2
          (by decide)).2 rfl).2.2.2.2 (by decide)⟩

/-- Counterexample to C16: the Service `emb` is absent and the Create of the first attempt
fails; the call returns the error of the Create at once, having sent that one write, although
the attempt of the next tick would have come through. -/
theorem apply_create_failure_counterexample :
    (applyResourceToK8s sampleWorld (sampleGraph freshStatus)
        [.attempt false true, .attempt false false] [] embService).err =
      some "failed to create resource" ∧
    (applyResourceToK8s sampleWorld (sampleGraph freshStatus)
        [.attempt false true, .attempt false false] [] embService).writes =
      [.create ownedEmbService] ∧
    (applyResourceToK8s sampleWorld (sampleGraph freshStatus)
        [.attempt false false] [] embService).err = none := by
  decide

/-- C16, amended: in `applyResourceToK8s`, with the controller reference set on the object,
an attempt whose read fails with an error other than NotFound, and an attempt whose Update
fails, do not end the loop: the call goes on with the next tick, and returns what the
remaining ticks give. An attempt whose Create fails ends the call with the error of the
Create. The call returns no other error than the timeout, the cancellation, the failed
Create and the failure to set the controller reference. -/
theorem apply_retries_read_and_update (w : World) (graph : GMConnector) (rest : List Tick)
    (c : Cluster) (obj obj1 : K8sObj) (writeFails : Bool)
    (hset : w.setControllerReference graph.Name graph.Namespace obj = .ok obj1) :
    applyResourceToK8s w graph (.attempt true writeFails :: rest) c obj =
        applyResourceToK8s w graph rest c obj1 ∧
      (∀ latest, c.get obj1.apiVersion obj1.kind obj1.ns obj1.name = some latest →
        obj1.kind ≠ "PersistentVolumeClaim" →
        (applyResourceToK8s w graph (.attempt false true :: rest) c obj).err =
            (applyResourceToK8s w graph rest c
              { obj1 with resourceVersion := latest.resourceVersion }).err ∧
          (applyResourceToK8s w graph (.attempt false true :: rest) c obj).objectChanged =
            (applyResourceToK8s w graph rest c
              { obj1 with resourceVersion := latest.resourceVersion }).objectChanged ∧
          (applyResourceToK8s w graph (.attempt false true :: rest) c obj).cluster =
            (applyResourceToK8s w graph rest c
              { obj1 with resourceVersion := latest.resourceVersion }).cluster ∧
          (applyResourceToK8s w graph (.attempt false true :: rest) c obj).obj =
            (applyResourceToK8s w graph rest c
              { obj1 with resourceVersion := latest.resourceVersion }).obj) ∧
      (c.get obj1.apiVersion obj1.kind obj1.ns obj1.name = none →
        (applyResourceToK8s w graph (.attempt false true :: rest) c obj).err =
          some "failed to create resource") ∧
      (∀ ticks c0 obj0 e, (applyResourceToK8s w graph ticks c0 obj0).err = some e →
        e = "timed out while trying to update or create resource" ∨ e = "context cancelled" ∨
          e = "failed to create resource" ∨
          ∃ m, e = "failed to set controller reference: " ++ m) := by
  refine ⟨?_, ?_, ?_, fun ticks c0 obj0 e h => applyResourceToK8s_err w graph ticks c0 obj0 e h⟩
  · rw [applyResourceToK8s, hset]
    simp only [if_true]
  · intro latest hget hp
    rw [applyResourceToK8s, hset]
    simp only [Bool.false_eq_true, if_false, hget, if_neg hp, if_true]
    exact ⟨trivial, trivial, trivial, trivial⟩
  · intro hget
    rw [applyResourceToK8s, hset]
    simp only [Bool.false_eq_true, if_false, hget, if_true]

/-- Witness of C16, amended: the Service `emb`, stored with another selector; the read of the
first attempt fails and the attempt of the next tick comes through. -/
theorem apply_retries_read_and_update_witness :
    applyResourceToK8s sampleWorld (sampleGraph freshStatus)
        [.attempt true false, .attempt false false] sampleCluster embService =
      applyResourceToK8s sampleWorld (sampleGraph freshStatus)
        [.attempt false false] sampleCluster ownedEmbService ∧
    (applyResourceToK8s sampleWorld (sampleGraph freshStatus)
        [.attempt true false, .attempt false true, .attempt false false] sampleCluster
        embService).err = none :=
  ⟨(apply_retries_read_and_update sampleWorld (sampleGraph freshStatus) [.attempt false false]
      sampleCluster embService ownedEmbService false (by decide)).1, by decide⟩

/-- Counterexample to C17: on a graph that stores a node with a step under the empty name,
a Service recorded as the router Service (empty node name, index 0) is recorded as the
Service of that step: the value is the URL followed by the endpoint setting of the step, the
step gets it as `ServiceURL`, and the access URL stays empty. -/
theorem record_router_service_counterexample :
    (recordResource emptyNameGraph "" 0 staleService).map (fun g => g.Status.AccessURL) =
      .ok "" ∧
    (recordResource emptyNameGraph "" 0 staleService).map
        (fun g => mapLookup g.Status.Annotations (resourceKey staleService)) =
      .ok (some "http://emb.rag.svc:6000/v1/embeddings") ∧
    (recordResource emptyNameGraph "" 0 staleService).map
        (fun g => (stepAt g.Spec.Nodes "" 0).map (fun s => s.ServiceURL)) =
      .ok (some "http://emb.rag.svc:6000/v1/embeddings") ∧
    getServiceURL staleService = "http://emb.rag.svc:6000" := by
  decide

/-- C17, amended: the value `recordResource` stores under the provenance key of the object.
For an object that is not a Service it is `provisioned`, and no other annotation entry, no step and
neither the access URL nor the status string changes. For a Service recorded for the step at
`stepIdx` of node `nodeName` it is `getServiceURL(service)` followed by the `endpoint`
setting of the step, and that step gets the same string as its `ServiceURL`, no other step
changing. For the Service of the router, recorded under the empty node name on a graph that
stores no steps under that name, it is `getServiceURL(service)`, which also becomes the
access URL. For a ClusterIP Service with a port, `getServiceURL` is
`http://<name>.<namespace>.svc:<first port>`. -/
theorem record_resource_value (graph : GMConnector) (nodeName : String) (stepIdx : Nat)
    (obj : K8sObj) :
    (obj.kind ≠ Service →
      ∃ g, recordResource graph nodeName stepIdx obj = .ok g ∧
        mapLookup g.Status.Annotations (resourceKey obj) = some "provisioned" ∧
        (∀ k, k ≠ resourceKey obj →
          mapLookup g.Status.Annotations k = mapLookup graph.Status.Annotations k) ∧
        g.Spec = graph.Spec ∧ g.Status.AccessURL = graph.Status.AccessURL ∧
        g.Status.Status = graph.Status.Status) ∧
    (obj.kind = Service → ∀ step, stepAt graph.Spec.Nodes nodeName stepIdx = some step →
      ∃ g, recordResource graph nodeName stepIdx obj = .ok g ∧
        mapLookup g.Status.Annotations (resourceKey obj) =
          some (getServiceURL obj ++ mapGet step.InternalService.Config "endpoint") ∧
        (∀ k, k ≠ resourceKey obj →
          mapLookup g.Status.Annotations k = mapLookup graph.Status.Annotations k) ∧
        stepAt g.Spec.Nodes nodeName stepIdx =
          some { step with
            ServiceURL := getServiceURL obj ++ mapGet step.InternalService.Config "endpoint" } ∧
        (∀ n j, ¬ (n = nodeName ∧ j = stepIdx) →
          stepAt g.Spec.Nodes n j = stepAt graph.Spec.Nodes n j) ∧
        g.Status.AccessURL = graph.Status.AccessURL) ∧
    (obj.kind = Service → nodeName = "" → (nodeLookup graph.Spec.Nodes "").Steps = [] →
      ∃ g, recordResource graph nodeName stepIdx obj = .ok g ∧
        mapLookup g.Status.Annotations (resourceKey obj) = some (getServiceURL obj) ∧
        (∀ k, k ≠ resourceKey obj →
          mapLookup g.Status.Annotations k = mapLookup graph.Status.Annotations k) ∧
        g.Status.AccessURL = getServiceURL obj ∧ g.Spec = graph.Spec) ∧
    (obj.serviceType = "ClusterIP" → ∀ p ps, obj.ports = p :: ps →
      getServiceURL obj =
        "http://" ++ obj.name ++ "." ++ obj.ns ++ ".svc:" ++ fmtInt p.port) := by
  refine ⟨?_, ?_, ?_, ?_⟩
  · intro hk
    have hrec : recordResource graph nodeName stepIdx obj =
        .ok { graph with Status := { graph.Status with
          Annotations := mapSet graph.Status.Annotations (resourceKey obj) "provisioned" } } := by
      unfold recordResource
      rw [if_neg hk]
    refine ⟨_, hrec, ?_, ?_, rfl, rfl, rfl⟩
    · exact mapLookup_mapSet_self _ _ _
    · intro k hne
      exact mapLookup_mapSet_other _ _ _ k hne
  · intro hk step hstep
    have hsteps : (nodeLookup graph.Spec.Nodes nodeName).Steps.length ≠ 0 := by
      intro h0
      unfold stepAt at hstep
      rw [List.length_eq_zero.mp h0] at hstep
      simp at hstep
    have hnodes : graph.Spec.Nodes.length ≠ 0 := by
      intro h0
      rw [List.length_eq_zero.mp h0] at hsteps
      exact hsteps rfl
    have hstep2 : (nodeLookup graph.Spec.Nodes nodeName).Steps[stepIdx]? = some step := hstep
    have hrec : recordResource graph nodeName stepIdx obj =
        .ok { graph with
          Spec := { graph.Spec with
            Nodes := setNodeStepURL graph.Spec.Nodes nodeName stepIdx
                (getServiceURL obj ++ mapGet step.InternalService.Config "endpoint") }
          Status := { graph.Status with
            Annotations := mapSet
                (mapSet graph.Status.Annotations (resourceKey obj) "provisioned")
                (resourceKey obj)
                (getServiceURL obj ++ mapGet step.InternalService.Config "endpoint") } } := by
      unfold recordResource
      rw [if_pos hk, if_pos ⟨hnodes, hsteps⟩, hstep2]
    refine ⟨_, hrec, ?_, ?_, ?_, ?_, rfl⟩
    · exact mapLookup_mapSet_self _ _ _
    · intro k hne
      show mapLookup (mapSet (mapSet _ _ _) _ _) k = _
      rw [mapLookup_mapSet_other _ _ _ k hne, mapLookup_mapSet_other _ _ _ k hne]
    · show stepAt (setNodeStepURL _ _ _ _) _ _ = _
      rw [stepAt_setNodeStepURL, if_pos ⟨rfl, rfl⟩, hstep]
      rfl
    · intro n j hnj
      show stepAt (setNodeStepURL _ _ _ _) _ _ = _
      rw [stepAt_setNodeStepURL, if_neg hnj]
  · intro hk hn hempty
    subst hn
    have hcond : ¬ (graph.Spec.Nodes.length ≠ 0 ∧
        (nodeLookup graph.Spec.Nodes "").Steps.length ≠ 0) := by
      intro hc
      rw [hempty] at hc
      exact hc.2 rfl
    have hrec : recordResource graph "" stepIdx obj =
        .ok { graph with Status := { graph.Status with
          Annotations := mapSet
              (mapSet graph.Status.Annotations (resourceKey obj) "provisioned")
              (resourceKey obj) (getServiceURL obj)
          AccessURL := getServiceURL obj } } := by
      unfold recordResource
      rw [if_pos hk, if_neg hcond]
    refine ⟨_, hrec, ?_, ?_, rfl, rfl⟩
    · exact mapLookup_mapSet_self _ _ _
    · intro k hne
      show mapLookup (mapSet (mapSet _ _ _) _ _) k = _
      rw [mapLookup_mapSet_other _ _ _ k hne, mapLookup_mapSet_other _ _ _ k hne]
  · intro ht p ps hp
    unfold getServiceURL
    rw [if_pos ht, hp]

/-- Witness of C17, amended: the Service `emb` recorded for the step of a graph whose step sets
the endpoint `/v1/embeddings`, the same Service recorded as the router Service of the sample
graph, and the router Deployment recorded on the sample graph. -/
theorem record_resource_value_witness :
    (∃ g, recordResource endpointGraph "root" 0 staleService = .ok g ∧
      mapLookup g.Status.Annotations (resourceKey staleService) =
        some ("http://emb.rag.svc:6000" ++ "/v1/embeddings") ∧
      (stepAt g.Spec.Nodes "root" 0).map (fun s => s.ServiceURL) =
        some ("http://emb.rag.svc:6000" ++ "/v1/embeddings") ∧
      g.Status.AccessURL = "") ∧
    (∃ g, recordResource (sampleGraph freshStatus) "" 0 staleService = .ok g ∧
      mapLookup g.Status.Annotations (resourceKey staleService) = some "http://emb.rag.svc:6000" ∧
      g.Status.AccessURL = "http://emb.rag.svc:6000") ∧
    (∃ g, recordResource (sampleGraph freshStatus) "" 0 sampleRouterDoc = .ok g ∧
      mapLookup g.Status.Annotations (resourceKey sampleRouterDoc) = some "provisioned" ∧
      g.Spec = (sampleGraph freshStatus).Spec ∧ g.Status.AccessURL = "") := by
  refine ⟨?_, ?_, ?_⟩
  · obtain ⟨g, h1, h2, -, h4, -, h6⟩ :=
      (record_resource_value endpointGraph "root" 0 staleService).2.1 (by decide)
        { embStep with
          InternalService := { NameSpace := "", ServiceName := "emb"
                               Config := [("endpoint", "/v1/embeddings")]
                               IsDownstreamService := false } } (by decide)
    refine ⟨g, h1, ?_, ?_, h6⟩
    · rw [h2]; decide
    · rw [h4]; decide
  · obtain ⟨g, h1, h2, -, h4, -⟩ :=
      (record_resource_value (sampleGraph freshStatus) "" 0 staleService).2.2.1 (by decide) rfl
        (by decide)
    refine ⟨g, h1, ?_, ?_⟩
    · rw [h2]; decide
    · rw [h4]; decide
  · obtain ⟨g, h1, h2, -, h4, h5, -⟩ :=
      (record_resource_value (sampleGraph freshStatus) "" 0 sampleRouterDoc).1 (by decide)
    exact ⟨g, h1, h2, h4, h5⟩

/-- C18: for a graph whose pass succeeds (its nodes stored under names that differ), the
middle field of the status string is the number of steps, over all nodes, with an empty
`NodeName` and a non-empty `ExternalService`. The loop over the nodes completes with that
count, leaving each such step with its `ExternalService` as `ServiceURL` and each step with a
non-empty `NodeName` as it was. The loop body sends nothing to the cluster for a step that
names an external service, and does nothing at all for a step that names a node. -/
theorem external_steps_counted (w : World) (sched : Nat → List Tick) (c : Cluster)
    (graph : GMConnector)
    (hnd : (graph.Spec.Nodes.map Prod.fst).Nodup)
    (hdone : (reconcileGraph w sched c graph).stage = .done) :
    splitField (reconcileGraph w sched c graph).graph.Status.Status "/" 1 =
        .ok (fmtNat (countExternal graph.Spec.Nodes)) ∧
    (∃ st, reconcileNodes w sched graph.Spec.Nodes
          { graph := clearAnnotations graph, externalService := 0
            sys := { cluster := c, calls := 0, applied := [], deleted := [] } } = (st, none) ∧
      st.externalService = countExternal graph.Spec.Nodes ∧
      ∀ n node i step, (n, node) ∈ graph.Spec.Nodes → node.Steps[i]? = some step →
        (step.NodeName = "" → step.ExternalService ≠ "" →
          stepAt st.graph.Spec.Nodes n i =
            some { step with ServiceURL := step.ExternalService }) ∧
        (step.NodeName ≠ "" → stepAt st.graph.Spec.Nodes n i = some step)) ∧
    (∀ n node i step st, step.NodeName = "" → step.ExternalService ≠ "" →
      reconcileStep w sched n node i step st =
        ({ st with
            graph := setExternalURL st.graph n i step.ExternalService
            externalService := st.externalService + 1 }, none)) ∧
    (∀ n node i step st, step.NodeName ≠ "" →
      reconcileStep w sched n node i step st = (st, none)) := by
  obtain ⟨st, st2, sys, h1, h2, h3, h4, h5⟩ := reconcileGraph_done w sched c graph hdone
  obtain ⟨_, hc, hu⟩ := reconcileNodes_steps w sched graph.Spec.Nodes _ st hnd h1
  simp only [Nat.zero_add] at hc
  have hext : ∀ step : Step, step.NodeName = "" → step.ExternalService ≠ "" →
      isExternalStep step = true := by
    intro step hn he
    simp only [isExternalStep, Bool.and_eq_true, decide_eq_true_eq]
    exact ⟨hn, he⟩
  refine ⟨?_, ⟨st, h1, hc, ?_⟩, ?_, ?_⟩
  · rw [h5]
    have he2 : st2.externalService = countExternal graph.Spec.Nodes := by
      have := reconcileRouterService_external w sched st
      rw [h2] at this
      simp only at this
      rw [this, hc]
    rw [← he2]
    exact collect_middle_of_success w sys.cluster _ (fmtNat 0) (fmtNat 0) st2.externalService
      (fmtNat_no_slash 0) rfl h4
  · intro n node i step hm hstep
    have h0 : stepAt (clearAnnotations graph).Spec.Nodes n i = some step := by
      show (nodeLookup graph.Spec.Nodes n).Steps[i]? = some step
      rw [nodeLookup_of_mem graph.Spec.Nodes n node hnd hm]
      exact hstep
    obtain ⟨ux, un⟩ := hu n node i step hm hstep
    refine ⟨fun hn he => ?_, fun hn => ?_⟩
    · rw [ux (hext step hn he), h0]
      rfl
    · rw [un hn, h0]
  · intro n node i step st hn he
    exact reconcileStep_external w sched n node i step st (hext step hn he)
  · intro n node i step st hn
    exact reconcileStep_nested w sched n node i step st hn

/-- Witness of C18: a graph with two external steps, one in each of its two nodes, next to a
step with an internal service and a step that names a node, on the sample cluster. -/
theorem external_steps_counted_witness :
    splitField (reconcileGraph sampleWorld promptly sampleCluster externalGraph).graph.Status.Status
        "/" 1 = .ok (fmtNat (countExternal externalGraph.Spec.Nodes)) ∧
    countExternal externalGraph.Spec.Nodes = 2 ∧
    ((reconcileNodes sampleWorld promptly externalGraph.Spec.Nodes externalPass0).1.graph.Spec.Nodes.map
        (fun p => (p.1, p.2.Steps.map (fun s => s.ServiceURL)))) =
      [("root", ["http://emb.rag.svc:6000", "http://llm.example.com", ""]),
       ("sub", ["http://rerank.example.com"])] :=
  ⟨(external_steps_counted sampleWorld promptly sampleCluster externalGraph (by decide)
      (by decide)).1, by decide, by decide⟩

/-- C19: `reconcileRouterService`, once the graph spec is serialized and the router template
read, executes the template with `Namespace` the namespace of the router configuration if not
empty and else the namespace of the graph, with `SvcName` the service name of the router
configuration if not empty and else `router-service`, and with `DplymntName` that `SvcName`
followed by `-deployment`; the documents of the result are then applied. -/
theorem router_template_substitution (w : World) (sched : Nat → List Tick) (st : Pass)
    (jsonString templateBytes : String)
    (hm : w.marshal st.graph.Spec = .ok jsonString)
    (ht : getTemplateBytes w st.sys.cluster Router_ = .ok templateBytes) :
    ∃ cfg : RouterCfg,
      cfg.Namespace = (if st.graph.Spec.RouterConfig.NameSpace ≠ "" then
        st.graph.Spec.RouterConfig.NameSpace else st.graph.Namespace) ∧
      cfg.SvcName = (if st.graph.Spec.RouterConfig.ServiceName ≠ "" then
        st.graph.Spec.RouterConfig.ServiceName else "router-service") ∧
      cfg.DplymntName = cfg.SvcName ++ "-deployment" ∧
      applyRouterConfigToTemplates w Router_ (routerSettings st.graph jsonString) templateBytes =
        w.executeTemplate templateBytes cfg ∧
      reconcileRouterService w sched st =
        match w.executeTemplate templateBytes cfg with
        | .error e => (st, some (.error e))
        | .ok appliedCfg => routerDocs w sched (stringsSplit appliedCfg "---") st := by
  refine ⟨_, rfl, rfl, rfl, router_template_values w st.graph jsonString templateBytes, ?_⟩
  unfold reconcileRouterService
  rw [hm, ht]
  simp only
  rw [router_template_values]

/-- Witness of C19: the sample graph, whose router configuration names neither namespace nor
service, and the same graph with namespace `edge` and service `gateway`. -/
theorem router_template_substitution_witness :
    (∃ cfg : RouterCfg,
      cfg.Namespace = (if routerPass.graph.Spec.RouterConfig.NameSpace ≠ "" then
        routerPass.graph.Spec.RouterConfig.NameSpace else routerPass.graph.Namespace) ∧
      cfg.SvcName = (if routerPass.graph.Spec.RouterConfig.ServiceName ≠ "" then
        routerPass.graph.Spec.RouterConfig.ServiceName else "router-service") ∧
      cfg.DplymntName = cfg.SvcName ++ "-deployment" ∧
      applyRouterConfigToTemplates sampleWorld Router_ (routerSettings routerPass.graph "{}")
          "kind: Deployment # router" =
        sampleWorld.executeTemplate "kind: Deployment # router" cfg ∧
      reconcileRouterService sampleWorld promptly routerPass =
        match sampleWorld.executeTemplate "kind: Deployment # router" cfg with
        | .error e => (routerPass, some (.error e))
        | .ok appliedCfg =>
          routerDocs sampleWorld promptly (stringsSplit appliedCfg "---") routerPass) ∧
    (mapGet (routerSettings (sampleGraph freshStatus) "{}") "namespace",
      mapGet (routerSettings (sampleGraph freshStatus) "{}") "svcName",
      mapGet (routerSettings (sampleGraph freshStatus) "{}") "dplymntName") =
      ("rag", "router-service", "router-service-deployment") ∧
    (mapGet (routerSettings namedRouterGraph "{}") "namespace",
      mapGet (routerSettings namedRouterGraph "{}") "svcName",
      mapGet (routerSettings namedRouterGraph "{}") "dplymntName") =
      ("edge", "gateway", "gateway-deployment") :=
  ⟨router_template_substitution sampleWorld promptly routerPass "{}"
      "kind: Deployment # router" (by decide) (by decide),
   by decide, by decide⟩

/-- C20: for a serialized graph spec `j`, the `GRAPH_JSON` value `reconcileRouterService` hands
to the router template is `'` + e + `'`, where e is `j` with a backslash put before each
single quote. In e a backslash stands right before every single quote, and replacing each
backslash-quote pair of e by a single quote, left to right, gives `j` back, whatever quotes
and backslashes `j` holds; so two specs with the same e are the same. -/
theorem graph_json_escaping (w : World) (graph : GMConnector) (j yamlFile : String) :
    (∃ cfg : RouterCfg,
      applyRouterConfigToTemplates w Router_ (routerSettings graph j) yamlFile =
        w.executeTemplate yamlFile cfg ∧
      cfg.GRAPH_JSON = "'" ++ String.mk (escapeQuotes j.data) ++ "'") ∧
    (∀ i : Nat, (escapeQuotes j.data)[i]? = some '\'' →
      ∃ k, i = k + 1 ∧ (escapeQuotes j.data)[k]? = some '\\') ∧
    String.mk (unescapeQuotes (escapeQuotes j.data)) = j ∧
    (∀ j2 : String, escapeQuotes j.data = escapeQuotes j2.data → j = j2) := by
  refine ⟨⟨_, router_template_values w graph j yamlFile, rfl⟩,
    fun i h => escapeQuotes_preceded j.data i h, ?_, ?_⟩
  · rw [unescape_escape]
  · intro j2 h
    have h2 := congrArg unescapeQuotes h
    rw [unescape_escape, unescape_escape] at h2
    exact String.ext h2

/-- Witness of C20: a text with a single quote and with a backslash before a single quote. -/
theorem graph_json_escaping_witness :
    String.mk (escapeQuotes "it's \\'x".data) = "it\\'s \\\\'x" ∧
    (∃ k, 8 = k + 1 ∧ (escapeQuotes "it's \\'x".data)[k]? = some '\\') ∧
    String.mk (unescapeQuotes (escapeQuotes "it's \\'x".data)) = "it's \\'x" :=
  ⟨by decide,
   (graph_json_escaping sampleWorld (sampleGraph freshStatus) "it's \\'x" "").2.1 8 (by decide),
   (graph_json_escaping sampleWorld (sampleGraph freshStatus) "it's \\'x" "").2.2.1⟩

/-- Counterexample to C21: the kind `Embedding` is registered and its static file can be read,
but the cluster holds no override store; `getTemplateBytes` fails and the static file is not
used. It fails as well, store or no store, when `gmcNs` is empty and the kubeconfig gives no
namespace. -/
theorem template_fallback_counterexample :
    mapLookup yamlDict "Embedding" = some "/tmp/microservices/yamls/embedding-usvc.yaml" ∧
    sampleWorld.readFile "/tmp/microservices/yamls/embedding-usvc.yaml" =
      .ok "kind: Service---kind: Deployment" ∧
    getTemplateBytes sampleWorld [] "Embedding" = .error "not found" ∧
    getTemplateBytes { sampleWorld with gmcNs := "", kubeconfigNamespace := .error "no context" }
      sampleCluster "Embedding" = .error "no context" := by
  decide

/-- C21, amended: with the namespace of the override store resolved, `getTemplateBytes`
answers as follows. If the store is read: for a kind registered in the table, an entry of the
store under the base filename (the table path without the `/tmp/microservices/yamls/` prefix)
is the result, whatever the static file holds, and without such an entry the result is what
reading the static file gives; for a kind that is not registered the call fails. If the store
is not found the call fails for every kind, and the static file is not used. -/
theorem template_resolution (w : World) (c : Cluster) (kind ns : String)
    (hns : (if w.gmcNs = "" then w.kubeconfigNamespace else .ok w.gmcNs) = .ok ns) :
    (∀ store, c.get "v1" "ConfigMap" ns w.GMCConfigMapName = some store →
      (∀ path, mapLookup yamlDict kind = some path →
        (∀ bytes, mapLookup store.data (stringsTrimPrefix path "/tmp/microservices/yamls/") =
            some bytes →
          getTemplateBytes w c kind = .ok bytes) ∧
        (mapLookup store.data (stringsTrimPrefix path "/tmp/microservices/yamls/") = none →
          getTemplateBytes w c kind = w.readFile path)) ∧
      (mapLookup yamlDict kind = none →
        getTemplateBytes w c kind = .error "unexpected target")) ∧
    (c.get "v1" "ConfigMap" ns w.GMCConfigMapName = none →
      getTemplateBytes w c kind = .error "not found") := by
  constructor
  · intro store hstore
    constructor
    · intro path hpath
      have hne : path ≠ "" := yamlDict_path_ne path kind hpath
      have hl : lookupManifestDir kind = path := by
        unfold lookupManifestDir
        rw [hpath]
      constructor
      · intro bytes hb
        unfold getTemplateBytes
        rw [hns]
        simp only [hstore, hl, if_neg hne]
        have hb2 : mapLookup store.data (stringsTrimPrefix path yaml_dir) = some bytes := hb
        rw [hb2]
      · intro hb
        unfold getTemplateBytes
        rw [hns]
        simp only [hstore, hl, if_neg hne]
        have hb2 : mapLookup store.data (stringsTrimPrefix path yaml_dir) = none := hb
        rw [hb2]
    · intro hnone
      have hl : lookupManifestDir kind = "" := by
        unfold lookupManifestDir
        rw [hnone]
      unfold getTemplateBytes
      rw [hns]
      simp only [hstore, hl, if_true]
  · intro hstore
    unfold getTemplateBytes
    rw [hns]
    simp only [hstore]

/-- Witness of C21, amended: the kind `Embedding` on the sample cluster, whose override store
holds its manifest, and on a cluster whose store is empty. -/
theorem template_resolution_witness :
    getTemplateBytes sampleWorld sampleCluster "Embedding" =
      .ok "kind: Service---kind: Deployment" ∧
    getTemplateBytes sampleWorld [{ sampleOverrideStore with data := [] }] "Embedding" =
      sampleWorld.readFile "/tmp/microservices/yamls/embedding-usvc.yaml" ∧
    getTemplateBytes sampleWorld sampleCluster "NoSuchKind" = .error "unexpected target" :=
  ⟨(((template_resolution sampleWorld sampleCluster "Embedding" "system" (by decide)).1
      sampleOverrideStore (by decide)).1 "/tmp/microservices/yamls/embedding-usvc.yaml"
      (by decide)).1 "kind: Service---kind: Deployment" (by decide),
   (((template_resolution sampleWorld [{ sampleOverrideStore with data := [] }] "Embedding"
      "system" (by decide)).1 { sampleOverrideStore with data := [] } (by decide)).1
      "/tmp/microservices/yamls/embedding-usvc.yaml" (by decide)).2 (by decide),
   ((template_resolution sampleWorld sampleCluster "NoSuchKind" "system" (by decide)).1
      sampleOverrideStore (by decide)).2 (by decide)⟩

/-- C22: for an update event whose old and new objects are both graphs,
`isGMCSpecOrMetadataChanged` returns true exactly when the Specs are not deeply equal or one of
the metadata fields Name, Namespace, Labels, DeletionTimestamp differs. It returns false when
the Spec and these four fields are the same, whatever the Status, the annotations, the
resource version and the generation are; and `isMetadataChanged(m, m)` is false for every
metadata `m`, nil included. -/
theorem graph_update_filter (oldObject newObject : WatchedGraph) (m : Option ObjectMeta) :
    (isGMCSpecOrMetadataChanged
        { ObjectOld := .gmConnector oldObject, ObjectNew := .gmConnector newObject } = true ↔
      (specDeepEqual oldObject.Spec newObject.Spec = false ∨
        oldObject.ObjectMeta.Name ≠ newObject.ObjectMeta.Name ∨
        oldObject.ObjectMeta.Namespace ≠ newObject.ObjectMeta.Namespace ∨
        optMapDeepEqual oldObject.ObjectMeta.Labels newObject.ObjectMeta.Labels = false ∨
        oldObject.ObjectMeta.DeletionTimestamp ≠ newObject.ObjectMeta.DeletionTimestamp)) ∧
    (oldObject.Spec = newObject.Spec →
      oldObject.ObjectMeta.Name = newObject.ObjectMeta.Name →
      oldObject.ObjectMeta.Namespace = newObject.ObjectMeta.Namespace →
      oldObject.ObjectMeta.Labels = newObject.ObjectMeta.Labels →
      oldObject.ObjectMeta.DeletionTimestamp = newObject.ObjectMeta.DeletionTimestamp →
      isGMCSpecOrMetadataChanged
        { ObjectOld := .gmConnector oldObject, ObjectNew := .gmConnector newObject } = false) ∧
    isMetadataChanged m m = false := by
  have hiff : isGMCSpecOrMetadataChanged
        { ObjectOld := .gmConnector oldObject, ObjectNew := .gmConnector newObject } = true ↔
      (specDeepEqual oldObject.Spec newObject.Spec = false ∨
        oldObject.ObjectMeta.Name ≠ newObject.ObjectMeta.Name ∨
        oldObject.ObjectMeta.Namespace ≠ newObject.ObjectMeta.Namespace ∨
        optMapDeepEqual oldObject.ObjectMeta.Labels newObject.ObjectMeta.Labels = false ∨
        oldObject.ObjectMeta.DeletionTimestamp ≠ newObject.ObjectMeta.DeletionTimestamp) := by
    simp only [isGMCSpecOrMetadataChanged, isMetadataChanged, Bool.or_eq_true,
      Bool.not_eq_true']
    by_cases h1 : oldObject.ObjectMeta.Name ≠ newObject.ObjectMeta.Name
    · simp [h1]
    · by_cases h2 : oldObject.ObjectMeta.Namespace ≠ newObject.ObjectMeta.Namespace
      · simp [h1, h2]
      · by_cases h3 : optMapDeepEqual oldObject.ObjectMeta.Labels
            newObject.ObjectMeta.Labels = false
        · simp [h1, h2, h3]
        · by_cases h4 : oldObject.ObjectMeta.DeletionTimestamp ≠
              newObject.ObjectMeta.DeletionTimestamp
          · simp [h1, h2, h3, h4]
          · simp [h1, h2, h3, h4]
  refine ⟨hiff, ?_, ?_⟩
  · intro hs hn hns hl hd
    cases hr : isGMCSpecOrMetadataChanged
        { ObjectOld := .gmConnector oldObject, ObjectNew := .gmConnector newObject } with
    | false => rfl
    | true =>
      rcases hiff.mp hr with h | h | h | h | h
      · rw [hs, specDeepEqual_refl] at h
        cases h
      · exact absurd hn h
      · exact absurd hns h
      · rw [hl, optMapDeepEqual_refl] at h
        cases h
      · exact absurd hd h
  · cases m with
    | none => rfl
    | some om => simp [isMetadataChanged, optMapDeepEqual_refl]

/-- Witness of C22: the sample graph before and after a status write that also changes an
annotation, the resource version and the generation. -/
theorem graph_update_filter_witness :
    isGMCSpecOrMetadataChanged
      { ObjectOld := .gmConnector watchedSample
        ObjectNew := .gmConnector watchedSampleAfterStatus } = false ∧
    isGMCSpecOrMetadataChanged
      { ObjectOld := .gmConnector watchedSample
        ObjectNew := .gmConnector { watchedSample with
          ObjectMeta := { sampleMeta with Labels := some [] } } } = true :=
  ⟨(graph_update_filter watchedSample watchedSampleAfterStatus none).2.1 rfl rfl rfl rfl rfl,
   (graph_update_filter watchedSample
      { watchedSample with ObjectMeta := { sampleMeta with Labels := some [] } } none).1.mpr
      (Or.inr (Or.inr (Or.inr (Or.inl (by decide)))))⟩

/-- C23: for an update event between two Deployments whose new object has an owner reference,
`isDeploymentStatusChanged` returns true exactly when one of the two Deployments, and not the
other, has the Available status `True`, the Available status being that of the last condition
of type Available and `Unknown` without one. So an update that leaves the Available status as
it was, and an update between two statuses other than `True`, do not pass. -/
theorem deployment_update_filter (oldDeployment newDeployment : K8sObj)
    (howner : newDeployment.ownerReferences ≠ []) :
    (isDeploymentStatusChanged
        { ObjectOld := .deployment oldDeployment, ObjectNew := .deployment newDeployment } = true ↔
      ((lastAvailable oldDeployment.status.conditions = "True" ∧
          lastAvailable newDeployment.status.conditions ≠ "True") ∨
        (lastAvailable oldDeployment.status.conditions ≠ "True" ∧
          lastAvailable newDeployment.status.conditions = "True"))) ∧
    (lastAvailable oldDeployment.status.conditions =
        lastAvailable newDeployment.status.conditions →
      isDeploymentStatusChanged
        { ObjectOld := .deployment oldDeployment, ObjectNew := .deployment newDeployment } =
          false) ∧
    (lastAvailable oldDeployment.status.conditions ≠ "True" →
      lastAvailable newDeployment.status.conditions ≠ "True" →
      isDeploymentStatusChanged
        { ObjectOld := .deployment oldDeployment, ObjectNew := .deployment newDeployment } =
          false) := by
  have hlen : ¬ newDeployment.ownerReferences.length = 0 := by
    intro h
    exact howner (List.length_eq_zero.mp h)
  have hiff : isDeploymentStatusChanged
        { ObjectOld := .deployment oldDeployment, ObjectNew := .deployment newDeployment } = true ↔
      ((lastAvailable oldDeployment.status.conditions = "True" ∧
          lastAvailable newDeployment.status.conditions ≠ "True") ∨
        (lastAvailable oldDeployment.status.conditions ≠ "True" ∧
          lastAvailable newDeployment.status.conditions = "True")) := by
    simp only [isDeploymentStatusChanged, if_neg hlen, availableLoop_last]
    by_cases hs : oldDeployment.status = newDeployment.status
    · rw [hs]
      simp
    · simp only [ne_eq, hs, not_false_eq_true, if_true]
      by_cases ho : lastAvailable oldDeployment.status.conditions = "True"
      · by_cases hn : lastAvailable newDeployment.status.conditions = "True"
        · simp [ho, hn]
        · have hne : ¬ "True" = lastAvailable newDeployment.status.conditions :=
            fun h => hn h.symm
          simp [ho, hn, hne]
      · by_cases hn : lastAvailable newDeployment.status.conditions = "True"
        · simp [ho, hn]
        · simp [ho, hn]
  refine ⟨hiff, ?_, ?_⟩
  · intro heq
    cases hr : isDeploymentStatusChanged
        { ObjectOld := .deployment oldDeployment, ObjectNew := .deployment newDeployment } with
    | false => rfl
    | true =>
      rcases hiff.mp hr with ⟨h1, h2⟩ | ⟨h1, h2⟩
      · rw [heq] at h1
        exact absurd h1 h2
      · rw [heq] at h1
        exact absurd h2 h1
  · intro ho hn
    cases hr : isDeploymentStatusChanged
        { ObjectOld := .deployment oldDeployment, ObjectNew := .deployment newDeployment } with
    | false => rfl
    | true =>
      rcases hiff.mp hr with ⟨h1, _⟩ | ⟨_, h2⟩
      · exact absurd h1 ho
      · exact absurd h2 hn

/-- Witness of C23: a Deployment owned by graph `chatqa` that becomes available, and the same
Deployment going from `False` to `Unknown`. -/
theorem deployment_update_filter_witness :
    isDeploymentStatusChanged
      { ObjectOld := .deployment (ownedDeployment [{ kind := "GMConnector", name := "chatqa" }] "False")
        ObjectNew := .deployment (ownedDeployment [{ kind := "GMConnector", name := "chatqa" }] "True") } =
      true ∧
    isDeploymentStatusChanged
      { ObjectOld := .deployment (ownedDeployment [{ kind := "GMConnector", name := "chatqa" }] "False")
        ObjectNew := .deployment (ownedDeployment [{ kind := "GMConnector", name := "chatqa" }] "Unknown") } =
      false :=
  ⟨(deployment_update_filter (ownedDeployment [{ kind := "GMConnector", name := "chatqa" }] "False")
      (ownedDeployment [{ kind := "GMConnector", name := "chatqa" }] "True") (by decide)).1.mpr
      (Or.inr ⟨by decide, by decide⟩),
   (deployment_update_filter (ownedDeployment [{ kind := "GMConnector", name := "chatqa" }] "False")
      (ownedDeployment [{ kind := "GMConnector", name := "chatqa" }] "Unknown") (by decide)).2.2
      (by decide) (by decide)⟩

/-- C24: a Deployment owned by an object of another kind than GMConnector, which becomes
available: the loop over its owner references finds no GMConnector, and
`isDeploymentStatusChanged` lets the update through all the same. -/
theorem deployment_filter_foreign_owner :
    ownerLoop (ownedDeployment [{ kind := "Rollout", name := "canary" }] "True").ownerReferences =
      false ∧
    (ownedDeployment [{ kind := "Rollout", name := "canary" }] "True").ownerReferences.map
      (fun owner => owner.kind) = ["Rollout"] ∧
    isDeploymentStatusChanged
      { ObjectOld := .deployment (ownedDeployment [{ kind := "Rollout", name := "canary" }] "False")
        ObjectNew := .deployment (ownedDeployment [{ kind := "Rollout", name := "canary" }] "True") } =
      true := by
  decide

end GMC

namespace Balloons

/-! ## Facts about the webhook -/

/-- A call of `Handle` that gets to mutate the pod, spelled out. -/
theorem Handle_mutating (env : Env) (json : Json) (decode : Request → Except String Pod)
    (client : Client) (req : Request) (pod : Pod)
    (hdec : decode req = .ok pod)
    (htarget : getEnv env "TARGET_CONTAINER_NAME" "" ≠ "")
    (hcontains : containsTargetContainer pod (getEnv env "TARGET_CONTAINER_NAME" "") = true)
    (hinit : hasInitContainer env pod = false) :
    Handle env json (some decode) client req =
      match json.marshal { pod with
          ServiceAccountName := (configureServiceAccount env client pod).1
          InitContainers := createInitContainer env :: pod.InitContainers } with
      | .error err =>
        { response := Errored 500 err
          pod := some { pod with
            ServiceAccountName := (configureServiceAccount env client pod).1
            InitContainers := createInitContainer env :: pod.InitContainers }
          client := (configureServiceAccount env client pod).2.1
          logged := (configureServiceAccount env client pod).2.2 }
      | .ok marshaledPod =>
        { response := PatchResponseFromRaw json req.Raw marshaledPod
          pod := some { pod with
            ServiceAccountName := (configureServiceAccount env client pod).1
            InitContainers := createInitContainer env :: pod.InitContainers }
          client := (configureServiceAccount env client pod).2.1
          logged := (configureServiceAccount env client pod).2.2 } := by
  unfold Handle
  simp only [hdec, if_neg htarget, hcontains, hinit, Bool.not_true, Bool.false_eq_true, if_false]

/-- A call of `Handle` that does not get to mutate the pod answers without patches, hands no
pod to `json.Marshal` and makes no call to the API server. -/
theorem Handle_skipping (env : Env) (json : Json) (decoder : Option (Request → Except String Pod))
    (client : Client) (req : Request)
    (h : ∀ decode pod, decoder = some decode → decode req = .ok pod →
      getEnv env "TARGET_CONTAINER_NAME" "" = "" ∨
      containsTargetContainer pod (getEnv env "TARGET_CONTAINER_NAME" "") = false ∨
      hasInitContainer env pod = true) :
    (Handle env json decoder client req).response.Patches = [] ∧
      (Handle env json decoder client req).pod = none ∧
      (Handle env json decoder client req).client = client := by
  unfold Handle
  cases decoder with
  | none => exact ⟨rfl, rfl, rfl⟩
  | some decode =>
    simp only
    cases hdec : decode req with
    | error err => exact ⟨rfl, rfl, rfl⟩
    | ok pod =>
      simp only
      by_cases ht : getEnv env "TARGET_CONTAINER_NAME" "" = ""
      · rw [if_pos ht]
        exact ⟨rfl, rfl, rfl⟩
      · rw [if_neg ht]
        by_cases hc : containsTargetContainer pod (getEnv env "TARGET_CONTAINER_NAME" "") = true
        · have hi : hasInitContainer env pod = true := by
            rcases h decode pod rfl hdec with h1 | h1 | h1
            · exact absurd h1 ht
            · rw [hc] at h1; cases h1
            · exact h1
          simp only [hc, hi, Bool.not_true, Bool.false_eq_true, if_false, if_true]
          exact ⟨rfl, trivial, trivial⟩
        · simp only [hc, Bool.not_false, if_true]
          exact ⟨rfl, trivial, trivial⟩

/-! ## Ensuring the service account and its binding, when every call is served -/

theorem Client.next_served (client : Client) (h : client.outcomes = []) :
    client.next = (.served, client) := by
  unfold Client.next
  rw [h]

theorem findServiceAccount_append (name ns : String) (l : List ServiceAccountObj)
    (sa : ServiceAccountObj) :
    findServiceAccount name ns (l ++ [sa]) =
      match findServiceAccount name ns l with
      | some x => some x
      | none => if sa.Name = name ∧ sa.Namespace = ns then some sa else none := by
  induction l with
  | nil => simp [findServiceAccount]
  | cons a l ih =>
    by_cases ha : a.Name = name ∧ a.Namespace = ns
    · simp [findServiceAccount, ha]
    · simp only [List.cons_append, findServiceAccount, if_neg ha]
      exact ih

theorem findBinding_append (name : String) (l : List ClusterRoleBinding)
    (b : ClusterRoleBinding) :
    findBinding name (l ++ [b]) =
      match findBinding name l with
      | some x => some x
      | none => if b.Name = name then some b else none := by
  induction l with
  | nil => simp [findBinding]
  | cons a l ih =>
    by_cases ha : a.Name = name
    · simp [findBinding, ha]
    · simp only [List.cons_append, findBinding, if_neg ha]
      exact ih

/-- With every call served, `ensureServiceAccountExists` returns no error and leaves the
account in the store; it touches no binding. -/
theorem ensureServiceAccountExists_served (client : Client) (name ns : String)
    (h : client.outcomes = []) :
    (ensureServiceAccountExists client name ns).1 = none ∧
      (ensureServiceAccountExists client name ns).2.outcomes = [] ∧
      (ensureServiceAccountExists client name ns).2.store.bindings = client.store.bindings ∧
      (findServiceAccount name ns
        (ensureServiceAccountExists client name ns).2.store.serviceAccounts).isSome = true := by
  unfold ensureServiceAccountExists Client.getServiceAccount
  rw [Client.next_served client h]
  simp only
  cases hf : findServiceAccount name ns client.store.serviceAccounts with
  | some sa =>
    simp only
    exact ⟨trivial, h, trivial, by rw [hf]; rfl⟩
  | none =>
    simp only
    unfold Client.createServiceAccount
    rw [Client.next_served client h]
    simp only [hf]
    refine ⟨trivial, h, trivial, ?_⟩
    rw [findServiceAccount_append, hf]
    simp

/-- With every call served and the cluster role set, `ensureServiceAccountPermissions` returns
no error; it touches no service account; a binding found under the name is left as it is, and
otherwise the binding of the service account is added. -/
theorem ensureServiceAccountPermissions_served (env : Env) (client : Client)
    (serviceAccountName ns : String) (h : client.outcomes = [])
    (hrole : getEnv env "INIT_CONTAINER_CLUSTER_ROLE" "" ≠ "") :
    (ensureServiceAccountPermissions env client serviceAccountName ns).1 = none ∧
      (ensureServiceAccountPermissions env client serviceAccountName ns).2.outcomes = [] ∧
      (ensureServiceAccountPermissions env client serviceAccountName ns).2.store.serviceAccounts =
        client.store.serviceAccounts ∧
      (∀ b, findBinding (bindingName ns serviceAccountName) client.store.bindings = some b →
        (ensureServiceAccountPermissions env client serviceAccountName ns).2 = client) ∧
      (findBinding (bindingName ns serviceAccountName) client.store.bindings = none →
        (ensureServiceAccountPermissions env client serviceAccountName ns).2.store.bindings =
          client.store.bindings ++
            [{ Name := bindingName ns serviceAccountName
               Labels := [("app.kubernetes.io/managed-by", "nri-balloons-controller")]
               Subjects := [{ Kind := "ServiceAccount", Name := serviceAccountName
                              Namespace := ns }]
               RoleRef := { APIGroup := "rbac.authorization.k8s.io", Kind := "ClusterRole"
                            Name := getEnv env "INIT_CONTAINER_CLUSTER_ROLE" "" } }]) := by
  unfold ensureServiceAccountPermissions Client.getBinding
  rw [if_neg hrole, Client.next_served client h]
  simp only
  cases hf : findBinding (bindingName ns serviceAccountName) client.store.bindings with
  | some b =>
    simp only
    refine ⟨trivial, h, trivial, fun _ _ => trivial, ?_⟩
    intro hc
    cases hc
  | none =>
    simp only
    unfold Client.createBinding
    rw [Client.next_served client h]
    simp only [hf]
    refine ⟨trivial, h, trivial, ?_, fun _ => trivial⟩
    intro b hb
    cases hb

/-- For one namespace, different service accounts have different binding names. -/
theorem bindingName_right (ns a b : String) (h : bindingName ns a = bindingName ns b) :
    a = b := by
  unfold bindingName at h
  have hd := congrArg String.data h
  simp only [String.data_append] at hd
  exact String.ext (List.append_cancel_left hd)

/-- The client and the pod after a call of `Handle` that mutates the pod. -/
theorem Handle_mutating_parts (env : Env) (json : Json) (decode : Request → Except String Pod)
    (client : Client) (req : Request) (pod : Pod)
    (hdec : decode req = .ok pod)
    (htarget : getEnv env "TARGET_CONTAINER_NAME" "" ≠ "")
    (hcontains : containsTargetContainer pod (getEnv env "TARGET_CONTAINER_NAME" "") = true)
    (hinit : hasInitContainer env pod = false) :
    (Handle env json (some decode) client req).pod =
        some { pod with
          ServiceAccountName := (configureServiceAccount env client pod).1
          InitContainers := createInitContainer env :: pod.InitContainers } ∧
      (Handle env json (some decode) client req).client =
        (configureServiceAccount env client pod).2.1 ∧
      (Handle env json (some decode) client req).logged =
        (configureServiceAccount env client pod).2.2 := by
  rw [Handle_mutating env json decode client req pod hdec htarget hcontains hinit]
  cases json.marshal { pod with
    ServiceAccountName := (configureServiceAccount env client pod).1
    InitContainers := createInitContainer env :: pod.InitContainers } <;> exact ⟨rfl, rfl, rfl⟩

/-- The pod uses the default service account and a dedicated one is configured: with every
call served and the cluster role set, the dedicated account is ensured, then its binding, and
the pod takes the dedicated account. -/
theorem configureServiceAccount_default (env : Env) (client : Client) (pod : Pod)
    (hsa : pod.ServiceAccountName = "" ∨ pod.ServiceAccountName = "default")
    (hded : getEnv env "INIT_CONTAINER_SERVICE_ACCOUNT" "" ≠ "")
    (hserved : client.outcomes = [])
    (hrole : getEnv env "INIT_CONTAINER_CLUSTER_ROLE" "" ≠ "") :
    configureServiceAccount env client pod =
      (getEnv env "INIT_CONTAINER_SERVICE_ACCOUNT" "",
        (ensureServiceAccountPermissions env
          (ensureServiceAccountExists client (getEnv env "INIT_CONTAINER_SERVICE_ACCOUNT" "")
            pod.Namespace).2
          (getEnv env "INIT_CONTAINER_SERVICE_ACCOUNT" "") pod.Namespace).2, []) := by
  have hname : (if pod.ServiceAccountName = "" then "default" else pod.ServiceAccountName) =
      "default" := by
    rcases hsa with h | h
    · rw [if_pos h]
    · rw [h]; rfl
  obtain ⟨e1, o1, _, _⟩ := ensureServiceAccountExists_served client
    (getEnv env "INIT_CONTAINER_SERVICE_ACCOUNT" "") pod.Namespace hserved
  obtain ⟨e2, _, _, _, _⟩ := ensureServiceAccountPermissions_served env
    (ensureServiceAccountExists client (getEnv env "INIT_CONTAINER_SERVICE_ACCOUNT" "")
      pod.Namespace).2
    (getEnv env "INIT_CONTAINER_SERVICE_ACCOUNT" "") pod.Namespace o1 hrole
  unfold configureServiceAccount
  simp only [hname, if_true, if_pos hded]
  cases h1 : ensureServiceAccountExists client (getEnv env "INIT_CONTAINER_SERVICE_ACCOUNT" "")
      pod.Namespace with
  | mk err1 c1 =>
    rw [h1] at e1 e2
    simp only at e1 e2
    subst e1
    simp only
    cases h2 : ensureServiceAccountPermissions env c1
        (getEnv env "INIT_CONTAINER_SERVICE_ACCOUNT" "") pod.Namespace with
    | mk err2 c2 =>
      rw [h2] at e2
      simp only at e2
      subst e2
      rfl

/-- The pod names a service account of its own: with every call served and the cluster role
set, the binding of that account is ensured and the pod keeps the account. -/
theorem configureServiceAccount_custom (env : Env) (client : Client) (pod : Pod)
    (h1 : pod.ServiceAccountName ≠ "") (h2 : pod.ServiceAccountName ≠ "default")
    (hserved : client.outcomes = [])
    (hrole : getEnv env "INIT_CONTAINER_CLUSTER_ROLE" "" ≠ "") :
    configureServiceAccount env client pod =
      (pod.ServiceAccountName,
        (ensureServiceAccountPermissions env client pod.ServiceAccountName pod.Namespace).2,
        []) := by
  obtain ⟨e2, _, _, _, _⟩ := ensureServiceAccountPermissions_served env client
    pod.ServiceAccountName pod.Namespace hserved hrole
  unfold configureServiceAccount
  simp only [if_neg h1, if_neg h2]
  cases h3 : ensureServiceAccountPermissions env client pod.ServiceAccountName pod.Namespace with
  | mk err2 c2 =>
    rw [h3] at e2
    simp only at e2
    subst e2
    rfl

/-- C25: `Handle` answers with patches only if a decoder was injected, `TARGET_CONTAINER_NAME`
is set and not empty, the pod has a regular container of that name and no init container named
`INIT_CONTAINER_NAME` (`wait-for-balloons` by default). Without a decoder the answer is an
error of code 500, and so it is, for a request that decodes, when `TARGET_CONTAINER_NAME` is
not set. When the target container is missing or the init container is there already, the
answer is allowed, without patches and without a call to the API server; that is the answer
to a pod as a call of `Handle` has mutated it. -/
theorem handle_patches_only_if (env : Env) (json : Json)
    (decoder : Option (Request → Except String Pod)) (client : Client) (req : Request) :
    ((Handle env json decoder client req).response.Patches ≠ [] →
      ∃ decode pod, decoder = some decode ∧ decode req = .ok pod ∧
        getEnv env "TARGET_CONTAINER_NAME" "" ≠ "" ∧
        containsTargetContainer pod (getEnv env "TARGET_CONTAINER_NAME" "") = true ∧
        hasInitContainer env pod = false) ∧
    (decoder = none →
      (Handle env json decoder client req).response = Errored 500 "decoder not initialized") ∧
    (∀ decode pod, decoder = some decode → decode req = .ok pod →
      (getEnv env "TARGET_CONTAINER_NAME" "" = "" →
        (Handle env json decoder client req).response.Allowed = false ∧
        (Handle env json decoder client req).response.Code = 500 ∧
        (Handle env json decoder client req).response.Patches = []) ∧
      (getEnv env "TARGET_CONTAINER_NAME" "" ≠ "" →
        containsTargetContainer pod (getEnv env "TARGET_CONTAINER_NAME" "") = false ∨
          hasInitContainer env pod = true →
        (Handle env json decoder client req).response.Allowed = true ∧
        (Handle env json decoder client req).response.Patches = [] ∧
        (Handle env json decoder client req).pod = none ∧
        (Handle env json decoder client req).client = client) ∧
      (∀ mutated, (Handle env json decoder client req).pod = some mutated →
        ∀ client2 req2,
          (Handle env json (some (fun _ => .ok mutated)) client2 req2).response =
            Allowed "init container exists" ∧
          (Handle env json (some (fun _ => .ok mutated)) client2 req2).client = client2)) := by
  refine ⟨?_, ?_, ?_⟩
  · intro hp
    cases decoder with
    | none => exact absurd rfl hp
    | some decode =>
      cases hdec : decode req with
      | error err =>
        exfalso
        apply hp
        unfold Handle
        simp only [hdec]
        rfl
      | ok pod =>
        by_cases ht : getEnv env "TARGET_CONTAINER_NAME" "" = ""
        · exfalso
          apply hp
          exact (Handle_skipping env json (some decode) client req (fun d p hd hpd =>
            Or.inl ht)).1
        · by_cases hc : containsTargetContainer pod (getEnv env "TARGET_CONTAINER_NAME" "") = true
          · by_cases hi : hasInitContainer env pod = true
            · exfalso
              apply hp
              refine (Handle_skipping env json (some decode) client req (fun d p hd hpd => ?_)).1
              cases hd
              rw [hdec] at hpd
              cases hpd
              exact Or.inr (Or.inr hi)
            · exact ⟨decode, pod, rfl, hdec, ht, hc, by simpa using hi⟩
          · exfalso
            apply hp
            refine (Handle_skipping env json (some decode) client req (fun d p hd hpd => ?_)).1
            cases hd
            rw [hdec] at hpd
            cases hpd
            exact Or.inr (Or.inl (by simpa using hc))
  · intro hd
    subst hd
    rfl
  · intro decode pod hd hdec
    subst hd
    refine ⟨?_, ?_, ?_⟩
    · intro ht
      unfold Handle
      simp only [hdec, if_pos ht]
      exact ⟨rfl, rfl, rfl⟩
    · intro ht hskip
      have hs := Handle_skipping env json (some decode) client req (fun d p hd hpd => by
        cases hd
        rw [hdec] at hpd
        cases hpd
        exact Or.inr hskip)
      refine ⟨?_, hs.1, hs.2.1, hs.2.2⟩
      unfold Handle
      simp only [hdec, if_neg ht]
      rcases hskip with hc | hi
      · simp only [hc, Bool.not_false, if_true]
        rfl
      · by_cases hc : containsTargetContainer pod (getEnv env "TARGET_CONTAINER_NAME" "") = true
        · simp only [hc, hi, Bool.not_true, Bool.false_eq_true, if_false, if_true]
          rfl
        · simp only [hc, Bool.not_false, if_true]
          rfl
    · intro mutated hm client2 req2
      by_cases ht : getEnv env "TARGET_CONTAINER_NAME" "" = ""
      · have hs := Handle_skipping env json (some decode) client req (fun d p hd hpd =>
          Or.inl ht)
        rw [hs.2.1] at hm
        cases hm
      · by_cases hc : containsTargetContainer pod (getEnv env "TARGET_CONTAINER_NAME" "") = true
        · by_cases hi : hasInitContainer env pod = true
          · have hs := Handle_skipping env json (some decode) client req (fun d p hd hpd => by
              cases hd
              rw [hdec] at hpd
              cases hpd
              exact Or.inr (Or.inr hi))
            rw [hs.2.1] at hm
            cases hm
          · have hi2 : hasInitContainer env pod = false := by simpa using hi
            rw [Handle_mutating env json decode client req pod hdec ht hc hi2] at hm
            have hmut : mutated = { pod with
                ServiceAccountName := (configureServiceAccount env client pod).1
                InitContainers := createInitContainer env :: pod.InitContainers } := by
              cases hj : json.marshal { pod with
                ServiceAccountName := (configureServiceAccount env client pod).1
                InitContainers := createInitContainer env :: pod.InitContainers } with
              | error err =>
                rw [hj] at hm
                exact (Option.some.inj hm).symm
              | ok marshaledPod =>
                rw [hj] at hm
                exact (Option.some.inj hm).symm
            have hc2 : containsTargetContainer mutated
                (getEnv env "TARGET_CONTAINER_NAME" "") = true := by
              rw [hmut]
              exact hc
            have hi3 : hasInitContainer env mutated = true := by
              rw [hmut]
              simp [hasInitContainer, createInitContainer]
            unfold Handle
            simp only [if_neg ht, hc2, hi3, Bool.not_true, Bool.false_eq_true, if_false, if_true]
            exact ⟨trivial, trivial⟩
        · have hs := Handle_skipping env json (some decode) client req (fun d p hd hpd => by
            cases hd
            rw [hdec] at hpd
            cases hpd
            exact Or.inr (Or.inl (by simpa using hc)))
          rw [hs.2.1] at hm
          cases hm

/-- Witness of C25: the pod of the tests with the target container, which is mutated, and
the same pod with the init container in it, which is let through without patches. -/
theorem handle_patches_only_if_witness :
    (Handle testEnv sampleJson (some (decodeAs (testPod "existing-sa"))) emptyClient
        { Raw := "test-pod|existing-sa|" }).response.Patches = ["add /spec/initContainers"] ∧
    (∃ decode pod, some (decodeAs (testPod "existing-sa")) = some decode ∧
      decode { Raw := "test-pod|existing-sa|" } = .ok pod ∧
      getEnv testEnv "TARGET_CONTAINER_NAME" "" ≠ "" ∧
      containsTargetContainer pod (getEnv testEnv "TARGET_CONTAINER_NAME" "") = true ∧
      hasInitContainer testEnv pod = false) ∧
    ((Handle testEnv sampleJson (some (decodeAs mutatedTestPod)) emptyClient
        { Raw := "test-pod|existing-sa|wait-for-balloons;" }).response.Allowed = true ∧
      (Handle testEnv sampleJson (some (decodeAs mutatedTestPod)) emptyClient
        { Raw := "test-pod|existing-sa|wait-for-balloons;" }).response.Patches = [] ∧
      (Handle testEnv sampleJson (some (decodeAs mutatedTestPod)) emptyClient
        { Raw := "test-pod|existing-sa|wait-for-balloons;" }).pod = none ∧
      (Handle testEnv sampleJson (some (decodeAs mutatedTestPod)) emptyClient
        { Raw := "test-pod|existing-sa|wait-for-balloons;" }).client = emptyClient) :=
  ⟨by decide,
   (handle_patches_only_if testEnv sampleJson (some (decodeAs (testPod "existing-sa")))
      emptyClient { Raw := "test-pod|existing-sa|" }).1 (by decide),
   ((handle_patches_only_if testEnv sampleJson (some (decodeAs mutatedTestPod)) emptyClient
      { Raw := "test-pod|existing-sa|wait-for-balloons;" }).2.2 (decodeAs mutatedTestPod)
      mutatedTestPod rfl rfl).2.1 (by decide) (Or.inr (by decide))⟩

/-- C26: for a pod that holds the target container and no init container named
`INIT_CONTAINER_NAME`, the pod `Handle` hands to `json.Marshal` has the injected container in
front of the init containers of the pod, which keep their order; the injected container is
named `INIT_CONTAINER_NAME`, or `wait-for-balloons` when that is unset, with the image
`INIT_CONTAINER_IMAGE`, or `busybox:latest` when that is unset; the regular containers of the
pod are as they were. -/
theorem init_container_injected (env : Env) (json : Json)
    (decode : Request → Except String Pod) (client : Client) (req : Request) (pod : Pod)
    (hdec : decode req = .ok pod)
    (htarget : getEnv env "TARGET_CONTAINER_NAME" "" ≠ "")
    (hcontains : containsTargetContainer pod (getEnv env "TARGET_CONTAINER_NAME" "") = true)
    (hinit : hasInitContainer env pod = false) :
    ∃ mutated, (Handle env json (some decode) client req).pod = some mutated ∧
      mutated.InitContainers = createInitContainer env :: pod.InitContainers ∧
      (createInitContainer env).Name =
        (if env "INIT_CONTAINER_NAME" = "" then "wait-for-balloons"
          else env "INIT_CONTAINER_NAME") ∧
      (createInitContainer env).Image =
        (if env "INIT_CONTAINER_IMAGE" = "" then "busybox:latest"
          else env "INIT_CONTAINER_IMAGE") ∧
      mutated.Containers = pod.Containers ∧
      (∀ marshaledPod, json.marshal mutated = .ok marshaledPod →
        (Handle env json (some decode) client req).response =
          PatchResponseFromRaw json req.Raw marshaledPod) := by
  refine ⟨{ pod with
      ServiceAccountName := (configureServiceAccount env client pod).1
      InitContainers := createInitContainer env :: pod.InitContainers }, ?_, rfl, rfl, rfl, rfl, ?_⟩
  · rw [Handle_mutating env json decode client req pod hdec htarget hcontains hinit]
    cases json.marshal { pod with
      ServiceAccountName := (configureServiceAccount env client pod).1
      InitContainers := createInitContainer env :: pod.InitContainers } <;> rfl
  · intro marshaledPod hm
    rw [Handle_mutating env json decode client req pod hdec htarget hcontains hinit, hm]

/-- Witness of C26: the pod of the tests with an init container of its own. -/
theorem init_container_injected_witness :
    ∃ mutated,
      (Handle testEnv sampleJson
        (some (decodeAs { testPod "existing-sa" with InitContainers := [namedContainer "setup"] }))
        emptyClient { Raw := "test-pod|existing-sa|setup;" }).pod = some mutated ∧
      mutated.InitContainers = createInitContainer testEnv ::
        ({ testPod "existing-sa" with InitContainers := [namedContainer "setup"] } : Pod).InitContainers ∧
      (createInitContainer testEnv).Name =
        (if testEnv "INIT_CONTAINER_NAME" = "" then "wait-for-balloons"
          else testEnv "INIT_CONTAINER_NAME") ∧
      (createInitContainer testEnv).Image =
        (if testEnv "INIT_CONTAINER_IMAGE" = "" then "busybox:latest"
          else testEnv "INIT_CONTAINER_IMAGE") ∧
      mutated.Containers =
        ({ testPod "existing-sa" with InitContainers := [namedContainer "setup"] } : Pod).Containers ∧
      (∀ marshaledPod, sampleJson.marshal mutated = .ok marshaledPod →
        (Handle testEnv sampleJson
          (some (decodeAs { testPod "existing-sa" with InitContainers := [namedContainer "setup"] }))
          emptyClient { Raw := "test-pod|existing-sa|setup;" }).response =
          PatchResponseFromRaw sampleJson "test-pod|existing-sa|setup;" marshaledPod) :=
  init_container_injected testEnv sampleJson
    (decodeAs { testPod "existing-sa" with InitContainers := [namedContainer "setup"] })
    emptyClient { Raw := "test-pod|existing-sa|setup;" }
    { testPod "existing-sa" with InitContainers := [namedContainer "setup"] }
    rfl (by decide) (by decide) (by decide)

/-! ### C27: the service account of a mutated pod -/

/-- Counterexample to C27 as stated. The pod of the tests is mutated each time. When the call
that looks up the dedicated account fails, the pod that uses the default account is not
switched and no binding is made. When `INIT_CONTAINER_CLUSTER_ROLE` is unset, the pod is
switched to the dedicated account and the account is made, but no binding is made, and for a
pod with an account of its own no binding is made either. When the dedicated account is itself
named `default`, the binding made has the `default` account as its subject. -/
theorem service_account_counterexample :
    ((Handle testEnv sampleJson (some (decodeAs (testPod ""))) failingClient
        { Raw := "test-pod||" }).pod.map (fun p => (p.ServiceAccountName, p.InitContainers.length))
        = some ("", 1) ∧
      (Handle testEnv sampleJson (some (decodeAs (testPod ""))) failingClient
        { Raw := "test-pod||" }).client.store = { serviceAccounts := [], bindings := [] }) ∧
    ((Handle envWithoutRole sampleJson (some (decodeAs (testPod ""))) emptyClient
        { Raw := "test-pod||" }).pod.map (fun p => (p.ServiceAccountName, p.InitContainers.length))
        = some ("custom-sa", 1) ∧
      (Handle envWithoutRole sampleJson (some (decodeAs (testPod ""))) emptyClient
        { Raw := "test-pod||" }).client.store.bindings = [] ∧
      (Handle envWithoutRole sampleJson (some (decodeAs (testPod ""))) emptyClient
        { Raw := "test-pod||" }).logged =
        ["INIT_CONTAINER_CLUSTER_ROLE environment variable not set"]) ∧
    ((Handle envWithoutRole sampleJson (some (decodeAs (testPod "existing-sa"))) emptyClient
        { Raw := "test-pod|existing-sa|" }).pod.map
          (fun p => (p.ServiceAccountName, p.InitContainers.length)) = some ("existing-sa", 1) ∧
      (Handle envWithoutRole sampleJson (some (decodeAs (testPod "existing-sa"))) emptyClient
        { Raw := "test-pod|existing-sa|" }).client.store.bindings = []) ∧
    (Handle envDedicatedDefault sampleJson (some (decodeAs (testPod ""))) emptyClient
        { Raw := "test-pod||" }).client.store.bindings.map (fun b => b.Subjects) =
      [[{ Kind := "ServiceAccount", Name := "default", Namespace := "default" }]] := by
  refine ⟨⟨?_, ?_⟩, ⟨?_, ?_, ?_⟩, ⟨?_, ?_⟩, ?_⟩
  · decide
  · decide
  · decide
  · decide
  · decide
  · decide
  · decide
  · decide

/-- C27, amended: for a pod that is mutated, when every call to the API server is served and
`INIT_CONTAINER_CLUSTER_ROLE` is set. If the service account of the pod is empty or `default`
and `INIT_CONTAINER_SERVICE_ACCOUNT` is set, the pod is switched to that dedicated account, the
account is in the store afterwards, a binding named after the namespace and the dedicated
account is in the store afterwards, and every binding that was not there before has the
dedicated account of the namespace of the pod as its single subject. If the pod names any
other service account, the pod keeps it, no service account is made, a binding named after the
namespace and that account is in the store afterwards, and if none of that name was there
before it is the binding whose single subject is that account in the namespace of the pod and
whose role reference is the ClusterRole named by `INIT_CONTAINER_CLUSTER_ROLE`. -/
theorem service_account_handling (env : Env) (json : Json)
    (decode : Request → Except String Pod) (client : Client) (req : Request) (pod : Pod)
    (hdec : decode req = .ok pod)
    (htarget : getEnv env "TARGET_CONTAINER_NAME" "" ≠ "")
    (hcontains : containsTargetContainer pod (getEnv env "TARGET_CONTAINER_NAME" "") = true)
    (hinit : hasInitContainer env pod = false)
    (hserved : client.outcomes = [])
    (hrole : getEnv env "INIT_CONTAINER_CLUSTER_ROLE" "" ≠ "") :
    ∃ mutated, (Handle env json (some decode) client req).pod = some mutated ∧
      ((pod.ServiceAccountName = "" ∨ pod.ServiceAccountName = "default") →
        getEnv env "INIT_CONTAINER_SERVICE_ACCOUNT" "" ≠ "" →
        mutated.ServiceAccountName = getEnv env "INIT_CONTAINER_SERVICE_ACCOUNT" "" ∧
        (findServiceAccount (getEnv env "INIT_CONTAINER_SERVICE_ACCOUNT" "") pod.Namespace
          (Handle env json (some decode) client req).client.store.serviceAccounts).isSome
            = true ∧
        (findBinding (bindingName pod.Namespace (getEnv env "INIT_CONTAINER_SERVICE_ACCOUNT" ""))
          (Handle env json (some decode) client req).client.store.bindings).isSome = true ∧
        (∀ b, b ∈ (Handle env json (some decode) client req).client.store.bindings →
          b ∉ client.store.bindings →
          b.Subjects = [{ Kind := "ServiceAccount"
                          Name := getEnv env "INIT_CONTAINER_SERVICE_ACCOUNT" ""
                          Namespace := pod.Namespace }])) ∧
      (pod.ServiceAccountName ≠ "" → pod.ServiceAccountName ≠ "default" →
        mutated.ServiceAccountName = pod.ServiceAccountName ∧
        (Handle env json (some decode) client req).client.store.serviceAccounts =
          client.store.serviceAccounts ∧
        (findBinding (bindingName pod.Namespace pod.ServiceAccountName)
          (Handle env json (some decode) client req).client.store.bindings).isSome = true ∧
        (findBinding (bindingName pod.Namespace pod.ServiceAccountName) client.store.bindings
            = none →
          findBinding (bindingName pod.Namespace pod.ServiceAccountName)
            (Handle env json (some decode) client req).client.store.bindings =
            some { Name := bindingName pod.Namespace pod.ServiceAccountName
                   Labels := [("app.kubernetes.io/managed-by", "nri-balloons-controller")]
                   Subjects := [{ Kind := "ServiceAccount", Name := pod.ServiceAccountName
                                  Namespace := pod.Namespace }]
                   RoleRef := { APIGroup := "rbac.authorization.k8s.io", Kind := "ClusterRole"
                                Name := getEnv env "INIT_CONTAINER_CLUSTER_ROLE" "" } })) := by
  obtain ⟨hp, hc, _⟩ :=
    Handle_mutating_parts env json decode client req pod hdec htarget hcontains hinit
  refine ⟨_, hp, ?_, ?_⟩
  · intro hsa hded
    have hcfg := configureServiceAccount_default env client pod hsa hded hserved hrole
    obtain ⟨_, o1, b1, f1⟩ := ensureServiceAccountExists_served client
      (getEnv env "INIT_CONTAINER_SERVICE_ACCOUNT" "") pod.Namespace hserved
    obtain ⟨_, _, s2, k2, n2⟩ := ensureServiceAccountPermissions_served env
      (ensureServiceAccountExists client (getEnv env "INIT_CONTAINER_SERVICE_ACCOUNT" "")
        pod.Namespace).2
      (getEnv env "INIT_CONTAINER_SERVICE_ACCOUNT" "") pod.Namespace o1 hrole
    rw [hc, hcfg]
    simp only
    refine ⟨trivial, ?_, ?_, ?_⟩
    · rw [s2]
      exact f1
    · cases hf : findBinding
          (bindingName pod.Namespace (getEnv env "INIT_CONTAINER_SERVICE_ACCOUNT" ""))
          (ensureServiceAccountExists client (getEnv env "INIT_CONTAINER_SERVICE_ACCOUNT" "")
            pod.Namespace).2.store.bindings with
      | some b0 =>
        rw [k2 b0 hf, hf]
        rfl
      | none =>
        rw [n2 hf, findBinding_append, hf]
        simp
    · intro b hb hnb
      cases hf : findBinding
          (bindingName pod.Namespace (getEnv env "INIT_CONTAINER_SERVICE_ACCOUNT" ""))
          (ensureServiceAccountExists client (getEnv env "INIT_CONTAINER_SERVICE_ACCOUNT" "")
            pod.Namespace).2.store.bindings with
      | some b0 =>
        rw [k2 b0 hf, b1] at hb
        exact absurd hb hnb
      | none =>
        rw [n2 hf, b1] at hb
        rcases List.mem_append.mp hb with h | h
        · exact absurd h hnb
        · rw [List.mem_singleton.mp h]
  · intro h1 h2
    have hcfg := configureServiceAccount_custom env client pod h1 h2 hserved hrole
    obtain ⟨_, _, s2, k2, n2⟩ := ensureServiceAccountPermissions_served env client
      pod.ServiceAccountName pod.Namespace hserved hrole
    rw [hc, hcfg]
    simp only
    refine ⟨trivial, s2, ?_, ?_⟩
    · cases hf : findBinding (bindingName pod.Namespace pod.ServiceAccountName)
          client.store.bindings with
      | some b0 =>
        rw [k2 b0 hf, hf]
        rfl
      | none =>
        rw [n2 hf, findBinding_append, hf]
        simp
    · intro hf
      rw [n2 hf, findBinding_append, hf]
      simp

/-- Witness of C27: the pod of the tests under the service account `existing-sa`, on an empty
store. -/
theorem service_account_handling_witness :
    ∃ mutated,
      (Handle testEnv sampleJson (some (decodeAs (testPod "existing-sa"))) emptyClient
        { Raw := "test-pod|existing-sa|" }).pod = some mutated ∧
      mutated.ServiceAccountName = "existing-sa" ∧
      findBinding (bindingName "default" "existing-sa")
        (Handle testEnv sampleJson (some (decodeAs (testPod "existing-sa"))) emptyClient
          { Raw := "test-pod|existing-sa|" }).client.store.bindings =
        some { Name := "nri-balloons-init-default-existing-sa"
               Labels := [("app.kubernetes.io/managed-by", "nri-balloons-controller")]
               Subjects := [{ Kind := "ServiceAccount", Name := "existing-sa"
                              Namespace := "default" }]
               RoleRef := { APIGroup := "rbac.authorization.k8s.io", Kind := "ClusterRole"
                            Name := "test-role" } } :=
  match service_account_handling testEnv sampleJson (decodeAs (testPod "existing-sa"))
      emptyClient { Raw := "test-pod|existing-sa|" } (testPod "existing-sa")
      rfl (by decide) (by decide) (by decide) rfl (by decide) with
  | ⟨mutated, hp, _, hcustom⟩ =>
    ⟨mutated, hp, (hcustom (by decide) (by decide)).1,
      (hcustom (by decide) (by decide)).2.2.2 (by decide)⟩

end Balloons

namespace GMC

/-- C28: the restart annotation after a change of a ConfigMap or Service. For a Deployment
document with an annotation of its own and none on its pod template, the stamp writes to a map
that is absent and the call panics, also within a pass over the sample graph, whose Service
document changes the stored Service. For a document with an annotation on its pod template and
none of its own, the annotations of the pod template are replaced by the stamp alone. -/
theorem restart_stamp_wrong_map :
    shapeDocument sampleWorld sampleCluster "rag" embStep { Steps := [] } true
        annotatedDeploymentDoc = .error (.panic "assignment to entry in nil map") ∧
    (reconcileGraph annotatedWorld promptly sampleCluster (sampleGraph freshStatus)).failure =
      some (.panic "assignment to entry in nil map") ∧
    templateAnnotatedDoc.template.annotations = some [("sidecar.istio.io/inject", "true")] ∧
    (shapeDocument sampleWorld sampleCluster "rag" embStep { Steps := [] } true
        templateAnnotatedDoc).map (fun o => o.template.annotations) =
      .ok (some [("kubectl.kubernetes.io/restartedAt", "2024-01-01T00:00:00Z")]) := by
  decide

/-- C29: a Deployment owned by graph `chatqa`, whose graph is found and tracks no resource.
The status aggregation fails with `graph is empty or no annotations`, and `handleStatusUpdate`
returns no error; so does the reconcile request that names the Deployment. -/
theorem status_update_error_dropped :
    (collectResourceStatus sampleWorld
        [ownedDeployment [{ kind := "GMConnector", name := "chatqa" }] "True"]
        (sampleGraph freshStatus)).2 = some (.error "graph is empty or no annotations") ∧
    handleStatusUpdate sampleWorld
        [ownedDeployment [{ kind := "GMConnector", name := "chatqa" }] "True"] getSampleGraph
        (ownedDeployment [{ kind := "GMConnector", name := "chatqa" }] "True") = .ok none ∧
    reconcileDeploymentRequest sampleWorld
        [ownedDeployment [{ kind := "GMConnector", name := "chatqa" }] "True"] getSampleGraph
        "rag" "emb-deployment" = .ok none := by
  decide

end GMC

namespace Balloons

/-! ### C30: the name of the binding and its subject -/

/-- C30: the binding name does not identify its subject. Service account `b` of namespace
`team-a` and service account `a-b` of namespace `team` are given the same binding name. Once
the webhook has handled a pod of `team` under `a-b`, the store holds the binding whose subject
is `a-b` of `team`; handling a pod of `team-a` under `b` then finds that binding under the
name, logs no error, mutates the pod and leaves the bindings as they are, so no binding has
`b` of `team-a` as a subject. -/
theorem binding_name_collision :
    bindingName "team-a" "b" = bindingName "team" "a-b" ∧
    (("team-a", "b") : String × String) ≠ ("team", "a-b") ∧
    (Handle testEnv sampleJson (some (decodeAs (podIn "team" "a-b"))) emptyClient
        { Raw := "test-pod|a-b|" }).client =
      { store := { serviceAccounts := [], bindings := [teamBinding] }, outcomes := [] } ∧
    (Handle testEnv sampleJson (some (decodeAs (podIn "team-a" "b")))
        (Handle testEnv sampleJson (some (decodeAs (podIn "team" "a-b"))) emptyClient
          { Raw := "test-pod|a-b|" }).client
        { Raw := "test-pod|b|" }).client.store.bindings = [teamBinding] ∧
    (Handle testEnv sampleJson (some (decodeAs (podIn "team-a" "b")))
        (Handle testEnv sampleJson (some (decodeAs (podIn "team" "a-b"))) emptyClient
          { Raw := "test-pod|a-b|" }).client
        { Raw := "test-pod|b|" }).logged = [] ∧
    (Handle testEnv sampleJson (some (decodeAs (podIn "team-a" "b")))
        (Handle testEnv sampleJson (some (decodeAs (podIn "team" "a-b"))) emptyClient
          { Raw := "test-pod|a-b|" }).client
        { Raw := "test-pod|b|" }).pod.map
          (fun p => (p.Namespace, p.ServiceAccountName, p.InitContainers.length)) =
      some ("team-a", "b", 1) ∧
    teamBinding.Subjects = [{ Kind := "ServiceAccount", Name := "a-b", Namespace := "team" }] := by
  refine ⟨?_, ?_, ?_, ?_, ?_, ?_, ?_⟩
  · decide
  · decide
  · decide
  · decide
  · decide
  · decide
  · decide

end Balloons
